import Mathlib

/-!
# GlobalStaticOptimizationSolver and SimbodyEngine

A shallow embedding of `GlobalStaticOptimizationSolver.cpp`: the constructor of the problem
`GSOProblemSeparate`, `initialize_on_mesh`, `path_constraints`, `integral_cost`,
`deconstruct_iterate`, `Solution::write`, and of `solve` the selection of the coordinates to
actuate, the creation of the reserve actuators and the validation of the cutoff frequencies;
and of `SimbodyEngine.cpp`: `identifyGroundBody`, `extractConfiguration`, the flat-array
overloads of `applyForces` and `applyForcesBodyLocal`, and the conversions of a storage between
quaternions and angles.

* The scalar type `T` of the C++ template (and `double`) is an arbitrary type `α` with a zero,
  a one, a sum, a difference and a product; `cast<adouble>()` is the identity.  The statements
  that rest on the laws of arithmetic take `α` to be a commutative ring (a field, or a linearly
  ordered field, where a statement divides or compares): there the arithmetic is exact.  The
  type `Double` is the arithmetic of the program itself: finite IEEE 754 binary64 numbers, each
  operation rounded to nearest, ties to even.
* Eigen vectors are lists; Eigen matrices carry their dimensions and a coefficient function.
  In `path_constraints` every indexed read or write of the source is bounds-checked and every
  Eigen operation that requires matching dimensions checks them: an evaluation that would
  leave the bounds yields `none`.
* The constructor is a function from the model and the motion data to the state reached and the
  exception thrown, if any.
* In `deconstruct_iterate` the views into the control matrix and the reads of the cache are
  bounds-checked in the same way; a table is its column labels and its rows in the order they
  were appended, and `Solution::write` yields the files it writes.
* The steps of `solve` return the value computed or the exception thrown; the `std::set` of
  paths is the list of its elements in ascending order.
* To state what a member function does to the object, `initialize_on_mesh`, `path_constraints`
  and `integral_cost` are also given statement by statement as actions on the members and on
  the queries sent to the motion data (`Member`): a statement reads a member, assigns to one,
  or calls the motion data.
* In the engine, C arrays are lists and a null pointer is `none`; an `int` is an integer; a
  function that applies forces yields the calls it makes of the function that applies one
  force; the loops over the state vectors of a storage run on explicit loop variables, for a
  bounded number of tests of the loop condition, and an access outside an array stops them.
-/

namespace OpenSim

/-! ## The model, as far as the problem inspects it -/

/-- What `dynamic_cast` can tell about a `ScalarActuator`: it is a `Muscle`, a
`CoordinateActuator`, or neither. -/
inductive ActuatorKind where
  | muscle
  | coordinateActuator
  | other
  deriving DecidableEq, Repr

/-- A `Coordinate` of the model.  `relativePathName` stands for
`ComponentPath(getAbsolutePathName()).formRelativePath(modelPath).toString()`. -/
structure Coordinate where
  absolutePathName : String
  relativePathName : String
  isConstrained : Bool
  deriving DecidableEq, Repr

/-- A `ScalarActuator` component with the properties the solver reads.  The fields after
`max_control` are read only for the kind they belong to. -/
structure ScalarActuator (α : Type) where
  kind : ActuatorKind
  concreteClassName : String
  name : String
  absolutePathName : String
  appliesForce : Bool
  min_control : α
  max_control : α
  /-- The value of `CoordinateActuator::getOptimalForce()`. -/
  optimalForce : α
  /-- The target of `CoordinateActuator::getCoordinate()`. -/
  coordinate : Coordinate
  max_isometric_force : α
  optimal_fiber_length : α
  tendon_slack_length : α
  pennation_angle_at_optimal : α
  max_contraction_velocity : α

/-- The `Model`: `scalarActuators` is `getComponentList<ScalarActuator>()` in iteration order. -/
structure Model (α : Type) where
  absolutePathName : String
  scalarActuators : List (ScalarActuator α)
  coordinatesInMultibodyTreeOrder : List Coordinate

/-- The list `getComponentList<CoordinateActuator>()`: the components that cast to
`CoordinateActuator`, in iteration order. -/
def Model.coordinateActuators {α : Type} (model : Model α) : List (ScalarActuator α) :=
  model.scalarActuators.filter fun a => a.kind = ActuatorKind.coordinateActuator

/-- The list `getComponentList<Muscle>()`: the components that cast to `Muscle`, in iteration
order. -/
def Model.muscles {α : Type} (model : Model α) : List (ScalarActuator α) :=
  model.scalarActuators.filter fun a => a.kind = ActuatorKind.muscle

/-! ## Eigen matrices -/

/-- An `Eigen::MatrixXd`: dimensions and coefficients. -/
structure MatrixX (α : Type) where
  rows : Nat
  cols : Nat
  coeff : Nat → Nat → α

namespace MatrixX

variable {α : Type}

/-- The matrix `Eigen::MatrixXd()` of a default-constructed member. -/
def empty [Zero α] : MatrixX α := ⟨0, 0, fun _ _ => 0⟩

/-- Coefficient access `M(i, j)`. -/
def get? (M : MatrixX α) (i j : Nat) : Option α :=
  if i < M.rows ∧ j < M.cols then some (M.coeff i j) else none

/-- Column access `M.col(j)`. -/
def col? (M : MatrixX α) (j : Nat) : Option (List α) :=
  if j < M.cols then some ((List.range M.rows).map fun i => M.coeff i j) else none

/-- Matrix-vector product `M * v`, defined when `v` has `M.cols` entries. -/
def mulVec? [Zero α] [Add α] [Mul α] (M : MatrixX α) (v : List α) : Option (List α) :=
  if M.cols = v.length then
    some ((List.range M.rows).map fun i =>
      (List.zipWith (fun a b => a * b) ((List.range M.cols).map fun j => M.coeff i j) v).sum)
  else none

end MatrixX

/-- Vector sum `a += b`, defined for equal sizes. -/
def vecAdd? {α : Type} [Add α] (a b : List α) : Option (List α) :=
  if a.length = b.length then some (List.zipWith (fun x y => x + y) a b) else none

/-- Vector difference `a - b`, defined for equal sizes. -/
def vecSub? {α : Type} [Sub α] (a b : List α) : Option (List α) :=
  if a.length = b.length then some (List.zipWith (fun x y => x - y) a b) else none

/-! ## Collaborators: the muscle model and the motion data -/

/-- The parameters a `DeGroote2016Muscle<T>` is constructed from, in argument order. -/
structure DeGroote2016Muscle (α : Type) where
  max_isometric_force : α
  optimal_fiber_length : α
  tendon_slack_length : α
  pennation_angle_at_optimal : α
  max_contraction_velocity : α

/-- The member functions of `DeGroote2016Muscle` the problem calls (`DeGroote2016Muscle.h` is
not among the sources, so they are parameters): the fiber force along the tendon at
`(activation, musTenLength, musTenVelocity)` and the pair (normalized fiber length, normalized
fiber velocity) at `(musTenLength, musTenVelocity)`. -/
structure MuscleFunctions (α : Type) where
  calcRigidTendonFiberForceAlongTendon : DeGroote2016Muscle α → α → α → α → α
  calcRigidTendonFiberKinematics : DeGroote2016Muscle α → α → α → α × α

/-- The queries of `InverseMuscleSolverMotionData` the problem uses (the class is not among the
sources, so they are parameters). -/
structure InverseMuscleSolverMotionData (α : Type) where
  getInitialTime : α
  getFinalTime : α
  getCoordinatesToActuate : List String
  interpolateNetGeneralizedForces : List α → MatrixX α
  interpolateMuscleTendonLengths : List α → MatrixX α
  interpolateMuscleTendonVelocities : List α → MatrixX α
  interpolateMomentArms : List α → List (MatrixX α)

/-! ## The problem -/

/-- The `mesh::Bounds` of a variable or constraint. -/
structure Bounds (α : Type) where
  lower : α
  upper : α
  deriving DecidableEq, Repr

/-- The exceptions the constructor throws. -/
inductive GSOError where
  /-- An enabled actuator that is neither a Muscle nor a CoordinateActuator;
  the argument is `getConcreteClassName()`. -/
  | unsupportedActuator (concreteClassName : String)
  /-- The coordinate of an enabled CoordinateActuator is not among the coordinates to actuate;
  the arguments are the absolute paths of the coordinate and of the actuator. -/
  | couldNotFindCoordinate (coordinate actuator : String)
  deriving DecidableEq, Repr

/-- The text passed to `std::runtime_error`. -/
def GSOError.what : GSOError → String
  | .unsupportedActuator c =>
      "[GSO] Only Muscles and CoordinateActuators are currently supported but the" ++
      " model contains an enabled " ++ c ++ ". Either set " ++
      "appliesForce=false for this actuator, or remove it " ++ "from the model."
  | .couldNotFindCoordinate c a =>
      "[GSO] Could not find Coordinate '" ++ c ++ "' used in " ++
      "CoordinateActuator '" ++ a ++ "'. Is the coordinate locked?"

/-- The state of a `GSOProblemSeparate<T>`: what `mesh::OptimalControlProblemNamed<T>` has
registered (`controls`, `pathConstraints`, the time bounds) and the private members. -/
structure GSOProblemSeparate (α : Type) where
  name : String
  initialTimeBounds : Option (Bounds α)
  finalTimeBounds : Option (Bounds α)
  controls : List (String × Bounds α)
  pathConstraints : List (String × Bounds α)
  _motionData : InverseMuscleSolverMotionData α
  _initialTime : α
  _finalTime : α
  _numCoordsToActuate : Nat
  _numCoordActuators : Nat
  _numMuscles : Nat
  _muscleLabels : List String
  _otherControlsLabels : List String
  _coordActuatorDOFs : List Nat
  _desiredMoments : MatrixX α
  _muscleTendonLengths : MatrixX α
  _muscleTendonVelocities : MatrixX α
  _momentArms : List (MatrixX α)
  _optimalForce : List α
  _muscles : List (DeGroote2016Muscle α)

section Construction

variable {α : Type} [Zero α] [One α] [Add α] [Sub α] [Mul α]

/-- Modelled from the spec: `mesh::OptimalControlProblemNamed::add_control` is not among the
sources; the decision-variable layout is an ordered concatenation, so registering a control
appends it to the controls registered so far. -/
def add_control (p : GSOProblemSeparate α) (name : String) (bounds : Bounds α) :
    GSOProblemSeparate α :=
  { p with controls := p.controls ++ [(name, bounds)] }

/-- Modelled from the spec: `mesh::OptimalControlProblemNamed::add_path_constraint` is not among
the sources; a path constraint is registered after those registered so far, and the single
value `0` in the source is the bounds with lower and upper bound `0` (an equality
constraint). -/
def add_path_constraint (p : GSOProblemSeparate α) (name : String) (bounds : Bounds α) :
    GSOProblemSeparate α :=
  { p with pathConstraints := p.pathConstraints ++ [(name, bounds)] }

/-- Modelled from the spec: `mesh::OptimalControlProblemNamed::set_time` is not among the
sources; it records the bounds on the initial and on the final time. -/
def set_time (p : GSOProblemSeparate α) (initial final : Bounds α) : GSOProblemSeparate α :=
  { p with initialTimeBounds := some initial, finalTimeBounds := some final }

/-- The object when the constructor body is entered: the base class is named "GSO", the time
members are those of the motion data after lines 41-42 (they are NaN before), and every
container is empty. -/
def initialProblem (motionData : InverseMuscleSolverMotionData α) : GSOProblemSeparate α where
  name := "GSO"
  initialTimeBounds := none
  finalTimeBounds := none
  controls := []
  pathConstraints := []
  _motionData := motionData
  _initialTime := motionData.getInitialTime
  _finalTime := motionData.getFinalTime
  _numCoordsToActuate := 0
  _numCoordActuators := 0
  _numMuscles := 0
  _muscleLabels := []
  _otherControlsLabels := []
  _coordActuatorDOFs := []
  _desiredMoments := MatrixX.empty
  _muscleTendonLengths := MatrixX.empty
  _muscleTendonVelocities := MatrixX.empty
  _momentArms := []
  _optimalForce := []
  _muscles := []

/-- Lines 49-61: the first enabled actuator that is neither a Muscle nor a CoordinateActuator
makes the constructor throw. -/
def checkActuators : List (ScalarActuator α) → Option GSOError
  | [] => none
  | actuator :: rest =>
      if actuator.appliesForce = true ∧ ¬ actuator.kind = ActuatorKind.muscle ∧
          ¬ actuator.kind = ActuatorKind.coordinateActuator then
        some (GSOError.unsupportedActuator actuator.concreteClassName)
      else checkActuators rest

/-- Lines 65-77: one control per enabled CoordinateActuator. -/
def addCoordinateActuatorControls (p : GSOProblemSeparate α) :
    List (ScalarActuator α) → GSOProblemSeparate α
  | [] => p
  | actuator :: rest =>
      if actuator.appliesForce = false then addCoordinateActuatorControls p rest
      else
        let actuPath := actuator.absolutePathName
        let p1 := add_control p (actuPath ++ "_control")
          ⟨actuator.min_control, actuator.max_control⟩
        let p2 := { p1 with _otherControlsLabels := p1._otherControlsLabels ++ [actuPath] }
        let p3 := { p2 with _numCoordActuators := p2._numCoordActuators + 1 }
        addCoordinateActuatorControls p3 rest

/-- Lines 92-96: the `while` loop looking for `coordPath`, started at `i_coord`; the result is
the first position at or after `i_coord` holding `coordPath`, or the size of the list. -/
def findCoordPath (coordPath : String) : List String → Nat → Nat
  | [], i_coord => i_coord
  | path :: rest, i_coord =>
      if path ≠ coordPath then findCoordPath coordPath rest (i_coord + 1) else i_coord

/-- Lines 83-106: the optimal force and the DOF of each enabled CoordinateActuator, written at
position `i_act`; the loop stops with an exception at the first actuator whose coordinate is
not among `coordPathsToActuate`. -/
def assignCoordActuatorDOFs (coordPathsToActuate : List String) :
    List (ScalarActuator α) → Nat → GSOProblemSeparate α →
      GSOProblemSeparate α × Option GSOError
  | [], _, p => (p, none)
  | actuator :: rest, i_act, p =>
      if actuator.appliesForce = false then
        assignCoordActuatorDOFs coordPathsToActuate rest i_act p
      else
        let p1 := { p with _optimalForce := p._optimalForce.set i_act actuator.optimalForce }
        let coord := actuator.coordinate
        let coordPath := coord.relativePathName
        let i_coord := findCoordPath coordPath coordPathsToActuate 0
        if i_coord = coordPathsToActuate.length then
          (p1, some (GSOError.couldNotFindCoordinate coord.absolutePathName
            actuator.absolutePathName))
        else
          let p2 := { p1 with _coordActuatorDOFs := p1._coordActuatorDOFs.set i_act i_coord }
          assignCoordActuatorDOFs coordPathsToActuate rest (i_act + 1) p2

/-- Lines 110-129: one activation control, bounded by 0 and 1, per enabled Muscle. -/
def addMuscleControls (p : GSOProblemSeparate α) :
    List (ScalarActuator α) → GSOProblemSeparate α
  | [] => p
  | actuator :: rest =>
      if actuator.appliesForce = false then addMuscleControls p rest
      else
        let actuPath := actuator.absolutePathName
        let p1 := add_control p (actuPath ++ "_activation") ⟨0, 1⟩
        let p2 := { p1 with _muscleLabels := p1._muscleLabels ++ [actuPath] }
        let p3 := { p2 with _numMuscles := p2._numMuscles + 1 }
        addMuscleControls p3 rest

/-- The placeholder muscle that `_muscles.resize` creates at each position; lines 133-145
overwrite every one of them. -/
def DeGroote2016Muscle.default : DeGroote2016Muscle α := ⟨0, 0, 0, 0, 0⟩

/-- Lines 133-145: the De Groote muscle of each enabled Muscle, written at position `i_mus`. -/
def createMuscles :
    List (ScalarActuator α) → Nat → GSOProblemSeparate α → GSOProblemSeparate α
  | [], _, p => p
  | osimMus :: rest, i_mus, p =>
      if osimMus.appliesForce = false then createMuscles rest i_mus p
      else
        let muscle : DeGroote2016Muscle α :=
          ⟨osimMus.max_isometric_force, osimMus.optimal_fiber_length,
            osimMus.tendon_slack_length, osimMus.pennation_angle_at_optimal,
            osimMus.max_contraction_velocity⟩
        let p1 := { p with _muscles := p._muscles.set i_mus muscle }
        createMuscles rest (i_mus + 1) p1

/-- Lines 149-151: one path constraint with bounds 0 per coordinate to actuate. -/
def addPathConstraints (p : GSOProblemSeparate α) : List String → GSOProblemSeparate α
  | [] => p
  | coordPath :: rest =>
      addPathConstraints (add_path_constraint p ("net_gen_force_" ++ coordPath) ⟨0, 0⟩) rest

/-- Lines 38-43: the object once the time bounds are set. -/
def constructTimeBounds (motionData : InverseMuscleSolverMotionData α) : GSOProblemSeparate α :=
  let p0 := initialProblem motionData
  set_time p0 ⟨p0._initialTime, p0._initialTime⟩ ⟨p0._finalTime, p0._finalTime⟩

/-- Lines 65-80: the controls of the CoordinateActuators are registered and `_optimalForce`
and `_coordActuatorDOFs` are resized to `_numCoordActuators`; the two `resize` calls create
positions that hold `0` until the loop of lines 83-106 writes them. -/
def constructCoordinateActuators (model : Model α)
    (motionData : InverseMuscleSolverMotionData α) : GSOProblemSeparate α :=
  let p1 := constructTimeBounds motionData
  let p2 := addCoordinateActuatorControls { p1 with _numCoordActuators := 0 }
    model.coordinateActuators
  let p3 := { p2 with _optimalForce := List.replicate p2._numCoordActuators 0 }
  { p3 with _coordActuatorDOFs := List.replicate p3._numCoordActuators 0 }

/-- Lines 110-151, run from the state `p5` the loop of lines 83-106 ends in: the muscle
controls, the De Groote muscles and the path constraints. -/
def constructMusclesAndConstraints (model : Model α)
    (motionData : InverseMuscleSolverMotionData α) (p5 : GSOProblemSeparate α) :
    GSOProblemSeparate α :=
  let coordPathsToActuate := motionData.getCoordinatesToActuate
  let muscleList := model.muscles
  let p6 := addMuscleControls { p5 with _numMuscles := 0 } muscleList
  let p7 := { p6 with
    _muscles := List.replicate p6._numMuscles DeGroote2016Muscle.default }
  let p8 := createMuscles muscleList 0 p7
  let p9 := { p8 with _numCoordsToActuate := coordPathsToActuate.length }
  addPathConstraints p9 coordPathsToActuate

/-- The constructor `GSOProblemSeparate(mrs, model, motionData)`: the state reached, and the
exception if one was thrown (the state is then the one at the `throw`). -/
def construct (model : Model α) (motionData : InverseMuscleSolverMotionData α) :
    GSOProblemSeparate α × Option GSOError :=
  match checkActuators model.scalarActuators with
  | some e => (constructTimeBounds motionData, some e)
  | none =>
    match assignCoordActuatorDOFs motionData.getCoordinatesToActuate
        model.coordinateActuators 0 (constructCoordinateActuators model motionData) with
    | (p5, some e) => (p5, some e)
    | (p5, none) => (constructMusclesAndConstraints model motionData p5, none)

end Construction

section Evaluation

variable {α : Type} [Zero α] [One α] [Add α] [Sub α] [Mul α]

/-- A query sent to the motion data, with the times it is asked at. -/
inductive MotionDataQuery (α : Type) where
  | netGeneralizedForces (times : List α)
  | muscleTendonLengths (times : List α)
  | muscleTendonVelocities (times : List α)
  | momentArms (times : List α)

/-- Lines 159-161: `times = _initialTime + (duration * mesh).array()`. -/
def meshTimes (p : GSOProblemSeparate α) (mesh : List α) : List α :=
  let duration := p._finalTime - p._initialTime
  mesh.map fun m => p._initialTime + duration * m

/-- The member `initialize_on_mesh(mesh)`: the problem with the cache written through
`mutableThis`, and the queries made to the motion data, in call order. -/
def initialize_on_mesh (p : GSOProblemSeparate α) (mesh : List α) :
    GSOProblemSeparate α × List (MotionDataQuery α) :=
  let times := meshTimes p mesh
  let p1 := { p with
    _desiredMoments := p._motionData.interpolateNetGeneralizedForces times }
  if p._numMuscles ≠ 0 then
    let p2 := { p1 with
      _muscleTendonLengths := p._motionData.interpolateMuscleTendonLengths times }
    let p3 := { p2 with
      _muscleTendonVelocities := p._motionData.interpolateMuscleTendonVelocities times }
    let p4 := { p3 with _momentArms := p._motionData.interpolateMomentArms times }
    (p4, [.netGeneralizedForces times, .muscleTendonLengths times,
      .muscleTendonVelocities times, .momentArms times])
  else (p1, [.netGeneralizedForces times])

/-- Lines 205-206, one pass of the loop over the coordinate actuators:
`genForce[_coordActuatorDOFs[i_act]] += _optimalForce[i_act] * controls[i_act]`. -/
def addCoordActuatorForce (p : GSOProblemSeparate α) (controls : List α)
    (genForce : List α) (i_act : Nat) : Option (List α) := do
  let dof ← p._coordActuatorDOFs[i_act]?
  let optimalForce ← p._optimalForce[i_act]?
  let control ← controls[i_act]?
  let current ← genForce[dof]?
  pure (genForce.set dof (current + optimalForce * control))

/-- Lines 214-224, one pass of the loop over the muscles: the entry `muscleForces[i_act]`. -/
def muscleForce (mf : MuscleFunctions α) (p : GSOProblemSeparate α) (i_mesh : Nat)
    (controls : List α) (i_act : Nat) : Option α := do
  let activation ← controls[p._numCoordActuators + i_act]?
  let musTenLen ← p._muscleTendonLengths.get? i_act i_mesh
  let musTenVel ← p._muscleTendonVelocities.get? i_act i_mesh
  let muscle ← p._muscles[i_act]?
  pure (mf.calcRigidTendonFiberForceAlongTendon muscle activation musTenLen musTenVel)

/-- Lines 211-230: with muscles, `genForce += momArms * muscleForces`; without, `genForce` is
left as it is. -/
def addMuscleGenForces (mf : MuscleFunctions α) (p : GSOProblemSeparate α) (i_mesh : Nat)
    (controls : List α) (genForce : List α) : Option (List α) :=
  if p._numMuscles ≠ 0 then do
    let muscleForces ← (List.range p._numMuscles).mapM (muscleForce mf p i_mesh controls)
    let momArms ← p._momentArms[i_mesh]?
    let product ← momArms.mulVec? muscleForces
    vecAdd? genForce product
  else some genForce

/-- The member `path_constraints(i_mesh, time, states, controls, constraints)`: the value
assigned to `constraints`. -/
def path_constraints (mf : MuscleFunctions α) (p : GSOProblemSeparate α) (i_mesh : Nat)
    (_time : α) (_states : List α) (controls : List α) : Option (List α) := do
  let genForce0 : List α := List.replicate p._numCoordsToActuate 0
  let genForce1 ←
    (List.range p._numCoordActuators).foldlM (addCoordActuatorForce p controls) genForce0
  let genForce2 ← addMuscleGenForces mf p i_mesh controls genForce1
  let desired ← p._desiredMoments.col? i_mesh
  vecSub? desired genForce2

/-- The member `integral_cost(time, states, controls, integrand)`: the value assigned to
`integrand`, which is `controls.squaredNorm()`. -/
def integral_cost (_time : α) (_states : List α) (controls : List α) : α :=
  (controls.map fun c => c * c).sum

/-- The times a query is asked at. -/
def MotionDataQuery.times : MotionDataQuery α → List α
  | .netGeneralizedForces times => times
  | .muscleTendonLengths times => times
  | .muscleTendonVelocities times => times
  | .momentArms times => times

/-- The enabled CoordinateActuators of the model, in iteration order: those the loops of lines
66-77 and 83-106 do not skip. -/
def Model.enabledCoordinateActuators (model : Model α) : List (ScalarActuator α) :=
  model.coordinateActuators.filter fun a => a.appliesForce

/-- The enabled Muscles of the model, in iteration order: those the loops of lines 112-129 and
134-145 do not skip. -/
def Model.enabledMuscles (model : Model α) : List (ScalarActuator α) :=
  model.muscles.filter fun a => a.appliesForce

/-- The tables of the constructor are indexed by the actuators: one DOF and one optimal force
per enabled CoordinateActuator, one De Groote muscle per enabled Muscle, and every DOF is a
position of `genForce`. -/
def ActuatorsIndexed (p : GSOProblemSeparate α) : Prop :=
  p._coordActuatorDOFs.length = p._numCoordActuators ∧
  p._optimalForce.length = p._numCoordActuators ∧
  p._muscles.length = p._numMuscles ∧
  ∀ dof ∈ p._coordActuatorDOFs, dof < p._numCoordsToActuate

/-- The index `i_mesh` is a column of the cache, whose matrices have the dimensions of the data
model: the desired forces have a row per actuated coordinate and, when there are muscles, the
muscle-tendon lengths and velocities have a row per muscle and the moment arms at `i_mesh` are
a matrix with a row per actuated coordinate and a column per muscle. -/
def IsCacheColumn (p : GSOProblemSeparate α) (i_mesh : Nat) : Prop :=
  p._desiredMoments.rows = p._numCoordsToActuate ∧ i_mesh < p._desiredMoments.cols ∧
  (p._numMuscles ≠ 0 →
    p._muscleTendonLengths.rows = p._numMuscles ∧ i_mesh < p._muscleTendonLengths.cols ∧
    p._muscleTendonVelocities.rows = p._numMuscles ∧
    i_mesh < p._muscleTendonVelocities.cols ∧
    i_mesh < p._momentArms.length ∧
    (p._momentArms.getD i_mesh MatrixX.empty).rows = p._numCoordsToActuate ∧
    (p._momentArms.getD i_mesh MatrixX.empty).cols = p._numMuscles)

end Evaluation

/-! ## The solution and its reconstruction from an iterate -/

section Reconstruction

variable {α : Type}

/-- A `TimeSeriesTable`: the column labels and the rows, each a time and a row vector, in the
order they were appended. -/
structure TimeSeriesTable (α : Type) where
  columnLabels : List String
  rows : List (α × List α)

/-- The default-constructed table. -/
def TimeSeriesTable.empty : TimeSeriesTable α := ⟨[], []⟩

/-- Modelled from the spec: `TimeSeriesTable::setColumnLabels` is not among the sources; a
series is labeled, so the call records the labels. -/
def TimeSeriesTable.setColumnLabels (table : TimeSeriesTable α) (labels : List String) :
    TimeSeriesTable α :=
  { table with columnLabels := labels }

/-- Modelled from the spec: `TimeSeriesTable::appendRow` is not among the sources; a series is
aligned to the time grid, so the call puts the row, stamped with its time, after the rows
appended so far. -/
def TimeSeriesTable.appendRow (table : TimeSeriesTable α) (time : α) (row : List α) :
    TimeSeriesTable α :=
  { table with rows := table.rows ++ [(time, row)] }

/-- The number of rows, `getNumRows()`. -/
def TimeSeriesTable.getNumRows (table : TimeSeriesTable α) : Nat := table.rows.length

/-- The record `GlobalStaticOptimizationSolver::Solution`. -/
structure Solution (α : Type) where
  activation : TimeSeriesTable α
  other_controls : TimeSeriesTable α
  norm_fiber_length : TimeSeriesTable α
  norm_fiber_velocity : TimeSeriesTable α
  tendon_force : TimeSeriesTable α

/-- Lines 14-20, the local function `write` of `Solution::write`: the files written for one
table, each with its name and content; `pfx` is the argument of `Solution::write`. -/
def Solution.writeTable (pfx : String) (table : TimeSeriesTable α) (suffix : String) :
    List (String × TimeSeriesTable α) :=
  if table.getNumRows ≠ 0 then [(pfx ++ "_" ++ suffix ++ ".sto", table)] else []

/-- The member `Solution::write`: the files written, in call order. -/
def Solution.write (sol : Solution α) (pfx : String) : List (String × TimeSeriesTable α) :=
  Solution.writeTable pfx sol.activation "activation" ++
  Solution.writeTable pfx sol.other_controls "other_controls" ++
  Solution.writeTable pfx sol.norm_fiber_length "norm_fiber_length" ++
  Solution.writeTable pfx sol.norm_fiber_velocity "norm_fiber_velocity" ++
  Solution.writeTable pfx sol.tendon_force "tendon_force"

/-- A `mesh::OptimalControlIterate`, as far as `deconstruct_iterate` reads it: the time grid
and the control matrix, with a column per time. -/
structure OptimalControlIterate (α : Type) where
  time : List α
  controls : MatrixX α

/-- The pointer `M.col(j).data()`: the position of the first entry of column `j` in the
column-major storage of `M`. -/
def MatrixX.colData? (M : MatrixX α) (j : Nat) : Option Nat :=
  if j < M.cols then some (j * M.rows) else none

/-- The entry at position `k` of the column-major storage of `M`. -/
def MatrixX.data? (M : MatrixX α) (k : Nat) : Option α :=
  if k < M.rows * M.cols then some (M.coeff (k % M.rows) (k / M.rows)) else none

/-- The view `SimTK::RowVector(n, data, true)` of the `n` entries of the storage of `M` from
position `data` on. -/
def MatrixX.view? (M : MatrixX α) (n data : Nat) : Option (List α) :=
  (List.range n).mapM fun k => M.data? (data + k)

/-- Modelled from the spec: `DeGroote2016Muscle::convert_scalartype_double` is not among the
sources; the plain-scalar variant of the muscle model is the muscle with the same parameters,
and plain and differentiable scalars are one type here. -/
def DeGroote2016Muscle.convert_scalartype_double (muscle : DeGroote2016Muscle α) :
    DeGroote2016Muscle α :=
  muscle

/-- Lines 266-271: with coordinate actuators, the row of the other controls is appended. -/
def appendOtherControls (p : GSOProblemSeparate α) (ocpVars : OptimalControlIterate α)
    (time : α) (controls : Nat) (vars : Solution α) : Option (Solution α) :=
  if p._numCoordActuators ≠ 0 then do
    let other_controls ← ocpVars.controls.view? p._numCoordActuators controls
    pure { vars with other_controls := vars.other_controls.appendRow time other_controls }
  else some vars

/-- Lines 289-302, one pass of the loop over the muscles: the entries `normFibLenRow[i_act]`,
`normFibVelRow[i_act]` and `tenForceRow[i_act]`. -/
def muscleReport (mf : MuscleFunctions α) (p : GSOProblemSeparate α) (i_time : Nat)
    (activationRow : List α) (i_act : Nat) : Option (α × α × α) := do
  let musTenLen ← p._muscleTendonLengths.get? i_act i_time
  let musTenVel ← p._muscleTendonVelocities.get? i_act i_time
  let muscle0 ← p._muscles[i_act]?
  let muscle := muscle0.convert_scalartype_double
  let kinematics := mf.calcRigidTendonFiberKinematics muscle musTenLen musTenVel
  let activation ← activationRow[i_act]?
  pure (kinematics.1, kinematics.2,
    mf.calcRigidTendonFiberForceAlongTendon muscle activation musTenLen musTenVel)

/-- Lines 275-306: without muscles nothing more is appended; with muscles, the rows of the
activations, of the normalized fiber lengths and velocities and of the tendon forces. -/
def appendMuscleRows (mf : MuscleFunctions α) (p : GSOProblemSeparate α)
    (ocpVars : OptimalControlIterate α) (i_time : Nat) (time : α) (controls : Nat)
    (vars : Solution α) : Option (Solution α) :=
  if p._numMuscles = 0 then some vars
  else do
    let activationRow ← ocpVars.controls.view? p._numMuscles (controls + p._numCoordActuators)
    let reports ← (List.range p._numMuscles).mapM (muscleReport mf p i_time activationRow)
    pure { vars with
      activation := vars.activation.appendRow time activationRow
      norm_fiber_length := vars.norm_fiber_length.appendRow time (reports.map fun r => r.1)
      norm_fiber_velocity :=
        vars.norm_fiber_velocity.appendRow time (reports.map fun r => r.2.1)
      tendon_force := vars.tendon_force.appendRow time (reports.map fun r => r.2.2) }

/-- Lines 258-307, one pass of the loop over the time samples. -/
def deconstructTimeSample (mf : MuscleFunctions α) (p : GSOProblemSeparate α)
    (ocpVars : OptimalControlIterate α) (vars : Solution α) (i_time : Nat) :
    Option (Solution α) := do
  let time ← ocpVars.time[i_time]?
  let controls ← ocpVars.controls.colData? i_time
  let vars1 ← appendOtherControls p ocpVars time controls vars
  appendMuscleRows mf p ocpVars i_time time controls vars1

/-- Lines 246-255: the solution with its column labels set and no row. -/
def labeledSolution (p : GSOProblemSeparate α) : Solution α :=
  let vars : Solution α :=
    ⟨TimeSeriesTable.empty, TimeSeriesTable.empty, TimeSeriesTable.empty,
      TimeSeriesTable.empty, TimeSeriesTable.empty⟩
  let vars1 :=
    if p._numCoordActuators ≠ 0 then
      { vars with other_controls := vars.other_controls.setColumnLabels p._otherControlsLabels }
    else vars
  if p._numMuscles ≠ 0 then
    { vars1 with
      activation := vars1.activation.setColumnLabels p._muscleLabels
      norm_fiber_length := vars1.norm_fiber_length.setColumnLabels p._muscleLabels
      norm_fiber_velocity := vars1.norm_fiber_velocity.setColumnLabels p._muscleLabels
      tendon_force := vars1.tendon_force.setColumnLabels p._muscleLabels }
  else vars1

/-- The member `deconstruct_iterate(ocpVars)`. -/
def deconstruct_iterate (mf : MuscleFunctions α) (p : GSOProblemSeparate α)
    (ocpVars : OptimalControlIterate α) : Option (Solution α) :=
  (List.range ocpVars.time.length).foldlM (deconstructTimeSample mf p ocpVars)
    (labeledSolution p)

/-- The iterate fits the problem: its control matrix has a row per control and a column per
time sample and, when the problem has muscles, there is a De Groote muscle per muscle and
every time index is a column of the cached muscle-tendon lengths and velocities, which have a
row per muscle. -/
def IsIterateOf (p : GSOProblemSeparate α) (ocpVars : OptimalControlIterate α) : Prop :=
  ocpVars.controls.rows = p._numCoordActuators + p._numMuscles ∧
  ocpVars.controls.cols = ocpVars.time.length ∧
  (p._numMuscles ≠ 0 →
    p._muscles.length = p._numMuscles ∧
    ∀ i, i < ocpVars.time.length →
      p._muscleTendonLengths.rows = p._numMuscles ∧ i < p._muscleTendonLengths.cols ∧
      p._muscleTendonVelocities.rows = p._numMuscles ∧ i < p._muscleTendonVelocities.cols)

end Reconstruction

/-! ## The driver `solve`: the coordinates to actuate and the reserve actuators -/

section Driver

variable {α : Type}

/-- The exceptions `solve` throws while it selects the coordinates and creates the reserve
actuators. -/
inductive SolveError (α : Type) where
  /-- Line 378: a coordinate listed under `coordinates_to_include` is constrained. -/
  | coordinateConstrained (coordPath : String)
  /-- Line 395: the paths listed under `coordinates_to_include` that are not in the model. -/
  | coordinatesNotFound (coordPaths : List String)
  /-- Line 418: `create_reserve_actuators` is neither -1 nor positive. -/
  | invalidReserveActuators (optimalForce : α)
  /-- Line 463: the cutoff frequency for the kinematics is invalid. -/
  | invalidCutoffFrequencyForKinematics
  /-- Line 475: the cutoff frequency for the joint moments is invalid. -/
  | invalidCutoffFrequencyForJointMoments
  deriving DecidableEq

/-- The comparison `operator<` of `std::string`, on the characters of the two strings: the
first string is a proper initial part of the second or has the smaller character at the first
position where they differ. -/
def stringLess : List Char → List Char → Bool
  | _, [] => false
  | [], _ :: _ => true
  | a :: as, b :: bs =>
      if a.toNat < b.toNat then true
      else if a = b then stringLess as bs
      else false

/-- The call `std::set<std::string>::insert`, on a set kept as the list of its elements in
ascending order. -/
def setInsert (a : String) : List String → List String
  | [] => [a]
  | b :: rest =>
      if stringLess a.data b.data = true then a :: b :: rest
      else if a = b then b :: rest
      else b :: setInsert a rest

/-- The call `std::set<std::string>::erase` at the position of the element `a`. -/
def setErase (a : String) (set : List String) : List String :=
  set.filter fun b => b ≠ a

/-- Lines 365-369: the set of the paths listed under `coordinates_to_include`. -/
def includeSet (coordinates_to_include : List String) : List String :=
  coordinates_to_include.foldl (fun set path => setInsert path set) []

/-- Lines 371-386: the loop over the coordinates in multibody-tree order; a coordinate whose
path is in the set is appended to `coordsToActuate` and its path erased from the set, unless
it is constrained, which throws.  The result is `coordsToActuate` and what is left of the
set. -/
def includeCoordinates :
    List Coordinate → List String → List Coordinate →
      Except (SolveError α) (List Coordinate × List String)
  | [], coordsToInclude, coordsToActuate => .ok (coordsToActuate, coordsToInclude)
  | coord :: rest, coordsToInclude, coordsToActuate =>
      let coordPath := coord.relativePathName
      if coordPath ∈ coordsToInclude then
        if coord.isConstrained = true then .error (.coordinateConstrained coordPath)
        else includeCoordinates rest (setErase coordPath coordsToInclude)
          (coordsToActuate ++ [coord])
      else includeCoordinates rest coordsToInclude coordsToActuate

/-- Lines 359-404 of `solve`: the coordinates for which net generalized forces will be
achieved. -/
def selectCoordinatesToActuate (model : Model α) (coordinates_to_include : List String) :
    Except (SolveError α) (List Coordinate) :=
  let coordsInOrder := model.coordinatesInMultibodyTreeOrder
  if ¬ coordinates_to_include.isEmpty then
    match includeCoordinates coordsInOrder (includeSet coordinates_to_include) [] with
    | .error e => .error e
    | .ok (coordsToActuate, coordsToInclude) =>
        if ¬ coordsToInclude.isEmpty then .error (.coordinatesNotFound coordsToInclude)
        else .ok coordsToActuate
  else .ok (coordsInOrder.filter fun coord => ¬ coord.isConstrained)

/-- The call `std::replace(path.begin(), path.end(), '/', '_')`. -/
def replaceSlashes (path : String) : String :=
  ⟨path.data.map fun c => if c = '/' then '_' else c⟩

/-- Lines 428-438: the reserve actuator of a coordinate.  The argument
`newCoordinateActuator` is the object `new CoordinateActuator()` creates (the class is not
among the sources); added to the model, the actuator has the path of the model, a slash and
its name. -/
def reserveActuator (newCoordinateActuator : ScalarActuator α) (model : Model α)
    (coord : Coordinate) (optimalForce : α) : ScalarActuator α :=
  let path := replaceSlashes coord.relativePathName
  { newCoordinateActuator with
    kind := ActuatorKind.coordinateActuator
    coordinate := coord
    name := "reserve_" ++ path
    optimalForce := optimalForce
    absolutePathName := model.absolutePathName ++ "/" ++ ("reserve_" ++ path) }

/-- Lines 427-440: one reserve actuator is added to the model per coordinate to actuate. -/
def addReserveActuators (newCoordinateActuator : ScalarActuator α) (optimalForce : α) :
    List Coordinate → Model α → Model α
  | [], model => model
  | coord :: rest, model =>
      addReserveActuators newCoordinateActuator optimalForce rest
        { model with
          scalarActuators := model.scalarActuators ++
            [reserveActuator newCoordinateActuator model coord optimalForce] }

/-- Lines 416-448 of `solve`: the model after the reserve actuators are created. -/
def createReserveActuators [LinearOrderedRing α] (newCoordinateActuator : ScalarActuator α)
    (model : Model α) (coordsToActuate : List Coordinate) (create_reserve_actuators : α) :
    Except (SolveError α) (Model α) :=
  if create_reserve_actuators ≠ -1 then
    let optimalForce := create_reserve_actuators
    if optimalForce ≤ 0 then .error (.invalidReserveActuators optimalForce)
    else .ok (addReserveActuators newCoordinateActuator optimalForce coordsToActuate model)
  else .ok model

/-- The constructor of `InverseMuscleSolverMotionData` that `solve` calls: with the net
generalized forces supplied (lines 469-472), or with inverse dynamics and the cutoff frequency
for the joint moments (lines 480-483). -/
inductive MotionDataSource (α : Type) where
  | netGeneralizedForces (lowpass_cutoff_frequency_for_kinematics : α)
  | inverseDynamics (lowpass_cutoff_frequency_for_kinematics
      lowpass_cutoff_frequency_for_joint_moments : α)
  deriving DecidableEq

/-- Lines 462-484 of `solve`: the cutoff frequencies are validated and the motion data are
built; `netGeneralizedForcesNumRows` is `netGeneralizedForces.getNumRows()`. -/
def processExperimentalData [LinearOrderedRing α]
    (lowpass_cutoff_frequency_for_kinematics lowpass_cutoff_frequency_for_joint_moments : α)
    (netGeneralizedForcesNumRows : Nat) : Except (SolveError α) (MotionDataSource α) :=
  if lowpass_cutoff_frequency_for_kinematics ≤ 0 ∧
      lowpass_cutoff_frequency_for_kinematics ≠ -1 then
    .error .invalidCutoffFrequencyForKinematics
  else if netGeneralizedForcesNumRows ≠ 0 then
    .ok (.netGeneralizedForces lowpass_cutoff_frequency_for_kinematics)
  else if lowpass_cutoff_frequency_for_joint_moments ≤ 0 ∧
      lowpass_cutoff_frequency_for_joint_moments ≠ -1 then
    .error .invalidCutoffFrequencyForJointMoments
  else
    .ok (.inverseDynamics lowpass_cutoff_frequency_for_kinematics
      lowpass_cutoff_frequency_for_joint_moments)

end Driver

/-! ## The member functions as actions on the object -/

section Members

variable {α : Type} [Zero α] [One α] [Add α] [Sub α] [Mul α]

/-- What a member function of the problem acts on: the members of the object, which a `const`
member function can still assign to through a `const_cast`, and the queries sent so far to the
motion data. -/
structure ProblemState (α : Type) where
  members : GSOProblemSeparate α
  queries : List (MotionDataQuery α)

/-- A member function with a result of type `β`: from the state before the call to the result
and the state after it, or to `none` when an access leaves an array. -/
abbrev Member (α β : Type) := StateT (ProblemState α) Option β

/-- The value of a member is read. -/
def Member.read {β : Type} (member : GSOProblemSeparate α → β) : Member α β :=
  fun s => some (member s.members, s)

/-- The members are assigned to. -/
def Member.assign (update : GSOProblemSeparate α → GSOProblemSeparate α) : Member α Unit :=
  fun s => some ((), { s with members := update s.members })

/-- A call of an interpolation function of `_motionData`: the query is sent and the answer of
the motion data returned. -/
def Member.interpolate {β : Type} (query : MotionDataQuery α)
    (answer : InverseMuscleSolverMotionData α → β) : Member α β :=
  fun s => some (answer s.members._motionData, { s with queries := s.queries ++ [query] })

/-- An indexed access or an Eigen operation on values already read: `none` leaves the bounds. -/
def Member.access {β : Type} (value : Option β) : Member α β :=
  fun s => value.map fun v => (v, s)

/-- Lines 154-172, `initialize_on_mesh(mesh)`, statement by statement. -/
def Member.initialize_on_mesh (mesh : List α) : Member α Unit := do
  let initialTime ← Member.read fun p => p._initialTime
  let finalTime ← Member.read fun p => p._finalTime
  let duration := finalTime - initialTime
  let times := mesh.map fun m => initialTime + duration * m
  let desiredMoments ← Member.interpolate (.netGeneralizedForces times)
    fun motionData => motionData.interpolateNetGeneralizedForces times
  Member.assign fun p => { p with _desiredMoments := desiredMoments }
  let numMuscles ← Member.read fun p => p._numMuscles
  if numMuscles ≠ 0 then
    let muscleTendonLengths ← Member.interpolate (.muscleTendonLengths times)
      fun motionData => motionData.interpolateMuscleTendonLengths times
    Member.assign fun p => { p with _muscleTendonLengths := muscleTendonLengths }
    let muscleTendonVelocities ← Member.interpolate (.muscleTendonVelocities times)
      fun motionData => motionData.interpolateMuscleTendonVelocities times
    Member.assign fun p => { p with _muscleTendonVelocities := muscleTendonVelocities }
    let momentArms ← Member.interpolate (.momentArms times)
      fun motionData => motionData.interpolateMomentArms times
    Member.assign fun p => { p with _momentArms := momentArms }
  else pure ()

/-- Lines 204-207, one pass of the loop over the coordinate actuators, statement by
statement. -/
def Member.addCoordActuatorForce (controls genForce : List α) (i_act : Nat) :
    Member α (List α) := do
  let coordActuatorDOFs ← Member.read fun p => p._coordActuatorDOFs
  let dof ← Member.access coordActuatorDOFs[i_act]?
  let optimalForces ← Member.read fun p => p._optimalForce
  let optimalForce ← Member.access optimalForces[i_act]?
  let control ← Member.access controls[i_act]?
  let current ← Member.access genForce[dof]?
  pure (genForce.set dof (current + optimalForce * control))

/-- Lines 214-224, one pass of the loop over the muscles, statement by statement. -/
def Member.muscleForce (mf : MuscleFunctions α) (i_mesh : Nat) (controls : List α)
    (i_act : Nat) : Member α α := do
  let numCoordActuators ← Member.read fun p => p._numCoordActuators
  let activation ← Member.access controls[numCoordActuators + i_act]?
  let muscleTendonLengths ← Member.read fun p => p._muscleTendonLengths
  let musTenLen ← Member.access (muscleTendonLengths.get? i_act i_mesh)
  let muscleTendonVelocities ← Member.read fun p => p._muscleTendonVelocities
  let musTenVel ← Member.access (muscleTendonVelocities.get? i_act i_mesh)
  let muscles ← Member.read fun p => p._muscles
  let muscle ← Member.access muscles[i_act]?
  pure (mf.calcRigidTendonFiberForceAlongTendon muscle activation musTenLen musTenVel)

/-- Lines 211-230, the block on the muscles, statement by statement. -/
def Member.addMuscleGenForces (mf : MuscleFunctions α) (i_mesh : Nat) (controls : List α)
    (genForce : List α) : Member α (List α) := do
  let numMuscles ← Member.read fun p => p._numMuscles
  if numMuscles ≠ 0 then
    let muscleForces ← (List.range numMuscles).mapM (Member.muscleForce mf i_mesh controls)
    let momentArms ← Member.read fun p => p._momentArms
    let momArms ← Member.access momentArms[i_mesh]?
    let product ← Member.access (momArms.mulVec? muscleForces)
    Member.access (vecAdd? genForce product)
  else pure genForce

/-- Lines 186-236, `path_constraints(i_mesh, time, states, controls, constraints)`, statement
by statement: the result is the value assigned to `constraints`. -/
def Member.path_constraints (mf : MuscleFunctions α) (i_mesh : Nat) (_time : α)
    (_states : List α) (controls : List α) : Member α (List α) := do
  let numCoordsToActuate ← Member.read fun p => p._numCoordsToActuate
  let genForce0 : List α := List.replicate numCoordsToActuate 0
  let numCoordActuators ← Member.read fun p => p._numCoordActuators
  let genForce1 ←
    (List.range numCoordActuators).foldlM (Member.addCoordActuatorForce controls) genForce0
  let genForce2 ← Member.addMuscleGenForces mf i_mesh controls genForce1
  let desiredMoments ← Member.read fun p => p._desiredMoments
  let desired ← Member.access (desiredMoments.col? i_mesh)
  Member.access (vecSub? desired genForce2)

/-- Lines 237-242, `integral_cost(time, states, controls, integrand)`: the result is the value
assigned to `integrand`; no member is named. -/
def Member.integral_cost (_time : α) (_states : List α) (controls : List α) : Member α α :=
  pure ((controls.map fun c => c * c).sum)

/-- A call of one of the two evaluation functions of the problem, with its arguments. -/
inductive EvaluationCall (α : Type) where
  | path_constraints (i_mesh : Nat) (time : α) (states controls : List α)
  | integral_cost (time : α) (states controls : List α)

/-- What an evaluation call assigns to its output argument. -/
inductive EvaluationOutput (α : Type) where
  | constraints (value : List α)
  | integrand (value : α)

/-- The evaluation call `call`, made on the object. -/
def Member.evaluate (mf : MuscleFunctions α) : EvaluationCall α → Member α (EvaluationOutput α)
  | .path_constraints i_mesh time states controls => do
      let constraints ← Member.path_constraints mf i_mesh time states controls
      pure (.constraints constraints)
  | .integral_cost time states controls => do
      let integrand ← Member.integral_cost time states controls
      pure (.integrand integrand)

end Members

/-! ## The Simbody dynamics engine -/

section Engine

variable {α : Type}

/-- Line 56: the name that marks the ground body. -/
def simbodyGroundName : String := "ground"

/-- A body of the body set, with what the functions below read of it. -/
structure AbstractBody where
  name : String
  deriving DecidableEq

/-- The members of `SimbodyEngine` that the functions below read: the body set, the values of
`getNumCoordinates()` and `getNumSpeeds()` (C `int`s, whose code is not among the sources) and
the values held by the state `_s`, the configuration of the model. -/
structure SimbodyEngine (α : Type) where
  _bodySet : List AbstractBody
  getNumCoordinates : Int
  getNumSpeeds : Int
  _s : List α

/-- Lines 576-579: the loop over the body set, returning the first body named
`simbodyGroundName`; `none` when the loop ends without a `return`. -/
def identifyGroundBodyLoop : List AbstractBody → Option AbstractBody
  | [] => none
  | body :: rest =>
      if body.name = simbodyGroundName then some body else identifyGroundBodyLoop rest

/-- Lines 573-588, `identifyGroundBody()`: the body returned, `none` for `NULL`. -/
def identifyGroundBody (engine : SimbodyEngine α) : Option AbstractBody :=
  match identifyGroundBodyLoop engine._bodySet with
  | some body => some body
  | none => if engine._bodySet.length > 0 then engine._bodySet[0]? else none

/-- The call `memcpy(dst, src, n * sizeof(double))` on arrays that do not overlap: the first
`n` entries of `dst` are replaced by those of `src`; `none` when `n` is negative or larger than
one of the arrays. -/
def memcpy (dst src : List α) (n : Int) : Option (List α) :=
  if 0 ≤ n ∧ n.toNat ≤ src.length ∧ n.toNat ≤ dst.length then
    some (src.take n.toNat ++ dst.drop n.toNat)
  else none

/-- Lines 488-495, `extractConfiguration(aY, rQ, rU)`: the engine and the three arrays after
the call.  The function is `const`, `aY` is an array of `const double`, and only `rQ` and `rU`
are written to. -/
def extractConfiguration (engine : SimbodyEngine α) (aY rQ rU : List α) :
    Option (SimbodyEngine α × List α × List α × List α) := do
  let nq := engine.getNumCoordinates
  let rQ1 ← memcpy rQ aY nq
  let nu := engine.getNumSpeeds
  let rU1 ← memcpy rU (aY.drop nq.toNat) nu
  pure (engine, aY, rQ1, rU1)

/-- A call of one of the two functions that apply one force, with the point and the force it
is given. -/
inductive LoadCall (α : Type) where
  | applyForce (aBody : AbstractBody) (aPoint aForce : List α)
  | applyForceBodyLocal (aBody : AbstractBody) (aPoint aForce : List α)
  deriving DecidableEq

/-- Modelled from the spec: `Mtx::ComputeIndex(i2, n3, i3)`, whose code is not among the
sources, is the position of the entry `(i2, i3)` in a flat array with rows of `n3` entries. -/
def Mtx.ComputeIndex (i2 n3 i3 : Nat) : Nat := i2 * n3 + i3

/-- The three entries of `a` from position `offset` on, as `&a[offset]` is read by a function
that takes a `const double[3]`. -/
def readVec3 (a : List α) (offset : Nat) : Option (List α) := do
  let x ← a[offset]?
  let y ← a[offset + 1]?
  let z ← a[offset + 2]?
  pure [x, y, z]

/-- Lines 914-917: the loop of the flat-array `applyForces`, from `i` on for `count` passes. -/
def applyForcesLoop (aBodies : List AbstractBody) (aPoints aForces : List α) :
    Nat → Nat → Option (List (LoadCall α))
  | 0, _ => some []
  | count + 1, i => do
      let I := Mtx.ComputeIndex i 3 0
      let body ← aBodies[i]?
      let point ← readVec3 aPoints I
      let force ← readVec3 aForces I
      let rest ← applyForcesLoop aBodies aPoints aForces count (i + 1)
      pure (LoadCall.applyForce body point force :: rest)

/-- Lines 908-918, the flat-array overload `applyForces(aN, aBodies, aPoints, aForces)`: the
calls of `applyForce` it makes, in order; a null array is `none`. -/
def applyForces (aN : Int) (aBodies : Option (List AbstractBody))
    (aPoints aForces : Option (List α)) : Option (List (LoadCall α)) :=
  match aBodies, aPoints, aForces with
  | some bodies, some points, some forces => applyForcesLoop bodies points forces aN.toNat 0
  | _, _, _ => some []

/-- Lines 972-983: the loop of the flat-array `applyForcesBodyLocal`, from `i` on for `count`
passes, with the pointers `aPoints` and `aForces` at the offsets `pointsAt` and `forcesAt`.
Each pass reads three entries and advances each pointer twice: the third read has no `++`. -/
def applyForcesBodyLocalLoop (aBodies : List AbstractBody) (aPoints aForces : List α) :
    Nat → Nat → Nat → Nat → Option (List (LoadCall α))
  | 0, _, _, _ => some []
  | count + 1, i, pointsAt, forcesAt => do
      let point0 ← aPoints[pointsAt]?
      let point1 ← aPoints[pointsAt + 1]?
      let point2 ← aPoints[pointsAt + 1 + 1]?
      let force0 ← aForces[forcesAt]?
      let force1 ← aForces[forcesAt + 1]?
      let force2 ← aForces[forcesAt + 1 + 1]?
      let body ← aBodies[i]?
      let rest ← applyForcesBodyLocalLoop aBodies aPoints aForces count (i + 1)
        (pointsAt + 1 + 1) (forcesAt + 1 + 1)
      pure (LoadCall.applyForceBodyLocal body [point0, point1, point2]
        [force0, force1, force2] :: rest)

/-- Lines 963-984, the flat-array overload `applyForcesBodyLocal(aN, aBodies, aPoints,
aForces)`: the calls of `applyForceBodyLocal` it makes, in order; a null array is `none`. -/
def applyForcesBodyLocal (aN : Int) (aBodies : Option (List AbstractBody))
    (aPoints aForces : Option (List α)) : Option (List (LoadCall α)) :=
  match aBodies, aPoints, aForces with
  | some bodies, some points, some forces =>
      applyForcesBodyLocalLoop bodies points forces aN.toNat 0 0 0
  | _, _, _ => some []

/-- A state vector of a storage: a time and an array of states, `none` for a null array. -/
structure StateVector (α : Type) where
  _t : α
  _data : Option (List α)
  deriving DecidableEq

/-- The value of `getSize()`: the number of states held. -/
def StateVector.getSize (vec : StateVector α) : Int :=
  match vec._data with
  | some data => data.length
  | none => 0

/-- Modelled from the spec: `StateVector::setStates(aT, aN, aY)`, whose code is not among the
sources, sets the time to `aT` and the states to the first `aN` entries of `aY`. -/
def StateVector.setStates (_vec : StateVector α) (aT : α) (aN : Int) (aY : List α) :
    StateVector α :=
  ⟨aT, some (aY.take aN.toNat)⟩

/-- A storage: its state vectors, in order; `none` for a null pointer. -/
abbrev Storage (α : Type) := List (Option (StateVector α))

/-- Modelled from the spec: `Storage::getStateVector(i)`, whose code is not among the sources,
is the state vector at index `i`, and `NULL` when there is none. -/
def Storage.getStateVector (store : Storage α) (i : Int) : Option (StateVector α) :=
  if 0 ≤ i then (store[i.toNat]?).join else none

/-- The entry `a[i]` of an array indexed by an `int`; `none` outside the array. -/
def readAt (a : List α) (i : Int) : Option α :=
  if 0 ≤ i then a[i.toNat]? else none

/-- The assignment `a[i] = v` to an array indexed by an `int`; `none` outside the array. -/
def writeAt (a : List α) (i : Int) (v : α) : Option (List α) :=
  if 0 ≤ i ∧ i.toNat < a.length then some (a.set i.toNat v) else none

/-- Lines 1417-1420, `convertQuaternionsToAngles(aQ, rQAng)`: the body is empty, `rQAng` is
left as it is. -/
def convertQuaternionsToAnglesArray (_aQ rQAng : List α) : List α := rQAng

/-- Lines 1504-1507, `convertAnglesToQuaternions(aQAng, rQ)`: the body is empty, `rQ` is left
as it is. -/
def convertAnglesToQuaternionsArray (_aQAng rQ : List α) : List α := rQ

/-- The variables of the loops over the state vectors: the index `i`, the size `newSize` and the
contents `newData` of the buffer (the empty array for `NULL`), and the storage. -/
structure ConversionState (α : Type) where
  i : Int
  newSize : Int
  newData : List α
  store : Storage α
  deriving DecidableEq

/-- How a run of a loop can end without a result: an access outside an array, or no fuel left
for another pass. -/
inductive LoopStop where
  | outOfBounds
  | outOfFuel
  deriving DecidableEq

/-- The statement `for(...; i<rQStore->getSize(); ...)` around one `pass` (which includes the
`i++`), run for at most `fuel` tests of the condition: the storage when the condition fails. -/
def stateVectorLoop (pass : ConversionState α → Option (ConversionState α)) :
    Nat → ConversionState α → Except LoopStop (Storage α)
  | 0, _ => .error .outOfFuel
  | fuel + 1, s =>
      if s.i < s.store.length then
        match pass s with
        | none => .error .outOfBounds
        | some s1 => stateVectorLoop pass fuel s1
      else .ok s.store

/-- Lines 1466-1470 and 1553-1557: the buffer is replaced by a new one of `needed` entries when
it is smaller; the entries of a new array are `uninitialized`. -/
def allocateIfNecessary (uninitialized : α) (needed : Int) (s : ConversionState α) :
    ConversionState α :=
  if s.newSize < needed then
    { s with newSize := needed, newData := List.replicate needed.toNat uninitialized }
  else s

/-- Lines 1476-1478: the loop `for(i=nu;i<(size-dn);i++) newData[i] = data[i+dn]`, from `i` on
for `count` passes; the result is the buffer and the value `i` is left with. -/
def fillAngles (dn : Int) (data : List α) : Nat → Int → List α → Option (List α × Int)
  | 0, i, newData => some (newData, i)
  | count + 1, i, newData => do
      let v ← readAt data (i + dn)
      let newData1 ← writeAt newData i v
      fillAngles dn data count (i + 1) newData1

/-- Lines 1448-1482: one pass of the loop of `convertQuaternionsToAngles(rQStore)`, up to and
including the `i++` of the `for` statement.  The inner loop runs on the variable `i` of the
outer loop, and `setStates` is given the size of the buffer. -/
def convertQuaternionsToAnglesPass (nq nu dn : Int) (uninitialized : α)
    (s : ConversionState α) : Option (ConversionState α) :=
  match s.store.getStateVector s.i with
  | none => some { s with i := s.i + 1 }
  | some vec =>
      let size := vec.getSize
      if size < nq then some { s with i := s.i + 1 }
      else
        match vec._data with
        | none => some { s with i := s.i + 1 }
        | some data =>
            let s1 := allocateIfNecessary uninitialized (size - dn) s
            let newData0 := convertQuaternionsToAnglesArray data s1.newData
            match fillAngles dn data (size - dn - nu).toNat nu newData0 with
            | none => none
            | some (newData, i) =>
                some { i := i + 1, newSize := s1.newSize, newData := newData,
                       store := s.store.set s.i.toNat
                         (some (vec.setStates vec._t s1.newSize newData)) }

/-- Lines 1431-1494, `convertQuaternionsToAngles(rQStore)`: the storage after the call, with at
most `fuel` tests of the loop condition. -/
def convertQuaternionsToAngles (fuel : Nat) (uninitialized : α) (engine : SimbodyEngine α)
    (rQStore : Option (Storage α)) : Except LoopStop (Option (Storage α)) :=
  match rQStore with
  | none => .ok none
  | some store =>
      let nq := engine.getNumCoordinates
      let nu := engine.getNumSpeeds
      let dn := nq - nu
      if nq ≤ 0 then .ok (some store)
      else
        (stateVectorLoop (convertQuaternionsToAnglesPass nq nu dn uninitialized) fuel
          ⟨0, 0, [], store⟩).map some

/-- Lines 1563-1565: the loop `for(j=nu;j<size;j++) newData[j+dn] = data[j]`, from `j` on for
`count` passes. -/
def fillQuaternions (dn : Int) (data : List α) : Nat → Int → List α → Option (List α)
  | 0, _, newData => some newData
  | count + 1, j, newData => do
      let v ← readAt data j
      let newData1 ← writeAt newData (j + dn) v
      fillQuaternions dn data count (j + 1) newData1

/-- Lines 1535-1569: one pass of the loop of `convertAnglesToQuaternions(rQStore)`, up to and
including the `i++` of the `for` statement; `setStates` is given the size of the buffer. -/
def convertAnglesToQuaternionsPass (nu dn : Int) (uninitialized : α)
    (s : ConversionState α) : Option (ConversionState α) :=
  match s.store.getStateVector s.i with
  | none => some { s with i := s.i + 1 }
  | some vec =>
      let size := vec.getSize
      if size < nu then some { s with i := s.i + 1 }
      else
        match vec._data with
        | none => some { s with i := s.i + 1 }
        | some data =>
            let s1 := allocateIfNecessary uninitialized (size + dn) s
            let newData0 := convertAnglesToQuaternionsArray data s1.newData
            match fillQuaternions dn data (size - nu).toNat nu newData0 with
            | none => none
            | some newData =>
                some { i := s.i + 1, newSize := s1.newSize, newData := newData,
                       store := s.store.set s.i.toNat
                         (some (vec.setStates vec._t s1.newSize newData)) }

/-- Lines 1519-1583, `convertAnglesToQuaternions(rQStore)`: the storage after the call, with at
most `fuel` tests of the loop condition. -/
def convertAnglesToQuaternions (fuel : Nat) (uninitialized : α) (engine : SimbodyEngine α)
    (rQStore : Option (Storage α)) : Except LoopStop (Option (Storage α)) :=
  match rQStore with
  | none => .ok none
  | some store =>
      let nq := engine.getNumCoordinates
      let nu := engine.getNumSpeeds
      let dn := nq - nu
      if nu ≤ 0 then .ok (some store)
      else if dn ≤ 0 then .ok (some store)
      else
        (stateVectorLoop (convertAnglesToQuaternionsPass nu dn uninitialized) fuel
          ⟨0, 0, [], store⟩).map some

end Engine

/-! ## Double precision -/

/-- A finite `double` (IEEE 754 binary64): the number `mantissa * 2 ^ exponent`, with `mantissa`
odd, or with both 0 for the number 0.  Infinities, NaN, the sign of zero, overflow and
subnormal numbers are not represented. -/
structure Double where
  mantissa : Int
  exponent : Int
  deriving DecidableEq

namespace Double

/-- The representation of `mantissa * 2 ^ exponent` with an odd mantissa, found in at most
`fuel` halvings. -/
def normalize : Nat → Int → Int → Double
  | 0, mantissa, exponent => ⟨mantissa, exponent⟩
  | fuel + 1, mantissa, exponent =>
      if mantissa = 0 then ⟨0, 0⟩
      else if mantissa % 2 = 0 then normalize fuel (mantissa / 2) (exponent + 1)
      else ⟨mantissa, exponent⟩

/-- The number of binary digits of `n`, counted in at most `fuel` halvings. -/
def bitLength : Nat → Nat → Nat
  | 0, _ => 0
  | fuel + 1, n => if n = 0 then 0 else bitLength fuel (n / 2) + 1

/-- The fraction `num / den` scaled by `2 ^ (-exponent)`, as a numerator and a denominator. -/
def scaled (num den : Nat) (exponent : Int) : Nat × Nat :=
  if 0 ≤ exponent then (num, den * 2 ^ exponent.toNat) else (num * 2 ^ (-exponent).toNat, den)

/-- The `double` nearest to the fraction `num / den`, the one with the even significand when two
are equally near (the rounding of every arithmetic operation): the exponent is chosen so that
the quotient has 53 binary digits, and the quotient is rounded to an integer. -/
def round (num : Int) (den : Nat) : Double :=
  if num = 0 ∨ den = 0 then ⟨0, 0⟩
  else
    let exponent0 : Int :=
      (bitLength num.natAbs num.natAbs : Int) - (bitLength den den : Int) - 52
    let exponent : Int :=
      if (scaled num.natAbs den exponent0).1 / (scaled num.natAbs den exponent0).2 < 2 ^ 52
      then exponent0 - 1 else exponent0
    let quotient := (scaled num.natAbs den exponent).1 / (scaled num.natAbs den exponent).2
    let remainder := (scaled num.natAbs den exponent).1 % (scaled num.natAbs den exponent).2
    let rounded :=
      if (scaled num.natAbs den exponent).2 < 2 * remainder ∨
          (2 * remainder = (scaled num.natAbs den exponent).2 ∧ quotient % 2 = 1)
      then quotient + 1 else quotient
    normalize 64 (if num < 0 then -(rounded : Int) else rounded) exponent

/-- The number a `double` stands for, as a numerator and a denominator. -/
def toFraction (x : Double) : Int × Nat :=
  if 0 ≤ x.exponent then (x.mantissa * 2 ^ x.exponent.toNat, 1)
  else (x.mantissa, 2 ^ (-x.exponent).toNat)

/-- The `double` nearest to an integer. -/
def ofInt (n : Int) : Double := round n 1

/-- The sum `x + y` of two `double`s: the exact sum, rounded. -/
def add (x y : Double) : Double :=
  round (x.toFraction.1 * y.toFraction.2 + y.toFraction.1 * x.toFraction.2)
    (x.toFraction.2 * y.toFraction.2)

/-- The difference `x - y` of two `double`s: the exact difference, rounded. -/
def sub (x y : Double) : Double :=
  round (x.toFraction.1 * y.toFraction.2 - y.toFraction.1 * x.toFraction.2)
    (x.toFraction.2 * y.toFraction.2)

/-- The product `x * y` of two `double`s: the exact product, rounded. -/
def mul (x y : Double) : Double :=
  round (x.toFraction.1 * y.toFraction.1) (x.toFraction.2 * y.toFraction.2)

/-- The quotient `x / y` of two `double`s, `y` not zero: the exact quotient, rounded. -/
def div (x y : Double) : Double :=
  round (x.toFraction.1 * y.toFraction.2 * y.toFraction.1.sign)
    (x.toFraction.2 * y.toFraction.1.natAbs)

/-- The comparison `x <= y`. -/
def le (x y : Double) : Prop :=
  x.toFraction.1 * y.toFraction.2 ≤ y.toFraction.1 * x.toFraction.2

/-- The comparison `x < y`. -/
def lt (x y : Double) : Prop :=
  x.toFraction.1 * y.toFraction.2 < y.toFraction.1 * x.toFraction.2

instance : Zero Double := ⟨⟨0, 0⟩⟩
instance : One Double := ⟨⟨1, 0⟩⟩
instance : Add Double := ⟨add⟩
instance : Sub Double := ⟨sub⟩
instance : Mul Double := ⟨mul⟩
instance : Div Double := ⟨div⟩
instance : LE Double := ⟨le⟩
instance : LT Double := ⟨lt⟩
instance (x y : Double) : Decidable (x ≤ y) :=
  inferInstanceAs (Decidable (x.toFraction.1 * y.toFraction.2 ≤ y.toFraction.1 * x.toFraction.2))
instance (x y : Double) : Decidable (x < y) :=
  inferInstanceAs (Decidable (x.toFraction.1 * y.toFraction.2 < y.toFraction.1 * x.toFraction.2))

end Double

/-! ## A small model, used to instantiate the statements below -/

namespace Example

/-- The coordinate the example actuates. -/
def kneeFlexion : Coordinate :=
  ⟨"/leg/jointset/knee/flexion", "jointset/knee/flexion", false⟩

/-- A locked coordinate, not among the coordinates to actuate. -/
def ankleAngle : Coordinate :=
  ⟨"/leg/jointset/ankle/angle", "jointset/ankle/angle", true⟩

/-- An enabled CoordinateActuator on the knee with optimal force 5 and controls in [-2, 3]. -/
def reserveKnee : ScalarActuator ℚ :=
  { kind := .coordinateActuator, concreteClassName := "CoordinateActuator",
    name := "reserve_knee", absolutePathName := "/leg/reserve_knee", appliesForce := true,
    min_control := -2, max_control := 3, optimalForce := 5, coordinate := kneeFlexion,
    max_isometric_force := 0, optimal_fiber_length := 0, tendon_slack_length := 0,
    pennation_angle_at_optimal := 0, max_contraction_velocity := 0 }

/-- A CoordinateActuator on the locked ankle; `reserveAnkle false` is disabled. -/
def reserveAnkle (appliesForce : Bool) : ScalarActuator ℚ :=
  { reserveKnee with
    name := "reserve_ankle", absolutePathName := "/leg/reserve_ankle",
    appliesForce := appliesForce,
    optimalForce := 7, coordinate := ankleAngle }

/-- An enabled Muscle whose own control bounds are [1/100, 2]. -/
def vastus : ScalarActuator ℚ :=
  { kind := .muscle, concreteClassName := "Millard2012EquilibriumMuscle",
    name := "vastus", absolutePathName := "/leg/vastus", appliesForce := true,
    min_control := 1 / 100, max_control := 2, optimalForce := 0, coordinate := kneeFlexion,
    max_isometric_force := 1000, optimal_fiber_length := 1 / 10,
    tendon_slack_length := 2 / 10, pennation_angle_at_optimal := 0,
    max_contraction_velocity := 10 }

/-- A disabled Muscle. -/
def soleus : ScalarActuator ℚ :=
  { vastus with name := "soleus", absolutePathName := "/leg/soleus", appliesForce := false }

/-- An actuator that is neither a Muscle nor a CoordinateActuator; `pointActuator false` is
disabled. -/
def pointActuator (appliesForce : Bool) : ScalarActuator ℚ :=
  { reserveKnee with
    kind := .other, concreteClassName := "PointActuator",
    name := "push", absolutePathName := "/leg/push", appliesForce := appliesForce }

/-- A model with an enabled and a disabled actuator of each supported kind and a disabled
actuator of an unsupported kind. -/
def leg : Model ℚ :=
  { absolutePathName := "/leg",
    scalarActuators :=
      [vastus, pointActuator false, reserveAnkle false, reserveKnee, soleus],
    coordinatesInMultibodyTreeOrder := [kneeFlexion, ankleAngle] }

/-- The model `leg` with the unsupported actuator enabled. -/
def legWithPointActuator : Model ℚ :=
  { leg with
    scalarActuators :=
      [vastus, pointActuator true, reserveAnkle false, reserveKnee, soleus] }

/-- The model `leg` with the actuator on the locked ankle enabled. -/
def legWithAnkleActuator : Model ℚ :=
  { leg with
    scalarActuators :=
      [vastus, pointActuator false, reserveKnee, reserveAnkle true, soleus] }

/-- Motion data over the times 1 to 3 for the knee: the desired force is 10 times the time,
the muscle-tendon length is the time, its velocity is 1 and the moment arm is 2. -/
def motion : InverseMuscleSolverMotionData ℚ :=
  { getInitialTime := 1, getFinalTime := 3,
    getCoordinatesToActuate := ["jointset/knee/flexion"],
    interpolateNetGeneralizedForces := fun times =>
      ⟨1, times.length, fun _ j => 10 * times.getD j 0⟩,
    interpolateMuscleTendonLengths := fun times =>
      ⟨1, times.length, fun _ j => times.getD j 0⟩,
    interpolateMuscleTendonVelocities := fun times => ⟨1, times.length, fun _ _ => 1⟩,
    interpolateMomentArms := fun times => times.map fun _ => ⟨1, 1, fun _ _ => 2⟩ }

/-- A one-DOF model actuated by one coordinate actuator; its only muscle is disabled. -/
def singleActuator : Model ℚ :=
  { absolutePathName := "/leg", scalarActuators := [soleus, reserveKnee],
    coordinatesInMultibodyTreeOrder := [kneeFlexion] }

/-- A stand-in for the member functions of the muscle model: the force is the activation times
the maximal isometric force, the normalized fiber length and velocity are the muscle-tendon
length over the optimal fiber length and the muscle-tendon velocity over the maximal
contraction velocity. -/
def linearMuscle : MuscleFunctions ℚ :=
  { calcRigidTendonFiberForceAlongTendon := fun m activation _ _ =>
      activation * m.max_isometric_force,
    calcRigidTendonFiberKinematics := fun m musTenLength musTenVelocity =>
      (musTenLength / m.optimal_fiber_length, musTenVelocity / m.max_contraction_velocity) }

/-- The problem constructed from `leg` and `motion`. -/
def problem : GSOProblemSeparate ℚ := (construct leg motion).1

/-- The problem `problem` after `initialize_on_mesh` on the mesh 0, 1/2, 1. -/
def problemOnMesh : GSOProblemSeparate ℚ := (initialize_on_mesh problem [0, 1 / 2, 1]).1

/-- A free coordinate that comes before the knee in the multibody tree. -/
def hipFlexion : Coordinate :=
  ⟨"/leg/jointset/hip/flexion", "jointset/hip/flexion", false⟩

/-- The model `leg` with the coordinates hip, knee and (locked) ankle, in this order. -/
def legWithHip : Model ℚ :=
  { leg with coordinatesInMultibodyTreeOrder := [hipFlexion, kneeFlexion, ankleAngle] }

/-- An iterate on the mesh of `problemOnMesh`: the times 1, 2, 3, the reserve controls 4, 5, 6
in the first row and the activations 1/10, 2/10, 3/10 in the second. -/
def iterate : OptimalControlIterate ℚ :=
  { time := [1, 2, 3],
    controls := ⟨2, 3, fun r c =>
      if r = 0 then [4, 5, 6].getD c 0 else [1 / 10, 2 / 10, 3 / 10].getD c 0⟩ }

/-- Motion data over the times 1 to 3 for the knee of a model without muscles: the
muscle-tendon lengths and velocities have no row and a column per time, the moment arms are,
for each time, a matrix with a row for the knee and no column. -/
def motionNoMuscles : InverseMuscleSolverMotionData ℚ :=
  { motion with
    interpolateMuscleTendonLengths := fun times => ⟨0, times.length, fun _ _ => 0⟩,
    interpolateMuscleTendonVelocities := fun times => ⟨0, times.length, fun _ _ => 0⟩,
    interpolateMomentArms := fun times => times.map fun _ => ⟨1, 0, fun _ _ => 0⟩ }

/-- The problem constructed from `singleActuator`, which has no enabled muscle, and
`motionNoMuscles`. -/
def problemNoMuscles : GSOProblemSeparate ℚ := (construct singleActuator motionNoMuscles).1

/-- An iterate for `problemNoMuscles`: the times 1, 2, 3 and the reserve controls 4, 5, 6. -/
def iterateNoMuscles : OptimalControlIterate ℚ :=
  { time := [1, 2, 3], controls := ⟨1, 3, fun _ c => [4, 5, 6].getD c 0⟩ }

/-- A body set in which the second and the fourth body are named "ground". -/
def bodies : List AbstractBody := [⟨"pelvis"⟩, ⟨"ground"⟩, ⟨"femur"⟩, ⟨"ground"⟩]

/-- An engine with three coordinates, of which one is a quaternion component more than there
are speeds: two speeds. -/
def engineQuaternion : SimbodyEngine ℚ :=
  { _bodySet := bodies, getNumCoordinates := 3, getNumSpeeds := 2, _s := [1, 2, 3, 4, 5] }

/-- An engine with one coordinate and one speed. -/
def engineEuler : SimbodyEngine ℚ :=
  { _bodySet := bodies, getNumCoordinates := 1, getNumSpeeds := 1, _s := [1, 2] }

/-- A storage of three state vectors of one state each. -/
def storeThree : Storage ℚ :=
  [some ⟨0, some [10]⟩, some ⟨1, some [11]⟩, some ⟨2, some [12]⟩]

/-- A storage of two state vectors of one state each. -/
def storeTwo : Storage ℚ := [some ⟨0, some [10]⟩, some ⟨1, some [11]⟩]

/-- A storage whose first state vector has five states and whose second has three. -/
def storeLongShort : Storage ℚ := [some ⟨0, some [1, 2, 3, 4, 5]⟩, some ⟨1, some [6, 7, 8]⟩]

/-- Two points of application, in a flat array. -/
def flatPoints : List ℚ := [10, 11, 12, 13, 14, 15]

/-- Two forces, in a flat array. -/
def flatForces : List ℚ := [20, 21, 22, 23, 24, 25]

/-- An iterate with the two control rows of `problemOnMesh` and four time samples, one more
than the mesh of `problemOnMesh` has points. -/
def iterate4 : OptimalControlIterate ℚ :=
  { time := [1, 2, 3, 4],
    controls := ⟨2, 4, fun r c =>
      if r = 0 then [4, 5, 6, 7].getD c 0 else [1 / 10, 2 / 10, 3 / 10, 4 / 10].getD c 0⟩ }

/-- An enabled CoordinateActuator on the knee with the optimal force 49, in `double`s. -/
def reserveKneeDouble : ScalarActuator Double :=
  { kind := .coordinateActuator, concreteClassName := "CoordinateActuator",
    name := "reserve_knee", absolutePathName := "/leg/reserve_knee", appliesForce := true,
    min_control := Double.ofInt (-1), max_control := 1, optimalForce := Double.ofInt 49,
    coordinate := kneeFlexion,
    max_isometric_force := 0, optimal_fiber_length := 0, tendon_slack_length := 0,
    pennation_angle_at_optimal := 0, max_contraction_velocity := 0 }

/-- A one-DOF model actuated by one coordinate actuator, without muscles, in `double`s. -/
def singleActuatorDouble : Model Double :=
  { absolutePathName := "/leg", scalarActuators := [reserveKneeDouble],
    coordinatesInMultibodyTreeOrder := [kneeFlexion] }

/-- Motion data in `double`s over the times 0.15 to 0.45 (the `double`s nearest to 15/100 and
45/100) for the knee of a model without muscles: the desired force is 1 at every time. -/
def motionDouble : InverseMuscleSolverMotionData Double :=
  { getInitialTime := Double.round 15 100, getFinalTime := Double.round 45 100,
    getCoordinatesToActuate := ["jointset/knee/flexion"],
    interpolateNetGeneralizedForces := fun times => ⟨1, times.length, fun _ _ => 1⟩,
    interpolateMuscleTendonLengths := fun times => ⟨0, times.length, fun _ _ => 0⟩,
    interpolateMuscleTendonVelocities := fun times => ⟨0, times.length, fun _ _ => 0⟩,
    interpolateMomentArms := fun times => times.map fun _ => ⟨1, 0, fun _ _ => 0⟩ }

/-- The stand-in `linearMuscle` for the member functions of the muscle model, in `double`s. -/
def linearMuscleDouble : MuscleFunctions Double :=
  { calcRigidTendonFiberForceAlongTendon := fun m activation _ _ =>
      activation * m.max_isometric_force,
    calcRigidTendonFiberKinematics := fun m musTenLength musTenVelocity =>
      (musTenLength / m.optimal_fiber_length, musTenVelocity / m.max_contraction_velocity) }

/-- The problem constructed from `singleActuatorDouble` and `motionDouble`, after
`initialize_on_mesh` on the mesh 0, 1. -/
def problemDouble : GSOProblemSeparate Double :=
  (initialize_on_mesh (construct singleActuatorDouble motionDouble).1 [0, 1]).1

end Example

/-! ## Properties -/

section CostProperties

variable {α : Type} [CommRing α]

theorem sum_map_eq_sum_fin (f : α → α) (l : List α) :
    (l.map f).sum = ∑ i : Fin l.length, f (l.get i) := by
  induction l with
  | nil => simp
  | cons x xs ih =>
    rw [List.map_cons, List.sum_cons, ih]
    exact (Fin.sum_univ_succ (fun i : Fin (xs.length + 1) => f ((x :: xs).get i))).symm

/-- C2: for every control vector, `integral_cost` sets the integrand to the sum of the squares
of all entries of `controls`, whatever `time` and `states` are; on a vector made of the
coordinate-actuator controls followed by the muscle activations, both parts enter with the
same weight. -/
theorem integral_cost_eq_sum_of_squares (time : α) (states controls : List α) :
    integral_cost time states controls = ∑ i : Fin controls.length, controls.get i ^ 2 ∧
    (∀ time2 states2, integral_cost time2 states2 controls
        = integral_cost time states controls) ∧
    (∀ otherControls activations : List α,
      integral_cost time states (otherControls ++ activations)
        = (∑ i : Fin otherControls.length, otherControls.get i ^ 2)
          + ∑ i : Fin activations.length, activations.get i ^ 2) := by
  refine ⟨?_, fun _ _ => rfl, ?_⟩
  · unfold integral_cost
    rw [sum_map_eq_sum_fin]
    exact Finset.sum_congr rfl fun i _ => (sq _).symm
  · intro oc ac
    unfold integral_cost
    rw [List.map_append, List.sum_append, sum_map_eq_sum_fin, sum_map_eq_sum_fin]
    congr 1 <;> exact Finset.sum_congr rfl fun i _ => (sq _).symm

end CostProperties

section ConstructionProperties

variable {α : Type}

theorem addCoordinateActuatorControls_eq (l : List (ScalarActuator α))
    (p : GSOProblemSeparate α) :
    addCoordinateActuatorControls p l = { p with
      controls := p.controls ++ (l.filter fun a => a.appliesForce).map fun a =>
        (a.absolutePathName ++ "_control", (⟨a.min_control, a.max_control⟩ : Bounds α))
      _otherControlsLabels := p._otherControlsLabels ++
        (l.filter fun a => a.appliesForce).map fun a => a.absolutePathName
      _numCoordActuators := p._numCoordActuators + (l.filter fun a => a.appliesForce).length } := by
  induction l generalizing p with
  | nil => simp [addCoordinateActuatorControls]
  | cons a l ih =>
    unfold addCoordinateActuatorControls
    cases h : a.appliesForce with
    | false => simp [ih, h]
    | true => simp [ih, h, add_control, List.append_assoc, Nat.add_assoc, Nat.add_comm 1]

theorem addMuscleControls_eq [CommRing α] (l : List (ScalarActuator α))
    (p : GSOProblemSeparate α) :
    addMuscleControls p l = { p with
      controls := p.controls ++ (l.filter fun a => a.appliesForce).map fun a =>
        (a.absolutePathName ++ "_activation", (⟨0, 1⟩ : Bounds α))
      _muscleLabels := p._muscleLabels ++
        (l.filter fun a => a.appliesForce).map fun a => a.absolutePathName
      _numMuscles := p._numMuscles + (l.filter fun a => a.appliesForce).length } := by
  induction l generalizing p with
  | nil => simp [addMuscleControls]
  | cons a l ih =>
    unfold addMuscleControls
    cases h : a.appliesForce with
    | false => simp [ih, h]
    | true => simp [ih, h, add_control, List.append_assoc, Nat.add_assoc, Nat.add_comm 1]

theorem addPathConstraints_eq [CommRing α] (l : List String) (p : GSOProblemSeparate α) :
    addPathConstraints p l = { p with
      pathConstraints := p.pathConstraints ++ l.map fun coordPath =>
        ("net_gen_force_" ++ coordPath, (⟨0, 0⟩ : Bounds α)) } := by
  induction l generalizing p with
  | nil => simp [addPathConstraints]
  | cons a l ih => simp [addPathConstraints, ih, add_path_constraint, List.append_assoc]

theorem createMuscles_frame (l : List (ScalarActuator α)) (i_mus : Nat)
    (p : GSOProblemSeparate α) :
    ∃ muscles, createMuscles l i_mus p = { p with _muscles := muscles } := by
  induction l generalizing p i_mus with
  | nil => exact ⟨p._muscles, rfl⟩
  | cons a l ih =>
    unfold createMuscles
    cases h : a.appliesForce with
    | false => simpa using ih i_mus p
    | true =>
      obtain ⟨ms, hms⟩ := ih (i_mus + 1) { p with _muscles := (p._muscles.set i_mus
        (⟨a.max_isometric_force, a.optimal_fiber_length, a.tendon_slack_length,
          a.pennation_angle_at_optimal, a.max_contraction_velocity⟩ :
            DeGroote2016Muscle α)) }
      exact ⟨ms, by simpa using hms⟩

theorem findCoordPath_le (coordPath : String) (l : List String) (i : Nat) :
    findCoordPath coordPath l i ≤ i + l.length := by
  induction l generalizing i with
  | nil => simp [findCoordPath]
  | cons a l ih =>
    unfold findCoordPath
    split
    · have := ih (i + 1)
      simp only [List.length_cons]
      omega
    · simp

theorem findCoordPath_eq_length_iff (coordPath : String) (l : List String) (i : Nat) :
    findCoordPath coordPath l i = i + l.length ↔ coordPath ∉ l := by
  induction l generalizing i with
  | nil => simp [findCoordPath]
  | cons a l ih =>
    unfold findCoordPath
    by_cases h : a = coordPath
    · simp [h]
    · have := ih (i + 1)
      simp only [ne_eq, h, not_false_eq_true, if_true, List.length_cons, List.mem_cons,
        not_or]
      rw [show i + (l.length + 1) = i + 1 + l.length by omega, this]
      exact ⟨fun hm => ⟨fun e => h e.symm, hm⟩, fun hm => hm.2⟩

theorem assignCoordActuatorDOFs_frame (paths : List String) (l : List (ScalarActuator α))
    (i_act : Nat) (p : GSOProblemSeparate α) :
    ∃ opt dofs, (assignCoordActuatorDOFs paths l i_act p).1
      = { p with _optimalForce := opt, _coordActuatorDOFs := dofs } := by
  induction l generalizing p i_act with
  | nil => exact ⟨p._optimalForce, p._coordActuatorDOFs, rfl⟩
  | cons a l ih =>
    unfold assignCoordActuatorDOFs
    cases h : a.appliesForce with
    | false => simpa using ih i_act p
    | true =>
      simp only [Bool.true_eq_false, if_false]
      split
      · exact ⟨_, _, rfl⟩
      · obtain ⟨opt, dofs, hod⟩ := ih (i_act + 1)
          { p with
            _optimalForce := p._optimalForce.set i_act a.optimalForce
            _coordActuatorDOFs := p._coordActuatorDOFs.set i_act
              (findCoordPath a.coordinate.relativePathName paths 0) }
        exact ⟨opt, dofs, by simpa using hod⟩

/-- The loop of lines 83-106 throws exactly when some enabled actuator of the list acts on a
coordinate whose path is not among the coordinates to actuate, and what it throws is the
"Could not find Coordinate" exception. -/
theorem assignCoordActuatorDOFs_error (paths : List String) (l : List (ScalarActuator α))
    (i_act : Nat) (p : GSOProblemSeparate α) :
    ((assignCoordActuatorDOFs paths l i_act p).2 = none ↔
      ∀ a ∈ l, a.appliesForce = true → a.coordinate.relativePathName ∈ paths) ∧
    ∀ e, (assignCoordActuatorDOFs paths l i_act p).2 = some e →
      ∃ a ∈ l, a.appliesForce = true ∧ a.coordinate.relativePathName ∉ paths ∧
        e = GSOError.couldNotFindCoordinate a.coordinate.absolutePathName
          a.absolutePathName := by
  induction l generalizing p i_act with
  | nil => simp [assignCoordActuatorDOFs]
  | cons a l ih =>
    unfold assignCoordActuatorDOFs
    cases h : a.appliesForce with
    | false => simpa [h] using ih i_act p
    | true =>
      simp only [Bool.true_eq_false, if_false]
      have hf := findCoordPath_eq_length_iff a.coordinate.relativePathName paths 0
      rw [Nat.zero_add] at hf
      by_cases hm : a.coordinate.relativePathName ∈ paths
      · have hne : ¬ findCoordPath a.coordinate.relativePathName paths 0 = paths.length :=
          fun e => (hf.1 e) hm
        simp only [hne, if_false]
        have := ih (i_act + 1)
          { p with
            _optimalForce := p._optimalForce.set i_act a.optimalForce
            _coordActuatorDOFs := p._coordActuatorDOFs.set i_act
              (findCoordPath a.coordinate.relativePathName paths 0) }
        simpa [h, hm] using this
      · have he : findCoordPath a.coordinate.relativePathName paths 0 = paths.length :=
          hf.2 hm
        simp only [he, if_true]
        refine ⟨?_, fun e he2 =>
          ⟨a, List.mem_cons_self _ _, h, hm, (Option.some.inj he2).symm⟩⟩
        simp only [reduceCtorEq, false_iff]
        intro hall
        exact hm (hall a (List.mem_cons_self _ _) h)

theorem checkActuators_eq_none_iff (l : List (ScalarActuator α)) :
    checkActuators l = none ↔
      ∀ a ∈ l, a.appliesForce = true →
        a.kind = ActuatorKind.muscle ∨ a.kind = ActuatorKind.coordinateActuator := by
  induction l with
  | nil => simp [checkActuators]
  | cons a l ih =>
    unfold checkActuators
    split
    · rename_i hc
      simp only [reduceCtorEq, List.mem_cons, forall_eq_or_imp, false_iff, not_and]
      intro h1
      rcases h1 hc.1 with hk | hk
      · exact absurd hk hc.2.1
      · exact absurd hk hc.2.2
    · rename_i hc
      rw [ih]
      simp only [List.mem_cons, forall_eq_or_imp]
      refine ⟨fun hall => ⟨fun ha => ?_, hall⟩, fun hall => hall.2⟩
      by_contra hn
      exact hc ⟨ha, fun hk => hn (Or.inl hk), fun hk => hn (Or.inr hk)⟩

theorem checkActuators_eq_some (l : List (ScalarActuator α)) (e : GSOError)
    (h : checkActuators l = some e) :
    ∃ a ∈ l, a.appliesForce = true ∧ a.kind = ActuatorKind.other ∧
      e = GSOError.unsupportedActuator a.concreteClassName := by
  induction l with
  | nil => simp [checkActuators] at h
  | cons a l ih =>
    unfold checkActuators at h
    split at h
    · rename_i hc
      refine ⟨a, List.mem_cons_self _ _, hc.1, ?_, (Option.some.inj h).symm⟩
      cases hk : a.kind with
      | muscle => exact absurd hk hc.2.1
      | coordinateActuator => exact absurd hk hc.2.2
      | other => rfl
    · obtain ⟨b, hb, hrest⟩ := ih h
      exact ⟨b, List.mem_cons_of_mem _ hb, hrest⟩

theorem take_set_self {β : Type} (l : List β) (i : Nat) (v : β) :
    (l.set i v).take i = l.take i :=
  List.ext_getElem? fun j => by
    rw [List.getElem?_take, List.getElem?_take]
    split
    · next h => rw [List.getElem?_set_ne (by omega)]
    · rfl

theorem set_take_append_drop {β : Type} (l : List β) (i k : Nat) (v : β) (vs : List β)
    (hi : i < l.length) :
    (l.set i v).take (i + 1) ++ vs ++ (l.set i v).drop (i + 1 + k)
      = l.take i ++ v :: vs ++ l.drop (i + (k + 1)) := by
  rw [List.drop_set_of_lt v l (by omega : i < i + 1 + k), List.take_succ, take_set_self,
    List.getElem?_set_self hi]
  simp [show i + 1 + k = i + (k + 1) by omega]

/-- When the loop of lines 83-106 ends without an exception it has written, from position
`i_act` on, the optimal force and the DOF of each enabled actuator of the list, in order. -/
theorem assignCoordActuatorDOFs_ok (paths : List String) (l : List (ScalarActuator α))
    (i_act : Nat) (p : GSOProblemSeparate α)
    (h : (assignCoordActuatorDOFs paths l i_act p).2 = none)
    (hd : i_act + (l.filter fun a => a.appliesForce).length ≤ p._coordActuatorDOFs.length)
    (ho : i_act + (l.filter fun a => a.appliesForce).length ≤ p._optimalForce.length) :
    (assignCoordActuatorDOFs paths l i_act p).1._coordActuatorDOFs
      = p._coordActuatorDOFs.take i_act ++
        ((l.filter fun a => a.appliesForce).map fun a =>
          findCoordPath a.coordinate.relativePathName paths 0) ++
        p._coordActuatorDOFs.drop (i_act + (l.filter fun a => a.appliesForce).length) ∧
    (assignCoordActuatorDOFs paths l i_act p).1._optimalForce
      = p._optimalForce.take i_act ++
        ((l.filter fun a => a.appliesForce).map fun a => a.optimalForce) ++
        p._optimalForce.drop (i_act + (l.filter fun a => a.appliesForce).length) := by
  induction l generalizing p i_act with
  | nil => simp [assignCoordActuatorDOFs]
  | cons a l ih =>
    unfold assignCoordActuatorDOFs at h ⊢
    cases hen : a.appliesForce with
    | false =>
      simp only [hen, if_true] at h ⊢
      simp only [List.filter_cons, hen] at hd ho ⊢
      exact ih i_act p h hd ho
    | true =>
      simp only [hen, Bool.true_eq_false, if_false] at h ⊢
      simp only [List.filter_cons, hen, if_true, List.length_cons] at hd ho ⊢
      split at h
      · simp at h
      · rename_i hne
        simp only [hne, if_false]
        have := ih (i_act + 1) _ h (by simpa using by omega) (by simpa using by omega)
        rw [this.1, this.2]
        simp only [List.map_cons]
        exact ⟨set_take_append_drop _ _ _ _ _ (by omega),
          set_take_append_drop _ _ _ _ _ (by omega)⟩

/-- The loop of lines 133-145 writes, from position `i_mus` on, the De Groote muscle of each
enabled Muscle of the list, in order. -/
theorem createMuscles_muscles (l : List (ScalarActuator α)) (i_mus : Nat)
    (p : GSOProblemSeparate α)
    (hm : i_mus + (l.filter fun a => a.appliesForce).length ≤ p._muscles.length) :
    (createMuscles l i_mus p)._muscles
      = p._muscles.take i_mus ++
        ((l.filter fun a => a.appliesForce).map fun a =>
          (⟨a.max_isometric_force, a.optimal_fiber_length, a.tendon_slack_length,
            a.pennation_angle_at_optimal, a.max_contraction_velocity⟩ :
              DeGroote2016Muscle α)) ++
        p._muscles.drop (i_mus + (l.filter fun a => a.appliesForce).length) := by
  induction l generalizing p i_mus with
  | nil => simp [createMuscles]
  | cons a l ih =>
    unfold createMuscles
    cases hen : a.appliesForce with
    | false =>
      simp only [if_true]
      simp only [List.filter_cons, hen] at hm ⊢
      exact ih i_mus p hm
    | true =>
      simp only [Bool.true_eq_false, if_false]
      simp only [List.filter_cons, hen, if_true, List.length_cons] at hm ⊢
      rw [ih (i_mus + 1) _ (by simpa using by omega)]
      simp only [List.map_cons]
      exact set_take_append_drop _ _ _ _ _ (by omega)

theorem findCoordPath_lt_of_mem (coordPath : String) (l : List String)
    (h : coordPath ∈ l) : findCoordPath coordPath l 0 < l.length := by
  have h1 := findCoordPath_le coordPath l 0
  have h2 := (findCoordPath_eq_length_iff coordPath l 0).not.2 (not_not.2 h)
  omega

theorem constructCoordinateActuators_eq [CommRing α] (model : Model α)
    (motionData : InverseMuscleSolverMotionData α) :
    constructCoordinateActuators model motionData =
      { initialProblem motionData with
        initialTimeBounds := some ⟨motionData.getInitialTime, motionData.getInitialTime⟩
        finalTimeBounds := some ⟨motionData.getFinalTime, motionData.getFinalTime⟩
        controls := model.enabledCoordinateActuators.map fun a =>
          (a.absolutePathName ++ "_control", (⟨a.min_control, a.max_control⟩ : Bounds α))
        _numCoordActuators := model.enabledCoordinateActuators.length
        _otherControlsLabels :=
          model.enabledCoordinateActuators.map fun a => a.absolutePathName
        _coordActuatorDOFs := List.replicate model.enabledCoordinateActuators.length 0
        _optimalForce := List.replicate model.enabledCoordinateActuators.length 0 } := by
  simp [constructCoordinateActuators, constructTimeBounds, addCoordinateActuatorControls_eq,
    set_time, initialProblem, Model.enabledCoordinateActuators]

theorem constructMusclesAndConstraints_eq [CommRing α] (model : Model α)
    (motionData : InverseMuscleSolverMotionData α) (p5 : GSOProblemSeparate α) :
    constructMusclesAndConstraints model motionData p5 =
      { p5 with
        controls := p5.controls ++ model.enabledMuscles.map fun a =>
          (a.absolutePathName ++ "_activation", (⟨0, 1⟩ : Bounds α))
        pathConstraints := p5.pathConstraints ++
          motionData.getCoordinatesToActuate.map fun coordPath =>
            ("net_gen_force_" ++ coordPath, (⟨0, 0⟩ : Bounds α))
        _numCoordsToActuate := motionData.getCoordinatesToActuate.length
        _numMuscles := model.enabledMuscles.length
        _muscleLabels := p5._muscleLabels ++ model.enabledMuscles.map fun a => a.absolutePathName
        _muscles := model.enabledMuscles.map fun a =>
          (⟨a.max_isometric_force, a.optimal_fiber_length, a.tendon_slack_length,
            a.pennation_angle_at_optimal, a.max_contraction_velocity⟩ :
              DeGroote2016Muscle α) } := by
  obtain ⟨ms, hms⟩ := createMuscles_frame model.muscles 0
    { addMuscleControls { p5 with _numMuscles := 0 } model.muscles with
      _muscles := List.replicate
        (addMuscleControls { p5 with _numMuscles := 0 } model.muscles)._numMuscles
        DeGroote2016Muscle.default }
  have hk : (addMuscleControls { p5 with _numMuscles := 0 } model.muscles)._numMuscles
      = (model.muscles.filter fun a => a.appliesForce).length := by
    rw [addMuscleControls_eq]
    simp
  have hmus := createMuscles_muscles model.muscles 0
    { addMuscleControls { p5 with _numMuscles := 0 } model.muscles with
      _muscles := List.replicate
        (addMuscleControls { p5 with _numMuscles := 0 } model.muscles)._numMuscles
        DeGroote2016Muscle.default } (by simp [hk])
  rw [hms] at hmus
  simp only [hk, List.take_zero, List.nil_append, Nat.zero_add, List.drop_replicate,
    Nat.sub_self, List.replicate_zero, List.append_nil] at hmus
  simp only [constructMusclesAndConstraints]
  rw [hms, addPathConstraints_eq, addMuscleControls_eq, hmus]
  simp [Model.enabledMuscles]

/-- The state after a construction that threw nothing. -/
theorem construct_state_of_ok [CommRing α] (model : Model α)
    (motionData : InverseMuscleSolverMotionData α)
    (h : (construct model motionData).2 = none) :
    (construct model motionData).1 =
      { initialProblem motionData with
        initialTimeBounds := some ⟨motionData.getInitialTime, motionData.getInitialTime⟩
        finalTimeBounds := some ⟨motionData.getFinalTime, motionData.getFinalTime⟩
        controls :=
          (model.enabledCoordinateActuators.map fun a =>
            (a.absolutePathName ++ "_control",
              (⟨a.min_control, a.max_control⟩ : Bounds α))) ++
          (model.enabledMuscles.map fun a =>
            (a.absolutePathName ++ "_activation", (⟨0, 1⟩ : Bounds α)))
        pathConstraints := motionData.getCoordinatesToActuate.map fun coordPath =>
          ("net_gen_force_" ++ coordPath, (⟨0, 0⟩ : Bounds α))
        _numCoordsToActuate := motionData.getCoordinatesToActuate.length
        _numCoordActuators := model.enabledCoordinateActuators.length
        _numMuscles := model.enabledMuscles.length
        _muscleLabels := model.enabledMuscles.map fun a => a.absolutePathName
        _otherControlsLabels :=
          model.enabledCoordinateActuators.map fun a => a.absolutePathName
        _coordActuatorDOFs := model.enabledCoordinateActuators.map fun a =>
          findCoordPath a.coordinate.relativePathName motionData.getCoordinatesToActuate 0
        _optimalForce := model.enabledCoordinateActuators.map fun a => a.optimalForce
        _muscles := model.enabledMuscles.map fun a =>
          (⟨a.max_isometric_force, a.optimal_fiber_length, a.tendon_slack_length,
            a.pennation_angle_at_optimal, a.max_contraction_velocity⟩ :
              DeGroote2016Muscle α) } := by
  unfold construct at h ⊢
  cases hc : checkActuators model.scalarActuators with
  | some e => simp [hc] at h
  | none =>
    simp only [hc] at h ⊢
    obtain ⟨opt, dofs, hod⟩ := assignCoordActuatorDOFs_frame
      motionData.getCoordinatesToActuate model.coordinateActuators 0
      (constructCoordinateActuators model motionData)
    have hok := assignCoordActuatorDOFs_ok
      motionData.getCoordinatesToActuate model.coordinateActuators 0
      (constructCoordinateActuators model motionData)
    rcases hq : assignCoordActuatorDOFs motionData.getCoordinatesToActuate
      model.coordinateActuators 0 (constructCoordinateActuators model motionData)
      with ⟨p5, _ | e⟩
    · rw [hq] at hod hok
      simp only at hod
      have hok2 := hok rfl
        (by rw [constructCoordinateActuators_eq]; simp [Model.enabledCoordinateActuators])
        (by rw [constructCoordinateActuators_eq]; simp [Model.enabledCoordinateActuators])
      rw [hod, constructCoordinateActuators_eq] at hok2
      simp only [Model.enabledCoordinateActuators, List.take_zero, List.nil_append,
        Nat.zero_add, List.drop_replicate, Nat.sub_self, List.replicate_zero,
        List.append_nil] at hok2
      simp only
      rw [constructMusclesAndConstraints_eq, hod, constructCoordinateActuators_eq, hok2.1,
        hok2.2]
      simp [initialProblem, Model.enabledCoordinateActuators]
    · rw [hq] at h
      simp at h

/-- A construction that threw nothing leaves tables indexed by the actuators, with every DOF a
position among the coordinates to actuate. -/
theorem construct_actuatorsIndexed [CommRing α] (model : Model α)
    (motionData : InverseMuscleSolverMotionData α)
    (h : (construct model motionData).2 = none) :
    ActuatorsIndexed (construct model motionData).1 := by
  have herr := (assignCoordActuatorDOFs_error motionData.getCoordinatesToActuate
    model.coordinateActuators 0 (constructCoordinateActuators model motionData)).1
  have h2 : (assignCoordActuatorDOFs motionData.getCoordinatesToActuate
      model.coordinateActuators 0 (constructCoordinateActuators model motionData)).2
        = none := by
    unfold construct at h
    cases hc : checkActuators model.scalarActuators with
    | some e => simp [hc] at h
    | none =>
      simp only [hc] at h
      rcases hq : assignCoordActuatorDOFs motionData.getCoordinatesToActuate
        model.coordinateActuators 0 (constructCoordinateActuators model motionData)
        with ⟨p5, _ | e⟩
      · rfl
      · rw [hq] at h
        simp at h
  have hall := herr.1 h2
  rw [construct_state_of_ok model motionData h]
  refine ⟨by simp, by simp, by simp, ?_⟩
  intro dof hdof
  simp only [List.mem_map] at hdof
  obtain ⟨a, ha, rfl⟩ := hdof
  simp only [Model.enabledCoordinateActuators, List.mem_filter] at ha
  exact findCoordPath_lt_of_mem _ _ (hall a ha.1 ha.2)

end ConstructionProperties

section ConstructionClaims

variable {α : Type}

theorem enabledCoordinateActuators_eq_filter (model : Model α) :
    model.enabledCoordinateActuators = model.scalarActuators.filter fun a =>
      a.kind = ActuatorKind.coordinateActuator ∧ a.appliesForce = true := by
  simp [Model.enabledCoordinateActuators, Model.coordinateActuators, List.filter_filter,
    and_comm]

theorem enabledMuscles_eq_filter (model : Model α) :
    model.enabledMuscles = model.scalarActuators.filter fun a =>
      a.kind = ActuatorKind.muscle ∧ a.appliesForce = true := by
  simp [Model.enabledMuscles, Model.muscles, List.filter_filter, and_comm]

/-- C5: after a construction that threw nothing, `_numCoordActuators` and `_numMuscles` are the
numbers of CoordinateActuators and of Muscles with appliesForce = true, the number of
registered controls is their sum, and the controls are, in this order, one "_control" per
enabled CoordinateActuator in model iteration order and then one "_activation" per enabled
Muscle in model iteration order; an actuator with appliesForce = false is in neither list. -/
theorem construct_controls_layout [CommRing α] (model : Model α)
    (motionData : InverseMuscleSolverMotionData α)
    (h : (construct model motionData).2 = none) :
    (construct model motionData).1._numCoordActuators
        = model.scalarActuators.countP
            (fun a => a.kind = ActuatorKind.coordinateActuator ∧ a.appliesForce = true) ∧
    (construct model motionData).1._numMuscles
        = model.scalarActuators.countP
            (fun a => a.kind = ActuatorKind.muscle ∧ a.appliesForce = true) ∧
    (construct model motionData).1.controls.length
        = (construct model motionData).1._numCoordActuators
          + (construct model motionData).1._numMuscles ∧
    (construct model motionData).1.controls.map Prod.fst
        = ((model.scalarActuators.filter fun a =>
              a.kind = ActuatorKind.coordinateActuator ∧ a.appliesForce = true).map
            fun a => a.absolutePathName ++ "_control") ++
          ((model.scalarActuators.filter fun a =>
              a.kind = ActuatorKind.muscle ∧ a.appliesForce = true).map
            fun a => a.absolutePathName ++ "_activation") := by
  rw [construct_state_of_ok model motionData h]
  simp only [List.length_append, List.length_map, List.map_append, List.map_map,
    enabledCoordinateActuators_eq_filter, enabledMuscles_eq_filter, List.countP_eq_length_filter]
  exact ⟨trivial, trivial, trivial, rfl⟩

/-- C6: construction registers the control of each enabled CoordinateActuator with the bounds
[min_control, max_control] of that actuator and the activation control of each enabled Muscle
with the bounds [0, 1], whatever the muscle's min_control and max_control are. -/
theorem construct_controls_bounds [CommRing α] (model : Model α)
    (motionData : InverseMuscleSolverMotionData α)
    (h : (construct model motionData).2 = none) :
    (construct model motionData).1.controls
        = ((model.scalarActuators.filter fun a =>
              a.kind = ActuatorKind.coordinateActuator ∧ a.appliesForce = true).map
            fun a => (a.absolutePathName ++ "_control",
              (⟨a.min_control, a.max_control⟩ : Bounds α))) ++
          ((model.scalarActuators.filter fun a =>
              a.kind = ActuatorKind.muscle ∧ a.appliesForce = true).map
            fun a => (a.absolutePathName ++ "_activation", (⟨0, 1⟩ : Bounds α))) := by
  rw [construct_state_of_ok model motionData h]
  simp only [enabledCoordinateActuators_eq_filter, enabledMuscles_eq_filter]

/-- Instance of C5 on the example model: the knee reserve and the vastus get a control, in this
order, and the disabled actuators get none. -/
theorem construct_controls_layout_witness :
    (construct Example.leg Example.motion).2 = none ∧
    (construct Example.leg Example.motion).1._numCoordActuators = 1 ∧
    (construct Example.leg Example.motion).1._numMuscles = 1 ∧
    (construct Example.leg Example.motion).1.controls.map Prod.fst
      = ["/leg/reserve_knee_control", "/leg/vastus_activation"] :=
  have h := construct_controls_layout Example.leg Example.motion (by decide)
  ⟨by decide, h.1.trans (by decide), h.2.1.trans (by decide), h.2.2.2.trans (by decide)⟩

/-- Instance of C6 on the example model: the knee reserve keeps its bounds [-2, 3], the vastus,
whose own bounds are [1/100, 2], is registered with [0, 1]. -/
theorem construct_controls_bounds_witness :
    (construct Example.leg Example.motion).2 = none ∧
    (construct Example.leg Example.motion).1.controls
      = [("/leg/reserve_knee_control", ⟨-2, 3⟩), ("/leg/vastus_activation", ⟨0, 1⟩)] :=
  ⟨by decide, (construct_controls_bounds Example.leg Example.motion (by decide)).trans
    (by decide)⟩

/-- C8: if the model contains a scalar actuator with appliesForce = true that is neither a
Muscle nor a CoordinateActuator, construction throws the unsupported-actuator exception for
such an actuator, and at the throw no control and no path constraint is registered; if every
actuator of an unsupported type has appliesForce = false, that exception is not thrown. -/
theorem construct_unsupported_actuator [CommRing α] (model : Model α)
    (motionData : InverseMuscleSolverMotionData α) :
    ((∃ a ∈ model.scalarActuators, a.appliesForce = true ∧ a.kind = ActuatorKind.other) →
      (∃ a ∈ model.scalarActuators, a.appliesForce = true ∧ a.kind = ActuatorKind.other ∧
        (construct model motionData).2
          = some (GSOError.unsupportedActuator a.concreteClassName)) ∧
      (construct model motionData).1.controls = [] ∧
      (construct model motionData).1.pathConstraints = []) ∧
    ((∀ a ∈ model.scalarActuators, a.kind = ActuatorKind.other → a.appliesForce = false) →
      ∀ c, (construct model motionData).2 ≠ some (GSOError.unsupportedActuator c)) := by
  constructor
  · rintro ⟨a, ha, hen, hk⟩
    cases hc : checkActuators model.scalarActuators with
    | none =>
      have := (checkActuators_eq_none_iff model.scalarActuators).1 hc a ha hen
      rw [hk] at this
      simp at this
    | some e =>
      obtain ⟨b, hb, hben, hbk, rfl⟩ := checkActuators_eq_some _ e hc
      refine ⟨⟨b, hb, hben, hbk, ?_⟩, ?_, ?_⟩ <;> simp [construct, hc] <;> rfl
  · intro hall c hcon
    have hc : checkActuators model.scalarActuators = none := by
      rw [checkActuators_eq_none_iff]
      intro a ha hen
      cases hk : a.kind with
      | muscle => exact Or.inl rfl
      | coordinateActuator => exact Or.inr rfl
      | other => rw [hall a ha hk] at hen; exact absurd hen (by decide)
    unfold construct at hcon
    simp only [hc] at hcon
    rcases hq : assignCoordActuatorDOFs motionData.getCoordinatesToActuate
      model.coordinateActuators 0 (constructCoordinateActuators model motionData)
      with ⟨p5, _ | e⟩
    · rw [hq] at hcon
      simp at hcon
    · obtain ⟨b, -, -, -, he⟩ := (assignCoordActuatorDOFs_error _ _ _ _).2 e
        (by rw [hq])
      rw [hq] at hcon
      simp only [Option.some.injEq] at hcon
      rw [he] at hcon
      exact GSOError.noConfusion hcon

/-- Instance of C8: with the PointActuator enabled construction throws and nothing is
registered; with the PointActuator disabled it does not throw that exception. -/
theorem construct_unsupported_actuator_witness :
    ((construct Example.legWithPointActuator Example.motion).2
        = some (GSOError.unsupportedActuator "PointActuator") ∧
      (construct Example.legWithPointActuator Example.motion).1.controls = [] ∧
      (construct Example.legWithPointActuator Example.motion).1.pathConstraints = []) ∧
    (construct Example.leg Example.motion).2
      ≠ some (GSOError.unsupportedActuator "PointActuator") :=
  ⟨⟨by decide,
    ((construct_unsupported_actuator Example.legWithPointActuator Example.motion).1
      ⟨Example.pointActuator true, by simp [Example.legWithPointActuator], rfl, rfl⟩).2⟩,
   (construct_unsupported_actuator Example.leg Example.motion).2 (by decide) _⟩

/-- C9: given a model with no unsupported enabled actuator, construction throws the
"Could not find Coordinate" exception if and only if some CoordinateActuator with
appliesForce = true acts on a coordinate whose model-relative path does not occur in the
coordinates-to-actuate list, and the exception then names such an actuator and its coordinate;
otherwise construction throws nothing.  CoordinateActuators with appliesForce = false are not
checked. -/
theorem construct_could_not_find_coordinate [CommRing α] (model : Model α)
    (motionData : InverseMuscleSolverMotionData α)
    (hsupported : ∀ a ∈ model.scalarActuators, a.appliesForce = true →
      a.kind = ActuatorKind.muscle ∨ a.kind = ActuatorKind.coordinateActuator) :
    ((∃ c n, (construct model motionData).2 = some (GSOError.couldNotFindCoordinate c n)) ↔
      ∃ a ∈ model.scalarActuators, a.kind = ActuatorKind.coordinateActuator ∧
        a.appliesForce = true ∧
        a.coordinate.relativePathName ∉ motionData.getCoordinatesToActuate) ∧
    (∀ e, (construct model motionData).2 = some e →
      ∃ a ∈ model.scalarActuators, a.kind = ActuatorKind.coordinateActuator ∧
        a.appliesForce = true ∧
        a.coordinate.relativePathName ∉ motionData.getCoordinatesToActuate ∧
        e = GSOError.couldNotFindCoordinate a.coordinate.absolutePathName
          a.absolutePathName) ∧
    ((construct model motionData).2 = none ↔
      ∀ a ∈ model.scalarActuators, a.kind = ActuatorKind.coordinateActuator →
        a.appliesForce = true →
        a.coordinate.relativePathName ∈ motionData.getCoordinatesToActuate) := by
  have hc : checkActuators model.scalarActuators = none :=
    (checkActuators_eq_none_iff _).2 hsupported
  have herr := assignCoordActuatorDOFs_error motionData.getCoordinatesToActuate
    model.coordinateActuators 0 (constructCoordinateActuators model motionData)
  have h2 : (construct model motionData).2 =
      (assignCoordActuatorDOFs motionData.getCoordinatesToActuate
        model.coordinateActuators 0 (constructCoordinateActuators model motionData)).2 := by
    unfold construct
    simp only [hc]
    rcases assignCoordActuatorDOFs motionData.getCoordinatesToActuate
      model.coordinateActuators 0 (constructCoordinateActuators model motionData)
      with ⟨p5, _ | e⟩ <;> rfl
  have hmem : ∀ a, a ∈ model.coordinateActuators ↔
      a ∈ model.scalarActuators ∧ a.kind = ActuatorKind.coordinateActuator := by
    intro a
    simp [Model.coordinateActuators]
  have hsome : ∀ e, (construct model motionData).2 = some e →
      ∃ a ∈ model.scalarActuators, a.kind = ActuatorKind.coordinateActuator ∧
        a.appliesForce = true ∧
        a.coordinate.relativePathName ∉ motionData.getCoordinatesToActuate ∧
        e = GSOError.couldNotFindCoordinate a.coordinate.absolutePathName
          a.absolutePathName := by
    intro e he
    rw [h2] at he
    obtain ⟨a, ha, hen, hnm, rfl⟩ := herr.2 e he
    exact ⟨a, ((hmem a).1 ha).1, ((hmem a).1 ha).2, hen, hnm, rfl⟩
  have hnone : (construct model motionData).2 = none ↔
      ∀ a ∈ model.scalarActuators, a.kind = ActuatorKind.coordinateActuator →
        a.appliesForce = true →
        a.coordinate.relativePathName ∈ motionData.getCoordinatesToActuate := by
    rw [h2, herr.1]
    exact ⟨fun hall a ha hk => hall a ((hmem a).2 ⟨ha, hk⟩),
      fun hall a ha => hall a ((hmem a).1 ha).1 ((hmem a).1 ha).2⟩
  refine ⟨⟨?_, ?_⟩, hsome, hnone⟩
  · rintro ⟨c, n, he⟩
    obtain ⟨a, ha, hk, hen, hnm, -⟩ := hsome _ he
    exact ⟨a, ha, hk, hen, hnm⟩
  · rintro ⟨a, ha, hk, hen, hnm⟩
    cases he : (construct model motionData).2 with
    | none => exact absurd (hnone.1 he a ha hk hen) hnm
    | some e =>
      obtain ⟨b, -, -, -, -, rfl⟩ := hsome e he
      exact ⟨_, _, rfl⟩

/-- Instance of C9: with the ankle actuator enabled construction throws "Could not find
Coordinate" for it; with the ankle actuator disabled construction throws nothing. -/
theorem construct_could_not_find_coordinate_witness :
    (∃ c n, (construct Example.legWithAnkleActuator Example.motion).2
      = some (GSOError.couldNotFindCoordinate c n)) ∧
    (construct Example.leg Example.motion).2 = none :=
  ⟨(construct_could_not_find_coordinate Example.legWithAnkleActuator Example.motion
      (by decide)).1.2
      ⟨Example.reserveAnkle true, by simp [Example.legWithAnkleActuator], rfl, rfl,
        by decide⟩,
   (construct_could_not_find_coordinate Example.leg Example.motion (by decide)).2.2.2
    (by decide)⟩

end ConstructionClaims

section EvaluationLemmas

variable {α : Type}

theorem mapM_eq_some_map {β γ : Type} (f : β → Option γ) (g : β → γ) (l : List β)
    (h : ∀ x ∈ l, f x = some (g x)) : l.mapM f = some (l.map g) := by
  induction l with
  | nil => rfl
  | cons x xs ih =>
    rw [List.mapM_cons, h x (List.mem_cons_self _ _),
      ih fun y hy => h y (List.mem_cons_of_mem _ hy)]
    rfl

theorem mapM_length {β γ : Type} (f : β → Option γ) (l : List β) (r : List γ)
    (h : l.mapM f = some r) : r.length = l.length := by
  induction l generalizing r with
  | nil =>
    rw [List.mapM_nil] at h
    cases h
    rfl
  | cons x xs ih =>
    rw [List.mapM_cons] at h
    cases hx : f x with
    | none => rw [hx] at h; cases h
    | some y =>
      cases hxs : xs.mapM f with
      | none => rw [hx, hxs] at h; cases h
      | some ys =>
        rw [hx, hxs] at h
        cases h
        simp [ih ys hxs]

theorem sum_map_range [AddCommMonoid α] (f : Nat → α) (n : Nat) :
    ((List.range n).map f).sum = ∑ i in Finset.range n, f i := by
  induction n with
  | zero => simp
  | succ n ih =>
    rw [List.range_succ, List.map_append, List.sum_append, ih, Finset.sum_range_succ]
    simp

theorem zipWith_map_map {β γ δ ε : Type} (f : γ → δ → ε) (g : β → γ) (h : β → δ)
    (l : List β) : List.zipWith f (l.map g) (l.map h) = l.map fun x => f (g x) (h x) := by
  induction l with
  | nil => rfl
  | cons x xs ih => simp [ih]

theorem addCoordActuatorForce_length [CommRing α] (p : GSOProblemSeparate α)
    (controls genForce r : List α) (i_act : Nat)
    (h : addCoordActuatorForce p controls genForce i_act = some r) :
    r.length = genForce.length := by
  unfold addCoordActuatorForce at h
  simp only [Option.bind_eq_bind, Option.pure_def, Option.bind_eq_some] at h
  obtain ⟨dof, -, opt, -, u, -, cur, -, hr⟩ := h
  cases hr
  simp

theorem foldlM_addCoordActuatorForce_length [CommRing α] (p : GSOProblemSeparate α)
    (controls : List α) (l : List Nat) (genForce r : List α)
    (h : l.foldlM (addCoordActuatorForce p controls) genForce = some r) :
    r.length = genForce.length := by
  induction l generalizing genForce with
  | nil =>
    rw [List.foldlM_nil] at h
    cases h
    rfl
  | cons x xs ih =>
    rw [List.foldlM_cons] at h
    cases hx : addCoordActuatorForce p controls genForce x with
    | none => rw [hx] at h; cases h
    | some g =>
      rw [hx] at h
      rw [ih g h, addCoordActuatorForce_length p controls genForce g x hx]

/-- The vector `path_constraints` assigns to `constraints` has `_numCoordsToActuate`
entries. -/
theorem path_constraints_length [CommRing α] (mf : MuscleFunctions α)
    (p : GSOProblemSeparate α) (i_mesh : Nat) (time : α) (states controls r : List α)
    (h : path_constraints mf p i_mesh time states controls = some r) :
    r.length = p._numCoordsToActuate := by
  unfold path_constraints at h
  simp only [Option.bind_eq_bind, Option.pure_def, Option.bind_eq_some] at h
  obtain ⟨g1, hg1, g2, hg2, desired, hd, hr⟩ := h
  have h1 := foldlM_addCoordActuatorForce_length p controls _ _ _ hg1
  rw [List.length_replicate] at h1
  have h2 : g2.length = p._numCoordsToActuate := by
    unfold addMuscleGenForces at hg2
    split at hg2
    · simp only [Option.bind_eq_bind, Option.bind_eq_some] at hg2
      obtain ⟨mfs, -, M, -, prod, -, hadd⟩ := hg2
      unfold vecAdd? at hadd
      split at hadd
      · rename_i hlen
        cases hadd
        simp [← hlen, h1]
      · cases hadd
    · cases hg2
      exact h1
  unfold vecSub? at hr
  split at hr
  · rename_i hlen
    cases hr
    simp [hlen, h2]
  · cases hr

theorem getElem?_eq_some_getD {β : Type} (l : List β) (n : Nat) (d : β)
    (h : n < l.length) : l[n]? = some (l.getD n d) := by
  rw [List.getD_eq_getElem?_getD, List.getElem?_eq_getElem h]
  rfl

/-- The loop of lines 204-207, run over the first `n` coordinate actuators from the zero
vector: position `d` holds the sum of `_optimalForce[k] * controls[k]` over the actuators
`k < n` whose DOF is `d`. -/
theorem foldlM_addCoordActuatorForce [CommRing α] (p : GSOProblemSeparate α)
    (controls : List α) (hact : ActuatorsIndexed p)
    (hlen : p._numCoordActuators ≤ controls.length) (n : Nat)
    (hn : n ≤ p._numCoordActuators) :
    (List.range n).foldlM (addCoordActuatorForce p controls)
        (List.replicate p._numCoordsToActuate 0)
      = some ((List.range p._numCoordsToActuate).map fun d =>
          ∑ k in (Finset.range n).filter (fun k => p._coordActuatorDOFs.getD k 0 = d),
            p._optimalForce.getD k 0 * controls.getD k 0) := by
  induction n with
  | zero =>
    simp only [List.range_zero, List.foldlM_nil, Finset.range_zero, Finset.filter_empty,
      Finset.sum_empty, List.map_const', List.length_range]
    rfl
  | succ n ih =>
    obtain ⟨hd, ho, -, hdof⟩ := hact
    have hnd : n < p._coordActuatorDOFs.length := by omega
    have hdlt : p._coordActuatorDOFs.getD n 0 < p._numCoordsToActuate := by
      apply hdof
      rw [List.getD_eq_getElem _ _ hnd]
      exact List.getElem_mem _
    rw [List.range_succ, List.foldlM_append, ih (by omega)]
    simp only [Option.bind_eq_bind, Option.some_bind, List.foldlM_cons, List.foldlM_nil,
      addCoordActuatorForce, Option.pure_def, Option.bind_some]
    rw [getElem?_eq_some_getD _ n 0 hnd, getElem?_eq_some_getD _ n 0 (by omega),
      getElem?_eq_some_getD controls n 0 (by omega)]
    simp only [Option.some_bind]
    rw [List.getElem?_eq_getElem (by simpa using hdlt)]
    simp only [Option.some_bind, Option.some.injEq]
    apply List.ext_getElem (by simp)
    intro d h1 h2
    simp only [List.length_map, List.length_range] at h2
    simp only [List.getElem_set, List.getElem_map, List.getElem_range, Finset.range_succ,
      Finset.filter_insert]
    by_cases hdd : p._coordActuatorDOFs.getD n 0 = d
    · simp only [hdd, if_true]
      rw [Finset.sum_insert (by simp), add_comm]
    · simp only [hdd, if_false]

/-- Lines 214-224 under the dimensions of the data model: the force of muscle `m`. -/
theorem muscleForce_eq [CommRing α] (mf : MuscleFunctions α) (p : GSOProblemSeparate α)
    (i_mesh : Nat) (controls : List α) (hact : ActuatorsIndexed p)
    (hcol : IsCacheColumn p i_mesh)
    (hlen : controls.length = p._numCoordActuators + p._numMuscles) (m : Nat)
    (hm : m < p._numMuscles) :
    muscleForce mf p i_mesh controls m
      = some (mf.calcRigidTendonFiberForceAlongTendon
          (p._muscles.getD m DeGroote2016Muscle.default)
          (controls.getD (p._numCoordActuators + m) 0)
          (p._muscleTendonLengths.coeff m i_mesh)
          (p._muscleTendonVelocities.coeff m i_mesh)) := by
  obtain ⟨-, -, hmus, -⟩ := hact
  obtain ⟨-, -, hc⟩ := hcol
  obtain ⟨hlr, hlc, hvr, hvc, -, -, -⟩ := hc (by omega)
  unfold muscleForce MatrixX.get?
  rw [getElem?_eq_some_getD controls _ 0 (by omega),
    getElem?_eq_some_getD p._muscles m DeGroote2016Muscle.default (by omega),
    if_pos ⟨by omega, hlc⟩, if_pos ⟨by omega, hvc⟩]
  rfl

/-- Lines 211-230 under the dimensions of the data model: the moment-arm matrix times the
muscle forces is added to `genForce`. -/
theorem addMuscleGenForces_eq [CommRing α] (mf : MuscleFunctions α)
    (p : GSOProblemSeparate α) (i_mesh : Nat) (controls : List α)
    (hact : ActuatorsIndexed p) (hcol : IsCacheColumn p i_mesh)
    (hlen : controls.length = p._numCoordActuators + p._numMuscles) (g : Nat → α) :
    addMuscleGenForces mf p i_mesh controls ((List.range p._numCoordsToActuate).map g)
      = some ((List.range p._numCoordsToActuate).map fun d =>
          g d + ∑ m in Finset.range p._numMuscles,
            (p._momentArms.getD i_mesh MatrixX.empty).coeff d m *
              mf.calcRigidTendonFiberForceAlongTendon
                (p._muscles.getD m DeGroote2016Muscle.default)
                (controls.getD (p._numCoordActuators + m) 0)
                (p._muscleTendonLengths.coeff m i_mesh)
                (p._muscleTendonVelocities.coeff m i_mesh)) := by
  unfold addMuscleGenForces
  by_cases h0 : p._numMuscles = 0
  · simp [h0]
  · rw [if_pos h0]
    obtain ⟨-, -, -, -, hai, har, hac⟩ := hcol.2.2 h0
    rw [mapM_eq_some_map _ _ _ fun m hm =>
      muscleForce_eq mf p i_mesh controls hact hcol hlen m (List.mem_range.1 hm)]
    rw [getElem?_eq_some_getD p._momentArms i_mesh MatrixX.empty hai]
    simp only [Option.bind_eq_bind, Option.some_bind, MatrixX.mulVec?, vecAdd?]
    rw [if_pos (by rw [hac, List.length_map, List.length_range]), hac, har]
    simp only [Option.some_bind, zipWith_map_map, sum_map_range]
    rw [if_pos (by rw [List.length_map, List.length_map])]

/-- The value of `path_constraints` under the dimensions of the data model. -/
theorem path_constraints_closed_form [CommRing α] (mf : MuscleFunctions α)
    (p : GSOProblemSeparate α) (i_mesh : Nat) (time : α) (states controls : List α)
    (hact : ActuatorsIndexed p) (hcol : IsCacheColumn p i_mesh)
    (hlen : controls.length = p._numCoordActuators + p._numMuscles) :
    path_constraints mf p i_mesh time states controls
      = some ((List.range p._numCoordsToActuate).map fun d =>
          p._desiredMoments.coeff d i_mesh -
            ((∑ k in (Finset.range p._numCoordActuators).filter
                  (fun k => p._coordActuatorDOFs.getD k 0 = d),
                p._optimalForce.getD k 0 * controls.getD k 0) +
              ∑ m in Finset.range p._numMuscles,
                (p._momentArms.getD i_mesh MatrixX.empty).coeff d m *
                  mf.calcRigidTendonFiberForceAlongTendon
                    (p._muscles.getD m DeGroote2016Muscle.default)
                    (controls.getD (p._numCoordActuators + m) 0)
                    (p._muscleTendonLengths.coeff m i_mesh)
                    (p._muscleTendonVelocities.coeff m i_mesh))) := by
  simp only [path_constraints, Option.bind_eq_bind]
  rw [foldlM_addCoordActuatorForce p controls hact (by omega) _ (le_refl _)]
  simp only [Option.some_bind]
  rw [addMuscleGenForces_eq mf p i_mesh controls hact hcol hlen]
  obtain ⟨hdr, hdc, -⟩ := hcol
  simp only [Option.some_bind, MatrixX.col?, vecSub?]
  rw [if_pos hdc, hdr]
  simp only [Option.some_bind, zipWith_map_map]
  rw [if_pos (by rw [List.length_map, List.length_map])]

theorem initialize_on_mesh_actuatorsIndexed [CommRing α] (p : GSOProblemSeparate α)
    (mesh : List α) (h : ActuatorsIndexed p) :
    ActuatorsIndexed (initialize_on_mesh p mesh).1 := by
  unfold initialize_on_mesh
  split <;> exact h

theorem initialize_on_mesh_layout [CommRing α] (p : GSOProblemSeparate α) (mesh : List α) :
    (initialize_on_mesh p mesh).1._numCoordsToActuate = p._numCoordsToActuate ∧
    (initialize_on_mesh p mesh).1._numCoordActuators = p._numCoordActuators ∧
    (initialize_on_mesh p mesh).1._numMuscles = p._numMuscles ∧
    (initialize_on_mesh p mesh).1._coordActuatorDOFs = p._coordActuatorDOFs ∧
    (initialize_on_mesh p mesh).1._optimalForce = p._optimalForce ∧
    (initialize_on_mesh p mesh).1._muscles = p._muscles ∧
    (initialize_on_mesh p mesh).1.controls = p.controls ∧
    (initialize_on_mesh p mesh).1.pathConstraints = p.pathConstraints := by
  unfold initialize_on_mesh
  split <;> exact ⟨rfl, rfl, rfl, rfl, rfl, rfl, rfl, rfl⟩

end EvaluationLemmas

section EvaluationClaims

variable {α : Type}

/-- C1: for a problem that was constructed and initialized on a mesh, every mesh index `i_mesh`
that is a column of the cache and every control vector of length
`_numCoordActuators + _numMuscles`, `path_constraints` returns the vector whose entry for the
actuated coordinate `d` is `desiredMoments(d, i_mesh) - genForce[d]`, where `genForce[d]` is
the sum of `_optimalForce[k] * controls[k]` over all coordinate actuators `k` whose DOF is `d`
(several actuators on one DOF are added up) plus the sum over the muscles `m` of
`momentArms[i_mesh](d, m)` times the rigid-tendon fiber force along the tendon of muscle `m` at
the activation `controls[_numCoordActuators + m]` and the cached muscle-tendon length and
velocity at `(m, i_mesh)`. -/
theorem path_constraints_eq_desired_sub_genForce [CommRing α] (mf : MuscleFunctions α)
    (model : Model α) (motionData : InverseMuscleSolverMotionData α) (mesh : List α)
    (p : GSOProblemSeparate α) (i_mesh : Nat) (time : α) (states controls : List α)
    (hok : (construct model motionData).2 = none)
    (hp : p = (initialize_on_mesh (construct model motionData).1 mesh).1)
    (hcol : IsCacheColumn p i_mesh)
    (hlen : controls.length = p._numCoordActuators + p._numMuscles) :
    path_constraints mf p i_mesh time states controls
      = some ((List.range p._numCoordsToActuate).map fun d =>
          p._desiredMoments.coeff d i_mesh -
            ((∑ k in (Finset.range p._numCoordActuators).filter
                  (fun k => p._coordActuatorDOFs.getD k 0 = d),
                p._optimalForce.getD k 0 * controls.getD k 0) +
              ∑ m in Finset.range p._numMuscles,
                (p._momentArms.getD i_mesh MatrixX.empty).coeff d m *
                  mf.calcRigidTendonFiberForceAlongTendon
                    (p._muscles.getD m DeGroote2016Muscle.default)
                    (controls.getD (p._numCoordActuators + m) 0)
                    (p._muscleTendonLengths.coeff m i_mesh)
                    (p._muscleTendonVelocities.coeff m i_mesh))) :=
  path_constraints_closed_form mf p i_mesh time states controls
    (hp ▸ initialize_on_mesh_actuatorsIndexed _ mesh
      (construct_actuatorsIndexed model motionData hok)) hcol hlen

/-- Instance of C1 on the example problem at the middle mesh point (time 2, desired force 20):
with the reserve control 3 and the activation 1/1000 the residual is
20 - (5 * 3 + 2 * (1/1000 * 1000)) = 3. -/
theorem path_constraints_eq_desired_sub_genForce_witness :
    IsCacheColumn Example.problemOnMesh 1 ∧
    path_constraints Example.linearMuscle Example.problemOnMesh 1 0 [] [3, 1 / 1000]
      = some [3] := by
  have hcol : IsCacheColumn Example.problemOnMesh 1 := by
    unfold IsCacheColumn
    decide
  refine ⟨hcol, ?_⟩
  rw [path_constraints_eq_desired_sub_genForce Example.linearMuscle Example.leg Example.motion
    [0, 1 / 2, 1] Example.problemOnMesh 1 0 [] [3, 1 / 1000] (by decide) rfl hcol (by decide)]
  have h1 : Example.problemOnMesh._numCoordsToActuate = 1 := by decide
  have h2 : Example.problemOnMesh._numCoordActuators = 1 := by decide
  have h3 : Example.problemOnMesh._numMuscles = 1 := by decide
  have h4 : Example.problemOnMesh._coordActuatorDOFs = [0] := by decide
  have h5 : Example.problemOnMesh._optimalForce = [5] := by decide
  have h6 : Example.problemOnMesh._muscles = [⟨1000, 1 / 10, 2 / 10, 0, 10⟩] := rfl
  have h7 : Example.problemOnMesh._desiredMoments.coeff 0 1 = 10 * (1 + (3 - 1) * (1 / 2)) :=
    rfl
  have h8 : (Example.problemOnMesh._momentArms.getD 1 MatrixX.empty).coeff 0 0 = 2 := rfl
  simp only [h1, h2, h3, h4, h5, h6, List.range_succ, List.range_zero, List.nil_append,
    List.map_cons, List.map_nil, Finset.sum_range_one, h7, h8]
  norm_num [Finset.sum_filter, Example.linearMuscle]

/-- C7: construction registers exactly one path constraint per entry of the
coordinates-to-actuate list, in list order, each named "net_gen_force_" followed by the
coordinate path and each with lower and upper bound 0; their number is `_numCoordsToActuate`,
the length of the list, and it is the length of every vector `path_constraints` produces. -/
theorem construct_path_constraints [CommRing α] (model : Model α)
    (motionData : InverseMuscleSolverMotionData α)
    (hok : (construct model motionData).2 = none) :
    (construct model motionData).1.pathConstraints
      = motionData.getCoordinatesToActuate.map
          (fun coordPath => ("net_gen_force_" ++ coordPath, (⟨0, 0⟩ : Bounds α))) ∧
    (construct model motionData).1.pathConstraints.length
      = (construct model motionData).1._numCoordsToActuate ∧
    (construct model motionData).1._numCoordsToActuate
      = motionData.getCoordinatesToActuate.length ∧
    ∀ (mf : MuscleFunctions α) (mesh : List α) (i_mesh : Nat) (time : α)
      (states controls r : List α),
      path_constraints mf (initialize_on_mesh (construct model motionData).1 mesh).1 i_mesh
          time states controls = some r →
        r.length = (construct model motionData).1.pathConstraints.length := by
  have hs := construct_state_of_ok model motionData hok
  have h1 : (construct model motionData).1.pathConstraints
      = motionData.getCoordinatesToActuate.map
          (fun coordPath => ("net_gen_force_" ++ coordPath, (⟨0, 0⟩ : Bounds α))) := by
    rw [hs]
  have h2 : (construct model motionData).1._numCoordsToActuate
      = motionData.getCoordinatesToActuate.length := by
    rw [hs]
  refine ⟨h1, ?_, h2, ?_⟩
  · rw [h1, h2, List.length_map]
  · intro mf mesh i_mesh time states controls r hr
    rw [path_constraints_length mf _ i_mesh time states controls r hr,
      (initialize_on_mesh_layout _ mesh).1, h1, h2, List.length_map]

/-- Instance of C7 on the example problem: one equality constraint, for the knee, and a
residual vector with one entry. -/
theorem construct_path_constraints_witness :
    (construct Example.leg Example.motion).2 = none ∧
    (construct Example.leg Example.motion).1.pathConstraints
      = [("net_gen_force_jointset/knee/flexion", ⟨0, 0⟩)] ∧
    (construct Example.leg Example.motion).1._numCoordsToActuate = 1 :=
  have h := construct_path_constraints Example.leg Example.motion (by decide)
  ⟨by decide, h.1.trans (by decide), h.2.2.1.trans (by decide)⟩

theorem findCoordPath_singleton (c : String) : findCoordPath c [c] 0 = 0 := by
  simp [findCoordPath]

/-- C3, as amended: in exact arithmetic (the scalars are the elements of a field), in a
problem with one actuated coordinate, exactly one enabled coordinate actuator, with optimal
force F ≠ 0 and acting on that coordinate, and no enabled muscle, at every mesh index that is
a column of the cache the residual for the control `u` is the one-entry vector
`desiredMoments(0, i_mesh) - F * u`; it is zero if and only if
`u = desiredMoments(0, i_mesh) / F`, and the cost integrand at `u` is `u ^ 2`. -/
theorem single_actuator_residual_zero_iff [Field α] (mf : MuscleFunctions α)
    (model : Model α) (motionData : InverseMuscleSolverMotionData α) (mesh : List α)
    (p : GSOProblemSeparate α) (a : ScalarActuator α) (i_mesh : Nat) (time : α)
    (states : List α) (u : α)
    (hok : (construct model motionData).2 = none)
    (hp : p = (initialize_on_mesh (construct model motionData).1 mesh).1)
    (hcoords : motionData.getCoordinatesToActuate = [a.coordinate.relativePathName])
    (hca : model.enabledCoordinateActuators = [a])
    (hmus : model.enabledMuscles = [])
    (hF : a.optimalForce ≠ 0)
    (hcol : IsCacheColumn p i_mesh) :
    path_constraints mf p i_mesh time states [u]
      = some [p._desiredMoments.coeff 0 i_mesh - a.optimalForce * u] ∧
    (path_constraints mf p i_mesh time states [u] = some [0] ↔
      u = p._desiredMoments.coeff 0 i_mesh / a.optimalForce) ∧
    integral_cost time states [u] = u ^ 2 := by
  have hs := construct_state_of_ok model motionData hok
  have hlay := initialize_on_mesh_layout (construct model motionData).1 mesh
  have hact : ActuatorsIndexed p :=
    hp ▸ initialize_on_mesh_actuatorsIndexed _ mesh
      (construct_actuatorsIndexed model motionData hok)
  have hN : p._numCoordsToActuate = 1 := by rw [hp, hlay.1, hs]; simp [hcoords]
  have hA : p._numCoordActuators = 1 := by rw [hp, hlay.2.1, hs]; simp [hca]
  have hM : p._numMuscles = 0 := by rw [hp, hlay.2.2.1, hs]; simp [hmus]
  have hD : p._coordActuatorDOFs = [0] := by
    rw [hp, hlay.2.2.2.1, hs]
    simp [hca, hcoords, findCoordPath_singleton]
  have hO : p._optimalForce = [a.optimalForce] := by
    rw [hp, hlay.2.2.2.2.1, hs]
    simp [hca]
  have hval : path_constraints mf p i_mesh time states [u]
      = some [p._desiredMoments.coeff 0 i_mesh - a.optimalForce * u] := by
    rw [path_constraints_closed_form mf p i_mesh time states [u] hact hcol (by simp [hA, hM])]
    simp only [hN, hA, hM, hD, hO, List.range_succ, List.range_zero, List.nil_append,
      List.map_cons, List.map_nil, Finset.sum_range_zero, Finset.range_one]
    simp [Finset.sum_filter]
  refine ⟨hval, ?_, by simp [integral_cost, sq]⟩
  rw [hval]
  simp only [Option.some.injEq, List.cons.injEq, and_true]
  constructor
  · intro h
    field_simp
    linear_combination -h
  · intro h
    rw [h]
    field_simp

/-- Instance of the amended C3: one reserve actuator of optimal force 5 on the knee, desired force 20 at
the middle mesh point: the residual vanishes at the control 20 / 5 = 4, where the integrand
is 16. -/
theorem single_actuator_residual_zero_iff_witness :
    path_constraints Example.linearMuscle
        (initialize_on_mesh (construct Example.singleActuator Example.motion).1
          [0, 1 / 2, 1]).1 1 0 [] [4] = some [0] ∧
    integral_cost 0 [] [(4 : ℚ)] = 4 ^ 2 := by
  have h := single_actuator_residual_zero_iff Example.linearMuscle Example.singleActuator
    Example.motion [0, 1 / 2, 1] _ Example.reserveKnee 1 0 [] 4 (by decide) rfl rfl rfl rfl
    (by decide) (by unfold IsCacheColumn; decide)
  refine ⟨h.2.1.2 ?_, h.2.2⟩
  have hD : (initialize_on_mesh (construct Example.singleActuator Example.motion).1
      [0, 1 / 2, 1]).1._desiredMoments.coeff 0 1 = 10 * (1 + (3 - 1) * (1 / 2)) := rfl
  rw [hD]
  norm_num [Example.reserveKnee]

end EvaluationClaims

section MeshClaims

variable {α : Type}

/-- C11: mesh initialization is idempotent: for every problem state (whatever the cache holds),
every motion-data provider and every mesh, a second `initialize_on_mesh` with the same mesh
leaves the state, and so the cached desired forces, muscle-tendon lengths, muscle-tendon
velocities and moment arms, as the first call left them, and makes the same queries. -/
theorem initialize_on_mesh_idempotent [CommRing α] (p : GSOProblemSeparate α)
    (mesh : List α) :
    (initialize_on_mesh (initialize_on_mesh p mesh).1 mesh).1 = (initialize_on_mesh p mesh).1 ∧
    (initialize_on_mesh (initialize_on_mesh p mesh).1 mesh).1._desiredMoments
      = (initialize_on_mesh p mesh).1._desiredMoments ∧
    (initialize_on_mesh (initialize_on_mesh p mesh).1 mesh).1._muscleTendonLengths
      = (initialize_on_mesh p mesh).1._muscleTendonLengths ∧
    (initialize_on_mesh (initialize_on_mesh p mesh).1 mesh).1._muscleTendonVelocities
      = (initialize_on_mesh p mesh).1._muscleTendonVelocities ∧
    (initialize_on_mesh (initialize_on_mesh p mesh).1 mesh).1._momentArms
      = (initialize_on_mesh p mesh).1._momentArms ∧
    (initialize_on_mesh (initialize_on_mesh p mesh).1 mesh).2 = (initialize_on_mesh p mesh).2 := by
  have h : initialize_on_mesh (initialize_on_mesh p mesh).1 mesh = initialize_on_mesh p mesh := by
    unfold initialize_on_mesh
    by_cases hm : p._numMuscles = 0
    · simp [hm, meshTimes]
    · simp [hm, meshTimes]
  rw [h]
  exact ⟨rfl, rfl, rfl, rfl, rfl, rfl⟩

/-- C12, as amended: after `initialize_on_mesh(mesh)` the cached desired generalized forces are
the provider's interpolation at exactly the times derived from `mesh`, whatever the cache held
before; for every problem with at least one muscle the cached muscle-tendon lengths,
muscle-tendon velocities and moment arms are the provider's interpolation at those times
too. -/
theorem initialize_on_mesh_cache [CommRing α] (p : GSOProblemSeparate α) (mesh : List α) :
    meshTimes p mesh
      = mesh.map (fun m => p._initialTime + (p._finalTime - p._initialTime) * m) ∧
    (initialize_on_mesh p mesh).1._desiredMoments
      = p._motionData.interpolateNetGeneralizedForces (meshTimes p mesh) ∧
    (p._numMuscles ≠ 0 →
      (initialize_on_mesh p mesh).1._muscleTendonLengths
        = p._motionData.interpolateMuscleTendonLengths (meshTimes p mesh) ∧
      (initialize_on_mesh p mesh).1._muscleTendonVelocities
        = p._motionData.interpolateMuscleTendonVelocities (meshTimes p mesh) ∧
      (initialize_on_mesh p mesh).1._momentArms
        = p._motionData.interpolateMomentArms (meshTimes p mesh)) := by
  refine ⟨rfl, ?_, ?_⟩
  · unfold initialize_on_mesh
    split <;> rfl
  · intro hm
    unfold initialize_on_mesh
    rw [if_pos hm]
    exact ⟨rfl, rfl, rfl⟩

/-- Instance of the amended C12 on the example problem, which has a muscle: after
initialization on the mesh 0, 1/2, 1 the cached moment arms are those of the motion data at
the three mesh times. -/
theorem initialize_on_mesh_cache_witness :
    (initialize_on_mesh Example.problem [0, 1 / 2, 1]).1._momentArms
      = Example.problem._motionData.interpolateMomentArms
          (meshTimes Example.problem [0, 1 / 2, 1]) :=
  ((initialize_on_mesh_cache Example.problem [0, 1 / 2, 1]).2.2 (by decide)).2.2

/-- C12 fails as stated for a problem without muscles: the example problem without muscles is
constructed without an exception, and after `initialize_on_mesh` on the mesh 0, 1/2, 1 its
cached muscle-tendon lengths and velocities are still the empty matrices of the constructor and
its cached moment arms the empty list, while the provider's interpolations at the three mesh
times have three columns, or are three matrices. -/
theorem initialize_on_mesh_cache_counterexample :
    (construct Example.singleActuator Example.motionNoMuscles).2 = none ∧
    Example.problemNoMuscles._numMuscles = 0 ∧
    (initialize_on_mesh Example.problemNoMuscles [0, 1 / 2, 1]).1._muscleTendonLengths
      ≠ Example.problemNoMuscles._motionData.interpolateMuscleTendonLengths
          (meshTimes Example.problemNoMuscles [0, 1 / 2, 1]) ∧
    (initialize_on_mesh Example.problemNoMuscles [0, 1 / 2, 1]).1._muscleTendonVelocities
      ≠ Example.problemNoMuscles._motionData.interpolateMuscleTendonVelocities
          (meshTimes Example.problemNoMuscles [0, 1 / 2, 1]) ∧
    (initialize_on_mesh Example.problemNoMuscles [0, 1 / 2, 1]).1._momentArms
      ≠ Example.problemNoMuscles._motionData.interpolateMomentArms
          (meshTimes Example.problemNoMuscles [0, 1 / 2, 1]) :=
  ⟨by decide, by decide,
   fun h => absurd (congrArg MatrixX.cols h) (by decide),
   fun h => absurd (congrArg MatrixX.cols h) (by decide),
   fun h => absurd (congrArg List.length h) (by decide)⟩

end MeshClaims


section ReconstructionLemmas

variable {α : Type}

/-- The entry `r` of column `i`, read through the column-major storage. -/
theorem MatrixX.data?_col (M : MatrixX α) (i r : Nat) (hi : i < M.cols) (hr : r < M.rows) :
    M.data? (i * M.rows + r) = some (M.coeff r i) := by
  unfold MatrixX.data?
  have hlt : i * M.rows + r < M.rows * M.cols := by
    calc i * M.rows + r < i * M.rows + M.rows := by omega
      _ = (i + 1) * M.rows := by ring
      _ ≤ M.cols * M.rows := Nat.mul_le_mul_right M.rows hi
      _ = M.rows * M.cols := Nat.mul_comm _ _
  have hmod : (i * M.rows + r) % M.rows = r := by
    rw [Nat.mul_comm, Nat.mul_add_mod, Nat.mod_eq_of_lt hr]
  have hdiv : (i * M.rows + r) / M.rows = i := by
    rw [Nat.mul_comm, Nat.mul_add_div (by omega), Nat.div_eq_of_lt hr, Nat.add_zero]
  rw [if_pos hlt, hmod, hdiv]

/-- A view of `n` entries from row `o` of column `i` on, when the column has them. -/
theorem MatrixX.view?_col (M : MatrixX α) (i o n : Nat) (hi : i < M.cols)
    (hn : o + n ≤ M.rows) :
    M.view? n (i * M.rows + o) = some ((List.range n).map fun k => M.coeff (o + k) i) := by
  unfold MatrixX.view?
  apply mapM_eq_some_map
  intro k hk
  rw [List.mem_range] at hk
  rw [Nat.add_assoc]
  exact MatrixX.data?_col M i (o + k) hi (by omega)

/-- Lines 289-302 under the dimensions of the data model: what is reported for muscle `m`. -/
theorem muscleReport_eq (mf : MuscleFunctions α) (p : GSOProblemSeparate α) (i_time : Nat)
    (activationRow : List α) (a : α) (m : Nat)
    (hmus : m < p._muscles.length)
    (hl : m < p._muscleTendonLengths.rows ∧ i_time < p._muscleTendonLengths.cols)
    (hv : m < p._muscleTendonVelocities.rows ∧ i_time < p._muscleTendonVelocities.cols)
    (ha : activationRow[m]? = some a) (d : DeGroote2016Muscle α) :
    muscleReport mf p i_time activationRow m
      = some
        ((mf.calcRigidTendonFiberKinematics (p._muscles.getD m d)
            (p._muscleTendonLengths.coeff m i_time)
            (p._muscleTendonVelocities.coeff m i_time)).1,
          (mf.calcRigidTendonFiberKinematics (p._muscles.getD m d)
            (p._muscleTendonLengths.coeff m i_time)
            (p._muscleTendonVelocities.coeff m i_time)).2,
          mf.calcRigidTendonFiberForceAlongTendon (p._muscles.getD m d) a
            (p._muscleTendonLengths.coeff m i_time)
            (p._muscleTendonVelocities.coeff m i_time)) := by
  unfold muscleReport MatrixX.get?
  rw [if_pos hl, if_pos hv, getElem?_eq_some_getD p._muscles m d hmus, ha]
  rfl

/-- One pass of the loop of `deconstruct_iterate` on an iterate that fits the problem: a row
is appended to the table of the other controls when there are coordinate actuators, and to the
four muscle tables when there are muscles. -/
theorem deconstructTimeSample_eq [CommRing α] (mf : MuscleFunctions α)
    (p : GSOProblemSeparate α) (ocpVars : OptimalControlIterate α)
    (hw : IsIterateOf p ocpVars) (vars : Solution α) (i : Nat)
    (hi : i < ocpVars.time.length) :
    deconstructTimeSample mf p ocpVars vars i = some
      { activation :=
          if p._numMuscles ≠ 0 then
            vars.activation.appendRow (ocpVars.time.getD i 0)
              ((List.range p._numMuscles).map fun m =>
                ocpVars.controls.coeff (p._numCoordActuators + m) i)
          else vars.activation
        other_controls :=
          if p._numCoordActuators ≠ 0 then
            vars.other_controls.appendRow (ocpVars.time.getD i 0)
              ((List.range p._numCoordActuators).map fun k => ocpVars.controls.coeff k i)
          else vars.other_controls
        norm_fiber_length :=
          if p._numMuscles ≠ 0 then
            vars.norm_fiber_length.appendRow (ocpVars.time.getD i 0)
              ((List.range p._numMuscles).map fun m =>
                (mf.calcRigidTendonFiberKinematics
                  (p._muscles.getD m DeGroote2016Muscle.default)
                  (p._muscleTendonLengths.coeff m i)
                  (p._muscleTendonVelocities.coeff m i)).1)
          else vars.norm_fiber_length
        norm_fiber_velocity :=
          if p._numMuscles ≠ 0 then
            vars.norm_fiber_velocity.appendRow (ocpVars.time.getD i 0)
              ((List.range p._numMuscles).map fun m =>
                (mf.calcRigidTendonFiberKinematics
                  (p._muscles.getD m DeGroote2016Muscle.default)
                  (p._muscleTendonLengths.coeff m i)
                  (p._muscleTendonVelocities.coeff m i)).2)
          else vars.norm_fiber_velocity
        tendon_force :=
          if p._numMuscles ≠ 0 then
            vars.tendon_force.appendRow (ocpVars.time.getD i 0)
              ((List.range p._numMuscles).map fun m =>
                mf.calcRigidTendonFiberForceAlongTendon
                  (p._muscles.getD m DeGroote2016Muscle.default)
                  (ocpVars.controls.coeff (p._numCoordActuators + m) i)
                  (p._muscleTendonLengths.coeff m i)
                  (p._muscleTendonVelocities.coeff m i))
          else vars.tendon_force } := by
  obtain ⟨hrows, hcols, hmus⟩ := hw
  have hic : i < ocpVars.controls.cols := by omega
  unfold deconstructTimeSample MatrixX.colData?
  rw [getElem?_eq_some_getD ocpVars.time i 0 hi, if_pos hic]
  simp only [Option.bind_eq_bind, Option.some_bind]
  have h1 : appendOtherControls p ocpVars (ocpVars.time.getD i 0) (i * ocpVars.controls.rows)
      vars = some { vars with
        other_controls :=
          if p._numCoordActuators ≠ 0 then
            vars.other_controls.appendRow (ocpVars.time.getD i 0)
              ((List.range p._numCoordActuators).map fun k => ocpVars.controls.coeff k i)
          else vars.other_controls } := by
    unfold appendOtherControls
    by_cases hA : p._numCoordActuators = 0
    · simp [hA]
    · have hv := MatrixX.view?_col ocpVars.controls i 0 p._numCoordActuators hic (by omega)
      simp only [Nat.add_zero, Nat.zero_add] at hv
      simp [hA, hv]
  rw [h1]
  simp only [Option.some_bind]
  unfold appendMuscleRows
  by_cases hM : p._numMuscles = 0
  · simp [hM]
  · obtain ⟨hml, hall⟩ := hmus hM
    obtain ⟨hlr, hlc, hvr, hvc⟩ := hall i hi
    have hv := MatrixX.view?_col ocpVars.controls i p._numCoordActuators p._numMuscles hic
      (by omega)
    rw [if_neg hM, hv]
    simp only [Option.bind_eq_bind, Option.some_bind]
    rw [mapM_eq_some_map _ _ _ fun m hm =>
      muscleReport_eq mf p i _ (ocpVars.controls.coeff (p._numCoordActuators + m) i) m
        (by have := List.mem_range.1 hm; omega)
        ⟨by have := List.mem_range.1 hm; omega, by omega⟩
        ⟨by have := List.mem_range.1 hm; omega, by omega⟩
        (by
          have := List.mem_range.1 hm
          rw [List.getElem?_map, List.getElem?_range this]
          rfl)
        DeGroote2016Muscle.default]
    simp [hM, List.map_map, Function.comp_def]

/-- The loop of `deconstruct_iterate` over the first `n` time samples of an iterate that fits
the problem: the tables keep their labels and hold one row per time sample, in order. -/
theorem foldlM_deconstructTimeSample [CommRing α] (mf : MuscleFunctions α)
    (p : GSOProblemSeparate α) (ocpVars : OptimalControlIterate α)
    (hw : IsIterateOf p ocpVars) (n : Nat) (hn : n ≤ ocpVars.time.length) :
    (List.range n).foldlM (deconstructTimeSample mf p ocpVars) (labeledSolution p) = some
      { activation :=
          ⟨(labeledSolution p).activation.columnLabels,
            if p._numMuscles ≠ 0 then
              (List.range n).map fun i => (ocpVars.time.getD i 0,
                (List.range p._numMuscles).map fun m =>
                  ocpVars.controls.coeff (p._numCoordActuators + m) i)
            else []⟩
        other_controls :=
          ⟨(labeledSolution p).other_controls.columnLabels,
            if p._numCoordActuators ≠ 0 then
              (List.range n).map fun i => (ocpVars.time.getD i 0,
                (List.range p._numCoordActuators).map fun k => ocpVars.controls.coeff k i)
            else []⟩
        norm_fiber_length :=
          ⟨(labeledSolution p).norm_fiber_length.columnLabels,
            if p._numMuscles ≠ 0 then
              (List.range n).map fun i => (ocpVars.time.getD i 0,
                (List.range p._numMuscles).map fun m =>
                  (mf.calcRigidTendonFiberKinematics
                    (p._muscles.getD m DeGroote2016Muscle.default)
                    (p._muscleTendonLengths.coeff m i)
                    (p._muscleTendonVelocities.coeff m i)).1)
            else []⟩
        norm_fiber_velocity :=
          ⟨(labeledSolution p).norm_fiber_velocity.columnLabels,
            if p._numMuscles ≠ 0 then
              (List.range n).map fun i => (ocpVars.time.getD i 0,
                (List.range p._numMuscles).map fun m =>
                  (mf.calcRigidTendonFiberKinematics
                    (p._muscles.getD m DeGroote2016Muscle.default)
                    (p._muscleTendonLengths.coeff m i)
                    (p._muscleTendonVelocities.coeff m i)).2)
            else []⟩
        tendon_force :=
          ⟨(labeledSolution p).tendon_force.columnLabels,
            if p._numMuscles ≠ 0 then
              (List.range n).map fun i => (ocpVars.time.getD i 0,
                (List.range p._numMuscles).map fun m =>
                  mf.calcRigidTendonFiberForceAlongTendon
                    (p._muscles.getD m DeGroote2016Muscle.default)
                    (ocpVars.controls.coeff (p._numCoordActuators + m) i)
                    (p._muscleTendonLengths.coeff m i)
                    (p._muscleTendonVelocities.coeff m i))
            else []⟩ } := by
  induction n with
  | zero =>
    simp only [List.range_zero, List.foldlM_nil, List.map_nil, ite_self]
    unfold labeledSolution
    by_cases hA : p._numCoordActuators = 0 <;> by_cases hM : p._numMuscles = 0 <;>
      simp [hA, hM, TimeSeriesTable.empty, TimeSeriesTable.setColumnLabels]
  | succ n ih =>
    rw [List.range_succ, List.foldlM_append, ih (by omega)]
    simp only [Option.bind_eq_bind, Option.some_bind, List.foldlM_cons, List.foldlM_nil]
    rw [deconstructTimeSample_eq mf p ocpVars hw _ n (by omega)]
    by_cases hA : p._numCoordActuators = 0 <;> by_cases hM : p._numMuscles = 0 <;>
      simp [hA, hM, TimeSeriesTable.appendRow]

/-- The value of `deconstruct_iterate` on an iterate that fits the problem. -/
theorem deconstruct_iterate_closed_form [CommRing α] (mf : MuscleFunctions α)
    (p : GSOProblemSeparate α) (ocpVars : OptimalControlIterate α)
    (hw : IsIterateOf p ocpVars) :
    deconstruct_iterate mf p ocpVars = some
      { activation :=
          ⟨(labeledSolution p).activation.columnLabels,
            if p._numMuscles ≠ 0 then
              (List.range ocpVars.time.length).map fun i => (ocpVars.time.getD i 0,
                (List.range p._numMuscles).map fun m =>
                  ocpVars.controls.coeff (p._numCoordActuators + m) i)
            else []⟩
        other_controls :=
          ⟨(labeledSolution p).other_controls.columnLabels,
            if p._numCoordActuators ≠ 0 then
              (List.range ocpVars.time.length).map fun i => (ocpVars.time.getD i 0,
                (List.range p._numCoordActuators).map fun k => ocpVars.controls.coeff k i)
            else []⟩
        norm_fiber_length :=
          ⟨(labeledSolution p).norm_fiber_length.columnLabels,
            if p._numMuscles ≠ 0 then
              (List.range ocpVars.time.length).map fun i => (ocpVars.time.getD i 0,
                (List.range p._numMuscles).map fun m =>
                  (mf.calcRigidTendonFiberKinematics
                    (p._muscles.getD m DeGroote2016Muscle.default)
                    (p._muscleTendonLengths.coeff m i)
                    (p._muscleTendonVelocities.coeff m i)).1)
            else []⟩
        norm_fiber_velocity :=
          ⟨(labeledSolution p).norm_fiber_velocity.columnLabels,
            if p._numMuscles ≠ 0 then
              (List.range ocpVars.time.length).map fun i => (ocpVars.time.getD i 0,
                (List.range p._numMuscles).map fun m =>
                  (mf.calcRigidTendonFiberKinematics
                    (p._muscles.getD m DeGroote2016Muscle.default)
                    (p._muscleTendonLengths.coeff m i)
                    (p._muscleTendonVelocities.coeff m i)).2)
            else []⟩
        tendon_force :=
          ⟨(labeledSolution p).tendon_force.columnLabels,
            if p._numMuscles ≠ 0 then
              (List.range ocpVars.time.length).map fun i => (ocpVars.time.getD i 0,
                (List.range p._numMuscles).map fun m =>
                  mf.calcRigidTendonFiberForceAlongTendon
                    (p._muscles.getD m DeGroote2016Muscle.default)
                    (ocpVars.controls.coeff (p._numCoordActuators + m) i)
                    (p._muscleTendonLengths.coeff m i)
                    (p._muscleTendonVelocities.coeff m i))
            else []⟩ } :=
  foldlM_deconstructTimeSample mf p ocpVars hw _ (le_refl _)

/-- An iterate with a control row per control and a control column per time sample fits a
problem that was constructed and initialized on a mesh when, in case the problem has muscles,
every time index is a column of the cache. -/
theorem isIterateOf_of_cache [CommRing α] (model : Model α)
    (motionData : InverseMuscleSolverMotionData α) (mesh : List α)
    (p : GSOProblemSeparate α) (ocpVars : OptimalControlIterate α)
    (hok : (construct model motionData).2 = none)
    (hp : p = (initialize_on_mesh (construct model motionData).1 mesh).1)
    (hrows : ocpVars.controls.rows = p._numCoordActuators + p._numMuscles)
    (hcols : ocpVars.controls.cols = ocpVars.time.length)
    (hcache : p._numMuscles ≠ 0 → ∀ i, i < ocpVars.time.length → IsCacheColumn p i) :
    IsIterateOf p ocpVars := by
  have hact : ActuatorsIndexed p :=
    hp ▸ initialize_on_mesh_actuatorsIndexed _ mesh
      (construct_actuatorsIndexed model motionData hok)
  refine ⟨hrows, hcols, fun hM => ⟨hact.2.2.1, fun i hi => ?_⟩⟩
  have hc := (hcache hM i hi).2.2 hM
  exact ⟨hc.1, hc.2.1, hc.2.2.1, hc.2.2.2.1⟩

end ReconstructionLemmas

section ReconstructionClaims

variable {α : Type}

theorem col?_eq_append [CommRing α] (M : MatrixX α) (a b i : Nat) (hi : i < M.cols)
    (hrows : M.rows = a + b) :
    M.col? i = some (((List.range a).map fun k => M.coeff k i) ++
      ((List.range b).map fun m => M.coeff (a + m) i)) := by
  unfold MatrixX.col?
  rw [if_pos hi, hrows, List.range_add, List.map_append, List.map_map]
  rfl

/-- C13, as amended: for a problem that was constructed and initialized on a mesh and every
iterate whose control matrix has `_numCoordActuators + _numMuscles` rows and a column per time
sample, the time indices being columns of the cache when there are muscles (the iterate has no
more time samples than the mesh has points), `deconstruct_iterate` returns
a solution in which, when there are coordinate actuators, the rows of `other_controls` are, in
column order, the first `_numCoordActuators` entries of each column `i` stamped with
`time[i]`, and, when there are muscles, the rows of `activation` are the following
`_numMuscles` entries of each column `i` stamped with `time[i]`; the two rows of a time sample
together are column `i`, of `_numCoordActuators + _numMuscles` entries; and every table of the
solution that has a row has as many rows as the iterate has time samples. -/
theorem deconstruct_iterate_splits_controls [CommRing α] (mf : MuscleFunctions α)
    (model : Model α) (motionData : InverseMuscleSolverMotionData α) (mesh : List α)
    (p : GSOProblemSeparate α) (ocpVars : OptimalControlIterate α)
    (hok : (construct model motionData).2 = none)
    (hp : p = (initialize_on_mesh (construct model motionData).1 mesh).1)
    (hrows : ocpVars.controls.rows = p._numCoordActuators + p._numMuscles)
    (hcols : ocpVars.controls.cols = ocpVars.time.length)
    (hcache : p._numMuscles ≠ 0 → ∀ i, i < ocpVars.time.length → IsCacheColumn p i) :
    ∃ sol, deconstruct_iterate mf p ocpVars = some sol ∧
      (p._numCoordActuators ≠ 0 →
        sol.other_controls.rows = (List.range ocpVars.time.length).map fun i =>
          (ocpVars.time.getD i 0,
            (List.range p._numCoordActuators).map fun k => ocpVars.controls.coeff k i)) ∧
      (p._numMuscles ≠ 0 →
        sol.activation.rows = (List.range ocpVars.time.length).map fun i =>
          (ocpVars.time.getD i 0,
            (List.range p._numMuscles).map fun m =>
              ocpVars.controls.coeff (p._numCoordActuators + m) i)) ∧
      (∀ i, i < ocpVars.time.length →
        ocpVars.controls.col? i = some
          (((List.range p._numCoordActuators).map fun k => ocpVars.controls.coeff k i) ++
            ((List.range p._numMuscles).map fun m =>
              ocpVars.controls.coeff (p._numCoordActuators + m) i)) ∧
        (((List.range p._numCoordActuators).map fun k => ocpVars.controls.coeff k i) ++
            ((List.range p._numMuscles).map fun m =>
              ocpVars.controls.coeff (p._numCoordActuators + m) i)).length
          = p._numCoordActuators + p._numMuscles) ∧
      (sol.other_controls.getNumRows ≠ 0 →
        sol.other_controls.getNumRows = ocpVars.time.length) ∧
      (sol.activation.getNumRows ≠ 0 → sol.activation.getNumRows = ocpVars.time.length) ∧
      (sol.norm_fiber_length.getNumRows ≠ 0 →
        sol.norm_fiber_length.getNumRows = ocpVars.time.length) ∧
      (sol.norm_fiber_velocity.getNumRows ≠ 0 →
        sol.norm_fiber_velocity.getNumRows = ocpVars.time.length) ∧
      (sol.tendon_force.getNumRows ≠ 0 →
        sol.tendon_force.getNumRows = ocpVars.time.length) := by
  have hw := isIterateOf_of_cache model motionData mesh p ocpVars hok hp hrows hcols hcache
  refine ⟨_, deconstruct_iterate_closed_form mf p ocpVars hw, ?_, ?_, ?_, ?_, ?_, ?_, ?_, ?_⟩
  · intro hA
    simp only [if_pos hA]
  · intro hM
    simp only [if_pos hM]
  · intro i hi
    exact ⟨col?_eq_append _ _ _ i (by omega) hrows, by simp⟩
  · by_cases hA : p._numCoordActuators = 0 <;> simp [hA, TimeSeriesTable.getNumRows]
  · by_cases hM : p._numMuscles = 0 <;> simp [hM, TimeSeriesTable.getNumRows]
  · by_cases hM : p._numMuscles = 0 <;> simp [hM, TimeSeriesTable.getNumRows]
  · by_cases hM : p._numMuscles = 0 <;> simp [hM, TimeSeriesTable.getNumRows]
  · by_cases hM : p._numMuscles = 0 <;> simp [hM, TimeSeriesTable.getNumRows]

theorem Example.problemOnMesh_cache (i : Nat) (hi : i < Example.iterate.time.length) :
    IsCacheColumn Example.problemOnMesh i := by
  have h3 : i < 3 := hi
  interval_cases i <;> (unfold IsCacheColumn; decide)

/-- Instance of the amended C13 on the example problem and iterate: the reserve controls 4, 5, 6 and the
activations 1/10, 2/10, 3/10 come back, stamped with the times 1, 2, 3. -/
theorem deconstruct_iterate_splits_controls_witness :
    ∃ sol, deconstruct_iterate Example.linearMuscle Example.problemOnMesh Example.iterate
        = some sol ∧
      sol.other_controls.rows = [(1, [4]), (2, [5]), (3, [6])] ∧
      sol.activation.rows = [(1, [1 / 10]), (2, [2 / 10]), (3, [3 / 10])] := by
  obtain ⟨sol, hsol, hoc, hac, -⟩ := deconstruct_iterate_splits_controls Example.linearMuscle
    Example.leg Example.motion [0, 1 / 2, 1] Example.problemOnMesh Example.iterate
    (by decide) rfl (by decide) (by decide) (fun _ i hi => Example.problemOnMesh_cache i hi)
  exact ⟨sol, hsol, (hoc (by decide)).trans rfl, (hac (by decide)).trans rfl⟩

/-- The files `Solution::write` writes are those of the tables that have a row. -/
theorem Solution.write_eq_filter (sol : Solution α) (pfx : String) :
    sol.write pfx
      = ([(sol.activation, "activation"), (sol.other_controls, "other_controls"),
            (sol.norm_fiber_length, "norm_fiber_length"),
            (sol.norm_fiber_velocity, "norm_fiber_velocity"),
            (sol.tendon_force, "tendon_force")].filter
          fun ts => ts.1.getNumRows ≠ 0).map
        fun ts => (pfx ++ "_" ++ ts.2 ++ ".sto", ts.1) := by
  unfold Solution.write Solution.writeTable
  by_cases h1 : sol.activation.getNumRows = 0 <;>
  by_cases h2 : sol.other_controls.getNumRows = 0 <;>
  by_cases h3 : sol.norm_fiber_length.getNumRows = 0 <;>
  by_cases h4 : sol.norm_fiber_velocity.getNumRows = 0 <;>
  by_cases h5 : sol.tendon_force.getNumRows = 0 <;>
  simp [h1, h2, h3, h4, h5, List.filter_cons]

/-- C15: empty series are omitted and never an error.  For a problem that was constructed and
initialized on a mesh and an iterate that fits it, `deconstruct_iterate` returns a solution;
when the problem has no muscles its `activation`, `norm_fiber_length`, `norm_fiber_velocity`
and `tendon_force` tables have zero rows, and when it has no coordinate actuators its
`other_controls` table has zero rows.  `Solution::write`, for every solution, writes for each
of the five tables that has at least one row the file named by the argument, "_", the suffix
of the table and ".sto", in the order of the calls, and writes no file for a table without
rows. -/
theorem deconstruct_iterate_and_write_omit_empty_series [CommRing α]
    (mf : MuscleFunctions α) (model : Model α)
    (motionData : InverseMuscleSolverMotionData α) (mesh : List α)
    (p : GSOProblemSeparate α) (ocpVars : OptimalControlIterate α)
    (hok : (construct model motionData).2 = none)
    (hp : p = (initialize_on_mesh (construct model motionData).1 mesh).1)
    (hrows : ocpVars.controls.rows = p._numCoordActuators + p._numMuscles)
    (hcols : ocpVars.controls.cols = ocpVars.time.length)
    (hcache : p._numMuscles ≠ 0 → ∀ i, i < ocpVars.time.length → IsCacheColumn p i) :
    (∃ sol, deconstruct_iterate mf p ocpVars = some sol ∧
      (p._numMuscles = 0 →
        sol.activation.getNumRows = 0 ∧ sol.norm_fiber_length.getNumRows = 0 ∧
        sol.norm_fiber_velocity.getNumRows = 0 ∧ sol.tendon_force.getNumRows = 0) ∧
      (p._numCoordActuators = 0 → sol.other_controls.getNumRows = 0)) ∧
    ∀ (sol : Solution α) (pfx : String),
      sol.write pfx
        = ([(sol.activation, "activation"), (sol.other_controls, "other_controls"),
              (sol.norm_fiber_length, "norm_fiber_length"),
              (sol.norm_fiber_velocity, "norm_fiber_velocity"),
              (sol.tendon_force, "tendon_force")].filter
            fun ts => ts.1.getNumRows ≠ 0).map
          (fun ts => (pfx ++ "_" ++ ts.2 ++ ".sto", ts.1)) ∧
      ∀ file ∈ sol.write pfx, file.2.getNumRows ≠ 0 := by
  have hw := isIterateOf_of_cache model motionData mesh p ocpVars hok hp hrows hcols hcache
  refine ⟨⟨_, deconstruct_iterate_closed_form mf p ocpVars hw, ?_, ?_⟩, fun sol pfx => ?_⟩
  · intro hM
    simp [hM, TimeSeriesTable.getNumRows]
  · intro hA
    simp [hA, TimeSeriesTable.getNumRows]
  · refine ⟨Solution.write_eq_filter sol pfx, ?_⟩
    intro file hfile
    rw [Solution.write_eq_filter, List.mem_map] at hfile
    obtain ⟨ts, hts, rfl⟩ := hfile
    simpa using (List.mem_filter.1 hts).2

/-- Instance of C15 on the example problem without muscles: the four muscle tables of the
reconstructed solution have no row, and every file written holds a table with a row. -/
theorem deconstruct_iterate_and_write_omit_empty_series_witness :
    ∃ sol, deconstruct_iterate Example.linearMuscle
        (initialize_on_mesh Example.problemNoMuscles [0, 1 / 2, 1]).1
        Example.iterateNoMuscles = some sol ∧
      sol.activation.getNumRows = 0 ∧ sol.tendon_force.getNumRows = 0 ∧
      ∀ file ∈ sol.write "gso", file.2.getNumRows ≠ 0 := by
  have h := deconstruct_iterate_and_write_omit_empty_series Example.linearMuscle
    Example.singleActuator Example.motionNoMuscles [0, 1 / 2, 1] _ Example.iterateNoMuscles
    (by decide) rfl (by decide) (by decide) (fun hM => absurd rfl hM)
  obtain ⟨⟨sol, hsol, hmus, -⟩, hwrite⟩ := h
  exact ⟨sol, hsol, (hmus rfl).1, (hmus rfl).2.2.2, (hwrite sol "gso").2⟩

end ReconstructionClaims

section DriverLemmas

variable {α : Type}

theorem mem_setInsert (a x : String) (set : List String) :
    x ∈ setInsert a set ↔ x = a ∨ x ∈ set := by
  induction set with
  | nil => simp [setInsert]
  | cons b rest ih =>
    unfold setInsert
    split
    · simp
    · split
      · rename_i hab
        simp only [List.mem_cons, hab]
        tauto
      · simp only [List.mem_cons, ih]
        tauto

theorem mem_foldl_setInsert (l : List String) (init : List String) (x : String) :
    x ∈ l.foldl (fun set path => setInsert path set) init ↔ x ∈ l ∨ x ∈ init := by
  induction l generalizing init with
  | nil => simp
  | cons a rest ih =>
    simp only [List.foldl_cons, ih, mem_setInsert, List.mem_cons]
    tauto

theorem mem_includeSet (l : List String) (x : String) : x ∈ includeSet l ↔ x ∈ l := by
  simp [includeSet, mem_foldl_setInsert]

theorem mem_setErase (a x : String) (set : List String) :
    x ∈ setErase a set ↔ x ∈ set ∧ x ≠ a := by
  simp [setErase]

/-- The loop of lines 371-386 throws only for a constrained coordinate whose path is in the
set. -/
theorem includeCoordinates_error (l : List Coordinate) (set : List String)
    (acc : List Coordinate) (e : SolveError α)
    (h : includeCoordinates l set acc = .error e) :
    ∃ c ∈ l, c.relativePathName ∈ set ∧ c.isConstrained = true ∧
      e = SolveError.coordinateConstrained c.relativePathName := by
  induction l generalizing set acc with
  | nil => simp [includeCoordinates] at h
  | cons c rest ih =>
    unfold includeCoordinates at h
    simp only at h
    split at h
    · rename_i hmem
      split at h
      · rename_i hcon
        exact ⟨c, List.mem_cons_self _ _, hmem, hcon, (Except.error.inj h).symm⟩
      · obtain ⟨d, hd, hdm, hdc, he⟩ := ih _ _ h
        exact ⟨d, List.mem_cons_of_mem _ hd, ((mem_setErase _ _ _).1 hdm).1, hdc, he⟩
    · obtain ⟨d, hd, hdm, hdc, he⟩ := ih _ _ h
      exact ⟨d, List.mem_cons_of_mem _ hd, hdm, hdc, he⟩

/-- The loop of lines 371-386 throws nothing when no coordinate whose path is in the set is
constrained. -/
theorem includeCoordinates_ok_of_unconstrained (l : List Coordinate) (set : List String)
    (acc : List Coordinate)
    (h : ∀ c ∈ l, c.relativePathName ∈ set → c.isConstrained = false) :
    ∃ r, includeCoordinates (α := α) l set acc = .ok r := by
  induction l generalizing set acc with
  | nil => exact ⟨_, rfl⟩
  | cons c rest ih =>
    unfold includeCoordinates
    simp only
    split
    · rename_i hmem
      have hc := h c (List.mem_cons_self _ _) hmem
      simp only [hc, Bool.false_eq_true, if_false]
      exact ih _ _ fun d hd hdm =>
        h d (List.mem_cons_of_mem _ hd) ((mem_setErase _ _ _).1 hdm).1
    · exact ih _ _ fun d hd hdm => h d (List.mem_cons_of_mem _ hd) hdm

/-- Every coordinate the loop of lines 371-386 appends is an unconstrained coordinate of the
list it runs over. -/
theorem includeCoordinates_unconstrained (l : List Coordinate) (set : List String)
    (acc res : List Coordinate) (rem : List String)
    (h : includeCoordinates (α := α) l set acc = .ok (res, rem)) :
    ∀ c ∈ res, c ∈ acc ∨ (c ∈ l ∧ c.isConstrained = false) := by
  induction l generalizing set acc with
  | nil =>
    simp only [includeCoordinates, Except.ok.injEq, Prod.mk.injEq] at h
    intro c hc
    exact Or.inl (h.1 ▸ hc)
  | cons c rest ih =>
    unfold includeCoordinates at h
    simp only at h
    split at h
    · split at h
      · cases h
      · rename_i hcon
        intro d hd
        rcases ih _ _ h d hd with hacc | hun
        · rcases List.mem_append.1 hacc with h1 | h1
          · exact Or.inl h1
          · rw [List.mem_singleton] at h1
            right
            rw [h1]
            exact ⟨List.mem_cons_self _ _, by simpa using hcon⟩
        · exact Or.inr ⟨List.mem_cons_of_mem _ hun.1, hun.2⟩
    · intro d hd
      rcases ih _ _ h d hd with hacc | hun
      · exact Or.inl hacc
      · exact Or.inr ⟨List.mem_cons_of_mem _ hun.1, hun.2⟩

/-- When paths name one coordinate each and the loop of lines 371-386 throws nothing, it has
appended the coordinates whose path is in the set, in order, and has left in the set the paths
of no coordinate. -/
theorem includeCoordinates_ok (l : List Coordinate) (set : List String)
    (acc res : List Coordinate) (rem : List String)
    (hnd : (l.map Coordinate.relativePathName).Nodup)
    (h : includeCoordinates (α := α) l set acc = .ok (res, rem)) :
    res = acc ++ l.filter (fun c => c.relativePathName ∈ set) ∧
    (∀ x, x ∈ rem ↔ x ∈ set ∧ x ∉ l.map Coordinate.relativePathName) ∧
    ∀ c ∈ l, c.relativePathName ∈ set → c.isConstrained = false := by
  induction l generalizing set acc with
  | nil =>
    simp only [includeCoordinates, Except.ok.injEq, Prod.mk.injEq] at h
    simp [h.1, h.2]
  | cons c rest ih =>
    rw [List.map_cons, List.nodup_cons] at hnd
    unfold includeCoordinates at h
    simp only at h
    split at h
    · rename_i hmem
      split at h
      · cases h
      · rename_i hcon
        obtain ⟨hres, hrem, hun⟩ := ih _ _ hnd.2 h
        have hfilter : rest.filter (fun d => d.relativePathName ∈ setErase c.relativePathName set)
            = rest.filter (fun d => d.relativePathName ∈ set) := by
          apply List.filter_congr
          intro d hd
          have hne : d.relativePathName ≠ c.relativePathName := fun e =>
            hnd.1 (e ▸ List.mem_map_of_mem _ hd)
          simp [mem_setErase, hne]
        refine ⟨?_, ?_, ?_⟩
        · rw [hres, hfilter, List.filter_cons]
          simp [hmem]
        · intro x
          rw [hrem, mem_setErase]
          simp only [List.map_cons, List.mem_cons, not_or]
          tauto
        · intro d hd hdm
          rcases List.mem_cons.1 hd with rfl | hd
          · simpa using hcon
          · have hne : d.relativePathName ≠ c.relativePathName := fun e =>
              hnd.1 (e ▸ List.mem_map_of_mem _ hd)
            exact hun d hd ((mem_setErase _ _ _).2 ⟨hdm, hne⟩)
    · rename_i hmem
      obtain ⟨hres, hrem, hun⟩ := ih _ _ hnd.2 h
      refine ⟨?_, ?_, ?_⟩
      · rw [hres, List.filter_cons]
        simp [hmem]
      · intro x
        rw [hrem]
        simp only [List.map_cons, List.mem_cons, not_or]
        constructor
        · rintro ⟨hx, hnx⟩
          exact ⟨hx, fun e => hmem (e ▸ hx), hnx⟩
        · rintro ⟨hx, -, hnx⟩
          exact ⟨hx, hnx⟩
      · intro d hd hdm
        rcases List.mem_cons.1 hd with rfl | hd
        · exact absurd hdm hmem
        · exact hun d hd hdm

end DriverLemmas

section DriverClaims

variable {α : Type}

/-- With a non-empty `coordinates_to_include`, the selection is the loop of lines 371-386
followed by the test of lines 388-396. -/
theorem selectCoordinatesToActuate_eq (model : Model α) (coordinates_to_include : List String)
    (hne : coordinates_to_include ≠ []) :
    selectCoordinatesToActuate model coordinates_to_include
      = match includeCoordinates (α := α) model.coordinatesInMultibodyTreeOrder
          (includeSet coordinates_to_include) [] with
        | .error e => .error e
        | .ok (coordsToActuate, coordsToInclude) =>
            if ¬ coordsToInclude.isEmpty then .error (.coordinatesNotFound coordsToInclude)
            else .ok coordsToActuate := by
  unfold selectCoordinatesToActuate
  simp [hne]

/-- With an empty `coordinates_to_include`, the selection is the loop of lines 399-403. -/
theorem selectCoordinatesToActuate_nil (model : Model α) :
    selectCoordinatesToActuate (α := α) model []
      = .ok (model.coordinatesInMultibodyTreeOrder.filter
          fun coord => coord.isConstrained = false) := by
  unfold selectCoordinatesToActuate
  simp

/-- C16: when `coordinates_to_include` is non-empty, paths name one coordinate each and the
selection does not throw, the coordinates to actuate are exactly the model coordinates whose
model-relative path is listed, each once and in multibody-tree order; any list with the same
entries, in whatever order and however often repeated, selects the same coordinates. -/
theorem selectCoordinatesToActuate_included (model : Model α)
    (coordinates_to_include : List String) (coordsToActuate : List Coordinate)
    (hne : coordinates_to_include ≠ [])
    (hpaths : (model.coordinatesInMultibodyTreeOrder.map Coordinate.relativePathName).Nodup)
    (hok : selectCoordinatesToActuate (α := α) model coordinates_to_include
      = .ok coordsToActuate) :
    coordsToActuate = model.coordinatesInMultibodyTreeOrder.filter
      (fun c => c.relativePathName ∈ coordinates_to_include) ∧
    (∀ c, c ∈ coordsToActuate ↔
      c ∈ model.coordinatesInMultibodyTreeOrder ∧
        c.relativePathName ∈ coordinates_to_include) ∧
    coordsToActuate.Nodup ∧
    List.Sublist coordsToActuate model.coordinatesInMultibodyTreeOrder ∧
    ∀ listed : List String, (∀ x, x ∈ listed ↔ x ∈ coordinates_to_include) →
      selectCoordinatesToActuate (α := α) model listed = .ok coordsToActuate := by
  rw [selectCoordinatesToActuate_eq model _ hne] at hok
  rcases hrun : includeCoordinates (α := α) model.coordinatesInMultibodyTreeOrder
    (includeSet coordinates_to_include) [] with e | ⟨res, rem⟩
  · rw [hrun] at hok
    cases hok
  · rw [hrun] at hok
    simp only at hok
    split at hok
    · cases hok
    · rename_i hrem
      cases hok
      obtain ⟨hres, hmemrem, hun⟩ := includeCoordinates_ok _ _ _ _ _ hpaths hrun
      have hremnil : rem = [] := by simpa using hrem
      have hfilter : coordsToActuate = model.coordinatesInMultibodyTreeOrder.filter
          (fun c => c.relativePathName ∈ coordinates_to_include) := by
        rw [List.nil_append] at hres
        rw [hres]
        exact List.filter_congr fun c _ => by simp [mem_includeSet]
      refine ⟨hfilter, ?_, ?_, ?_, ?_⟩
      · intro c
        rw [hfilter, List.mem_filter]
        simp
      · rw [hfilter]
        exact (List.Nodup.of_map _ hpaths).filter _
      · rw [hfilter]
        exact List.filter_sublist _
      · intro listed hsame
        have hne2 : listed ≠ [] := by
          obtain ⟨x, hx⟩ := List.exists_mem_of_ne_nil _ hne
          exact List.ne_nil_of_mem ((hsame x).2 hx)
        rw [selectCoordinatesToActuate_eq model _ hne2]
        obtain ⟨⟨res2, rem2⟩, hrun2⟩ := includeCoordinates_ok_of_unconstrained (α := α)
          model.coordinatesInMultibodyTreeOrder (includeSet listed) []
          fun c hc hcm => hun c hc (by
            rw [mem_includeSet] at hcm ⊢
            exact (hsame _).1 hcm)
        obtain ⟨hres2, hmemrem2, -⟩ := includeCoordinates_ok _ _ _ _ _ hpaths hrun2
        have hrem2 : rem2 = [] := by
          apply List.eq_nil_iff_forall_not_mem.2
          intro x hx
          have h2 := (hmemrem2 x).1 hx
          have h1 : x ∈ rem := (hmemrem x).2 ⟨by
            rw [mem_includeSet] at h2 ⊢
            exact (hsame _).1 h2.1, h2.2⟩
          rw [hremnil] at h1
          exact absurd h1 (List.not_mem_nil _)
        rw [hrun2]
        simp only [hrem2, List.isEmpty_nil, not_true_eq_false, if_false]
        rw [hres2, hfilter, List.nil_append]
        congr 1
        exact List.filter_congr fun c _ => by simp [mem_includeSet, hsame]

/-- Instance of C16: the knee listed twice and before the hip selects the hip and the knee,
each once, in multibody-tree order. -/
theorem selectCoordinatesToActuate_included_witness :
    selectCoordinatesToActuate (α := ℚ) Example.legWithHip
        ["jointset/knee/flexion", "jointset/hip/flexion", "jointset/knee/flexion"]
      = .ok [Example.hipFlexion, Example.kneeFlexion] ∧
    [Example.hipFlexion, Example.kneeFlexion]
      = Example.legWithHip.coordinatesInMultibodyTreeOrder.filter
        (fun c => c.relativePathName ∈
          ["jointset/knee/flexion", "jointset/hip/flexion", "jointset/knee/flexion"]) :=
  ⟨rfl, (selectCoordinatesToActuate_included (α := ℚ) Example.legWithHip
    ["jointset/knee/flexion", "jointset/hip/flexion", "jointset/knee/flexion"]
    [Example.hipFlexion, Example.kneeFlexion] (by decide) (by decide) rfl).1⟩

/-- C17: with a non-empty `coordinates_to_include` (paths naming one coordinate each), the
selection throws if some listed path is the path of no coordinate of the model, and throws if
some listed path is the path of a coordinate that is constrained in the initial state; what is
thrown is the exception of line 378 for a constrained listed coordinate or the exception of
line 395 with listed paths that are in no coordinate; and if every listed path is the path of
an unconstrained coordinate, the selection does not throw. -/
theorem selectCoordinatesToActuate_throws_iff (model : Model α)
    (coordinates_to_include : List String)
    (hne : coordinates_to_include ≠ [])
    (hpaths : (model.coordinatesInMultibodyTreeOrder.map Coordinate.relativePathName).Nodup) :
    ((∃ x ∈ coordinates_to_include,
        x ∉ model.coordinatesInMultibodyTreeOrder.map Coordinate.relativePathName) →
      ∃ e, selectCoordinatesToActuate (α := α) model coordinates_to_include = .error e) ∧
    ((∃ c ∈ model.coordinatesInMultibodyTreeOrder,
        c.relativePathName ∈ coordinates_to_include ∧ c.isConstrained = true) →
      ∃ e, selectCoordinatesToActuate (α := α) model coordinates_to_include = .error e) ∧
    (∀ e, selectCoordinatesToActuate (α := α) model coordinates_to_include = .error e →
      (∃ c ∈ model.coordinatesInMultibodyTreeOrder,
        c.relativePathName ∈ coordinates_to_include ∧ c.isConstrained = true ∧
        e = SolveError.coordinateConstrained c.relativePathName) ∨
      (∃ coordPaths, e = SolveError.coordinatesNotFound coordPaths ∧ coordPaths ≠ [] ∧
        ∀ x ∈ coordPaths, x ∈ coordinates_to_include ∧
          x ∉ model.coordinatesInMultibodyTreeOrder.map Coordinate.relativePathName)) ∧
    ((∀ x ∈ coordinates_to_include, ∃ c ∈ model.coordinatesInMultibodyTreeOrder,
        c.relativePathName = x ∧ c.isConstrained = false) →
      ∃ coordsToActuate,
        selectCoordinatesToActuate (α := α) model coordinates_to_include
          = .ok coordsToActuate) := by
  rw [selectCoordinatesToActuate_eq model _ hne]
  rcases hrun : includeCoordinates (α := α) model.coordinatesInMultibodyTreeOrder
    (includeSet coordinates_to_include) [] with e | ⟨res, rem⟩
  · obtain ⟨c, hc, hcm, hcc, he⟩ := includeCoordinates_error _ _ _ _ hrun
    rw [mem_includeSet] at hcm
    refine ⟨fun _ => ⟨e, rfl⟩, fun _ => ⟨e, rfl⟩, ?_, ?_⟩
    · intro e2 he2
      cases he2
      exact Or.inl ⟨c, hc, hcm, hcc, he⟩
    · intro hall
      obtain ⟨d, hd, hdx, hdc⟩ := hall _ hcm
      have hcd : d = c := by
        by_contra hne2
        have hinj := List.inj_on_of_nodup_map hpaths hd hc hdx
        exact hne2 hinj
      rw [hcd, hcc] at hdc
      cases hdc
  · obtain ⟨hres, hmemrem, hun⟩ := includeCoordinates_ok _ _ _ _ _ hpaths hrun
    simp only
    refine ⟨?_, ?_, ?_, ?_⟩
    · rintro ⟨x, hx, hnx⟩
      have hxr : x ∈ rem := (hmemrem x).2 ⟨(mem_includeSet _ _).2 hx, hnx⟩
      have hrem : ¬ rem.isEmpty = true := by
        rw [List.isEmpty_iff]
        exact List.ne_nil_of_mem hxr
      exact ⟨_, if_pos hrem⟩
    · rintro ⟨c, hc, hcm, hcc⟩
      have := hun c hc ((mem_includeSet _ _).2 hcm)
      rw [hcc] at this
      cases this
    · intro e he
      split at he
      · rename_i hrem
        cases he
        refine Or.inr ⟨rem, rfl, by simpa using hrem, fun x hx => ?_⟩
        have := (hmemrem x).1 hx
        exact ⟨(mem_includeSet _ _).1 this.1, this.2⟩
      · cases he
    · intro hall
      have hrem : rem = [] := by
        apply List.eq_nil_iff_forall_not_mem.2
        intro x hx
        have h1 := (hmemrem x).1 hx
        obtain ⟨c, hc, hcx, -⟩ := hall x ((mem_includeSet _ _).1 h1.1)
        exact h1.2 (hcx ▸ List.mem_map_of_mem _ hc)
      exact ⟨res, by simp [hrem]⟩

/-- Instance of C17 on the model with hip, knee and locked ankle: an unknown path throws, the
path of the locked ankle throws, and the paths of hip and knee do not. -/
theorem selectCoordinatesToActuate_throws_iff_witness :
    (∃ e, selectCoordinatesToActuate (α := ℚ) Example.legWithHip
      ["jointset/knee/flexion", "jointset/toe/angle"] = .error e) ∧
    (∃ e, selectCoordinatesToActuate (α := ℚ) Example.legWithHip
      ["jointset/ankle/angle", "jointset/knee/flexion"] = .error e) ∧
    (∃ coordsToActuate, selectCoordinatesToActuate (α := ℚ) Example.legWithHip
      ["jointset/knee/flexion", "jointset/hip/flexion"] = .ok coordsToActuate) :=
  ⟨(selectCoordinatesToActuate_throws_iff (α := ℚ) Example.legWithHip
      ["jointset/knee/flexion", "jointset/toe/angle"] (by decide) (by decide)).1
      ⟨"jointset/toe/angle", by decide, by decide⟩,
   (selectCoordinatesToActuate_throws_iff (α := ℚ) Example.legWithHip
      ["jointset/ankle/angle", "jointset/knee/flexion"] (by decide) (by decide)).2.1
      ⟨Example.ankleAngle, by decide, by decide, rfl⟩,
   (selectCoordinatesToActuate_throws_iff (α := ℚ) Example.legWithHip
      ["jointset/knee/flexion", "jointset/hip/flexion"] (by decide) (by decide)).2.2.2
      (by decide)⟩

/-- C18: when `coordinates_to_include` is empty, the selection does not throw and the
coordinates to actuate are exactly the model coordinates that are not constrained in the
initial state, in multibody-tree order. -/
theorem selectCoordinatesToActuate_default (model : Model α) :
    selectCoordinatesToActuate (α := α) model []
      = .ok (model.coordinatesInMultibodyTreeOrder.filter
          fun coord => coord.isConstrained = false) ∧
    (∀ c, c ∈ model.coordinatesInMultibodyTreeOrder.filter
        (fun coord => coord.isConstrained = false) ↔
      c ∈ model.coordinatesInMultibodyTreeOrder ∧ c.isConstrained = false) ∧
    List.Sublist
      (model.coordinatesInMultibodyTreeOrder.filter fun coord => coord.isConstrained = false)
      model.coordinatesInMultibodyTreeOrder := by
  exact ⟨selectCoordinatesToActuate_nil model, fun c => by simp, List.filter_sublist _⟩

/-- C19: whichever branch of the selection is taken, when it does not throw every coordinate
in the set of coordinates to actuate is unconstrained in the initial state. -/
theorem selectCoordinatesToActuate_unconstrained (model : Model α)
    (coordinates_to_include : List String) (coordsToActuate : List Coordinate)
    (hok : selectCoordinatesToActuate (α := α) model coordinates_to_include
      = .ok coordsToActuate) :
    ∀ c ∈ coordsToActuate,
      c ∈ model.coordinatesInMultibodyTreeOrder ∧ c.isConstrained = false := by
  by_cases hne : coordinates_to_include = []
  · rw [hne, selectCoordinatesToActuate_nil model] at hok
    cases hok
    intro c hc
    simpa using hc
  · rw [selectCoordinatesToActuate_eq model _ hne] at hok
    rcases hrun : includeCoordinates (α := α) model.coordinatesInMultibodyTreeOrder
      (includeSet coordinates_to_include) [] with e | ⟨res, rem⟩
    · rw [hrun] at hok
      cases hok
    · rw [hrun] at hok
      simp only at hok
      split at hok
      · cases hok
      · cases hok
        intro c hc
        rcases includeCoordinates_unconstrained _ _ _ _ _ hrun c hc with h0 | h1
        · exact absurd h0 (List.not_mem_nil _)
        · exact h1

/-- Instance of C19: with an explicit list and with the empty list, the coordinates selected
in the model with hip, knee and locked ankle are unconstrained. -/
theorem selectCoordinatesToActuate_unconstrained_witness :
    (∀ c ∈ [Example.kneeFlexion], c ∈ Example.legWithHip.coordinatesInMultibodyTreeOrder ∧
      c.isConstrained = false) ∧
    (∀ c ∈ [Example.hipFlexion, Example.kneeFlexion],
      c ∈ Example.legWithHip.coordinatesInMultibodyTreeOrder ∧ c.isConstrained = false) :=
  ⟨selectCoordinatesToActuate_unconstrained (α := ℚ) Example.legWithHip
      ["jointset/knee/flexion"] [Example.kneeFlexion] rfl,
   selectCoordinatesToActuate_unconstrained (α := ℚ) Example.legWithHip [] _ rfl⟩

theorem addReserveActuators_eq (newCoordinateActuator : ScalarActuator α) (optimalForce : α)
    (coords : List Coordinate) (model : Model α) :
    addReserveActuators newCoordinateActuator optimalForce coords model
      = { model with
          scalarActuators := model.scalarActuators ++ coords.map fun coord =>
            reserveActuator newCoordinateActuator model coord optimalForce } := by
  induction coords generalizing model with
  | nil => simp [addReserveActuators]
  | cons c rest ih =>
    unfold addReserveActuators
    rw [ih]
    simp [reserveActuator]

theorem replaceSlashes_no_slash (path : String) : '/' ∉ (replaceSlashes path).data := by
  unfold replaceSlashes
  simp only [List.mem_map, not_exists, not_and]
  intro c _
  split
  · decide
  · rename_i hc
    exact hc

/-- C20: if `create_reserve_actuators` is -1, no actuator is added to the model; if it is any
other value that is not positive, `solve` throws; if it is positive, exactly one
CoordinateActuator per coordinate to actuate is added after the actuators of the model, in the
order of the coordinates, acting on that coordinate, with the given value as optimal force and
named "reserve_" followed by the model-relative path of the coordinate with every '/'
replaced by '_', so that what follows "reserve_" contains no slash. -/
theorem createReserveActuators_cases [LinearOrderedRing α]
    (newCoordinateActuator : ScalarActuator α) (model : Model α)
    (coordsToActuate : List Coordinate) (create_reserve_actuators : α) :
    (create_reserve_actuators = -1 →
      createReserveActuators newCoordinateActuator model coordsToActuate
        create_reserve_actuators = .ok model) ∧
    (create_reserve_actuators ≠ -1 → create_reserve_actuators ≤ 0 →
      createReserveActuators newCoordinateActuator model coordsToActuate
        create_reserve_actuators
          = .error (SolveError.invalidReserveActuators create_reserve_actuators)) ∧
    (0 < create_reserve_actuators →
      ∃ added : List (ScalarActuator α),
        createReserveActuators newCoordinateActuator model coordsToActuate
          create_reserve_actuators
            = .ok { model with scalarActuators := model.scalarActuators ++ added } ∧
        added.length = coordsToActuate.length ∧
        added.map (fun a => a.coordinate) = coordsToActuate ∧
        ∀ a ∈ added, a.kind = ActuatorKind.coordinateActuator ∧
          a.optimalForce = create_reserve_actuators ∧
          ∃ path : String, a.name = "reserve_" ++ path ∧
            path.data = a.coordinate.relativePathName.data.map
              (fun c => if c = '/' then '_' else c) ∧
            '/' ∉ path.data) := by
  refine ⟨?_, ?_, ?_⟩
  · intro h
    simp [createReserveActuators, h]
  · intro hne hle
    simp [createReserveActuators, hne, hle]
  · intro hpos
    have hne : create_reserve_actuators ≠ -1 := by
      intro h
      rw [h] at hpos
      exact absurd hpos (by simp)
    refine ⟨coordsToActuate.map fun coord =>
      reserveActuator newCoordinateActuator model coord create_reserve_actuators, ?_, ?_, ?_,
      ?_⟩
    · simp [createReserveActuators, hne, not_le.2 hpos, addReserveActuators_eq]
    · simp
    · simp [reserveActuator, List.map_map, Function.comp_def]
    · intro a ha
      rw [List.mem_map] at ha
      obtain ⟨coord, -, rfl⟩ := ha
      exact ⟨rfl, rfl, replaceSlashes coord.relativePathName, rfl, rfl,
        replaceSlashes_no_slash _⟩

/-- Instance of C20 on the model with hip, knee and locked ankle and the coordinates hip and
knee: with the value -1 the model is unchanged, with the value 0 `solve` throws, and with the
value 50 the actuators "reserve_jointset_hip_flexion" and "reserve_jointset_knee_flexion" with
optimal force 50 are added. -/
theorem createReserveActuators_cases_witness :
    createReserveActuators Example.reserveKnee Example.legWithHip
        [Example.hipFlexion, Example.kneeFlexion] (-1) = .ok Example.legWithHip ∧
    createReserveActuators Example.reserveKnee Example.legWithHip
        [Example.hipFlexion, Example.kneeFlexion] 0
      = .error (SolveError.invalidReserveActuators 0) ∧
    ∃ added : List (ScalarActuator ℚ),
      createReserveActuators Example.reserveKnee Example.legWithHip
          [Example.hipFlexion, Example.kneeFlexion] 50
        = .ok { Example.legWithHip with
            scalarActuators := Example.legWithHip.scalarActuators ++ added } ∧
      added.map (fun a => a.name)
        = ["reserve_jointset_hip_flexion", "reserve_jointset_knee_flexion"] ∧
      added.map (fun a => a.optimalForce) = [50, 50] := by
  have h1 := (createReserveActuators_cases Example.reserveKnee Example.legWithHip
    [Example.hipFlexion, Example.kneeFlexion] (-1)).1 rfl
  have h2 := (createReserveActuators_cases Example.reserveKnee Example.legWithHip
    [Example.hipFlexion, Example.kneeFlexion] 0).2.1 (by norm_num) (le_refl _)
  obtain ⟨added, hadd, hlen, hcoord, hall⟩ :=
    (createReserveActuators_cases Example.reserveKnee Example.legWithHip
      [Example.hipFlexion, Example.kneeFlexion] 50).2.2 (by norm_num)
  have hlen2 : added.length = 2 := hlen
  obtain ⟨a1, a2, rfl⟩ := List.length_eq_two.1 hlen2
  simp only [List.map_cons, List.map_nil, List.cons.injEq, and_true] at hcoord
  obtain ⟨-, hf1, path1, hn1, hp1, -⟩ := hall a1 (by simp)
  obtain ⟨-, hf2, path2, hn2, hp2, -⟩ := hall a2 (by simp)
  rw [hcoord.1] at hp1
  rw [hcoord.2] at hp2
  have hpath1 : path1 = "jointset_hip_flexion" := String.ext (hp1.trans (by decide))
  have hpath2 : path2 = "jointset_knee_flexion" := String.ext (hp2.trans (by decide))
  refine ⟨h1, h2, [a1, a2], hadd, ?_, ?_⟩
  · simp only [List.map_cons, List.map_nil, hn1, hn2, hpath1, hpath2]
    decide
  · simp only [List.map_cons, List.map_nil, hf1, hf2]

end DriverClaims

section LateDriverClaims

variable {α : Type}

/-- C21: the cutoff frequency for the kinematics is rejected exactly when it is at most 0 and
not -1, whatever the other arguments are; the cutoff frequency for the joint moments is rejected
exactly when the one for the kinematics was accepted, the table of net generalized forces has no
row and the frequency is at most 0 and not -1; with net generalized forces supplied the result
does not depend on the cutoff frequency for the joint moments; positive frequencies and the
frequency -1 are accepted; no other error is raised. -/
theorem processExperimentalData_cutoff_validation [LinearOrderedRing α]
    (kinematics jointMoments : α) (numRows : Nat) :
    (processExperimentalData kinematics jointMoments numRows
        = .error .invalidCutoffFrequencyForKinematics ↔
      kinematics ≤ 0 ∧ kinematics ≠ -1) ∧
    (processExperimentalData kinematics jointMoments numRows
        = .error .invalidCutoffFrequencyForJointMoments ↔
      ¬ (kinematics ≤ 0 ∧ kinematics ≠ -1) ∧ numRows = 0 ∧
        jointMoments ≤ 0 ∧ jointMoments ≠ -1) ∧
    (numRows ≠ 0 → ∀ other : α,
      processExperimentalData kinematics other numRows
        = processExperimentalData kinematics jointMoments numRows) ∧
    (numRows ≠ 0 → (0 < kinematics ∨ kinematics = -1) →
      processExperimentalData kinematics jointMoments numRows
        = .ok (.netGeneralizedForces kinematics)) ∧
    (numRows = 0 → (0 < kinematics ∨ kinematics = -1) →
      (0 < jointMoments ∨ jointMoments = -1) →
      processExperimentalData kinematics jointMoments numRows
        = .ok (.inverseDynamics kinematics jointMoments)) ∧
    (∀ e, processExperimentalData kinematics jointMoments numRows = .error e →
      e = .invalidCutoffFrequencyForKinematics ∨
      e = .invalidCutoffFrequencyForJointMoments) := by
  have hacc : ∀ x : α, (0 < x ∨ x = -1) → ¬ (x ≤ 0 ∧ x ≠ -1) := by
    rintro x (h | h) ⟨h1, h2⟩
    · exact absurd h (not_lt.2 h1)
    · exact h2 h
  have hindep : numRows ≠ 0 → ∀ a b : α,
      processExperimentalData kinematics a numRows
        = processExperimentalData kinematics b numRows := by
    intro hn a b
    unfold processExperimentalData
    rw [if_pos hn, if_pos hn]
  refine ⟨?_, ?_, fun hn other => hindep hn other jointMoments, ?_, ?_, ?_⟩
  · unfold processExperimentalData
    by_cases hk : kinematics ≤ 0 ∧ kinematics ≠ -1
    · rw [if_pos hk]
      exact ⟨fun _ => hk, fun _ => rfl⟩
    · rw [if_neg hk]
      refine ⟨fun h => ?_, fun h => absurd h hk⟩
      split at h
      · cases h
      · split at h <;> cases h
  · unfold processExperimentalData
    by_cases hk : kinematics ≤ 0 ∧ kinematics ≠ -1
    · rw [if_pos hk]
      exact ⟨fun h => (by cases h), fun h => absurd hk h.1⟩
    · rw [if_neg hk]
      by_cases hn : numRows ≠ 0
      · rw [if_pos hn]
        exact ⟨fun h => (by cases h), fun h => absurd h.2.1 hn⟩
      · rw [if_neg hn]
        by_cases hj : jointMoments ≤ 0 ∧ jointMoments ≠ -1
        · rw [if_pos hj]
          exact ⟨fun _ => ⟨hk, not_not.1 hn, hj⟩, fun _ => rfl⟩
        · rw [if_neg hj]
          exact ⟨fun h => (by cases h), fun h => absurd h.2.2 hj⟩
  · intro hn hk
    unfold processExperimentalData
    rw [if_neg (hacc _ hk), if_pos hn]
  · intro hn hk hj
    unfold processExperimentalData
    rw [if_neg (hacc _ hk), if_neg (not_not.2 hn), if_neg (hacc _ hj)]
  · intro e he
    unfold processExperimentalData at he
    split at he
    · cases he
      exact Or.inl rfl
    · split at he
      · cases he
      · split at he
        · cases he
          exact Or.inr rfl
        · cases he

end LateDriverClaims

section CallClaims

variable {α : Type}

theorem addCoordActuatorForce_congr [Zero α] [One α] [Add α] [Sub α] [Mul α] (p q : GSOProblemSeparate α)
    (hd : q._coordActuatorDOFs = p._coordActuatorDOFs)
    (ho : q._optimalForce = p._optimalForce) (controls : List α) :
    addCoordActuatorForce q controls = addCoordActuatorForce p controls := by
  funext genForce i_act
  simp only [addCoordActuatorForce, hd, ho]

theorem muscleForce_congr [Zero α] [One α] [Add α] [Sub α] [Mul α] (mf : MuscleFunctions α) (p q : GSOProblemSeparate α)
    (hn : q._numCoordActuators = p._numCoordActuators)
    (hl : q._muscleTendonLengths = p._muscleTendonLengths)
    (hv : q._muscleTendonVelocities = p._muscleTendonVelocities)
    (hm : q._muscles = p._muscles) (i_mesh : Nat) (controls : List α) :
    muscleForce mf q i_mesh controls = muscleForce mf p i_mesh controls := by
  funext i_act
  simp only [muscleForce, hn, hl, hv, hm]

/-- A loop whose passes return with the state they started on returns with the state it
started on, and computes what the passes compute on that state. -/
theorem run_foldlM {β γ : Type} (f : γ → β → Member α γ)
    (g : GSOProblemSeparate α → γ → β → Option γ)
    (h : ∀ c b s, (f c b).run s = (g s.members c b).map fun r => (r, s))
    (l : List β) (init : γ) (s : ProblemState α) :
    (l.foldlM f init).run s = (l.foldlM (g s.members) init).map fun r => (r, s) := by
  induction l generalizing init with
  | nil => rfl
  | cons b l ih =>
    simp only [List.foldlM_cons, StateT.run_bind, h]
    cases hg : g s.members init b with
    | none => rfl
    | some c => exact ih c

theorem run_mapM {β γ : Type} (f : β → Member α γ)
    (g : GSOProblemSeparate α → β → Option γ)
    (h : ∀ b s, (f b).run s = (g s.members b).map fun r => (r, s))
    (l : List β) (s : ProblemState α) :
    (l.mapM f).run s = (l.mapM (g s.members)).map fun r => (r, s) := by
  induction l with
  | nil => rfl
  | cons b l ih =>
    simp only [List.mapM_cons, StateT.run_bind, h]
    cases hg : g s.members b with
    | none => rfl
    | some c =>
      simp only [Option.map_some', Option.bind_eq_bind, Option.some_bind, ih]
      cases hl : List.mapM (g s.members) l with
      | none => rfl
      | some cs => rfl

theorem run_read_bind {β γ : Type} (member : GSOProblemSeparate α → β)
    (k : β → Member α γ) (s : ProblemState α) :
    (Member.read member >>= k).run s = (k (member s.members)).run s := rfl

theorem run_access_bind {β γ : Type} (value : Option β) (k : β → Member α γ)
    (s : ProblemState α) :
    (Member.access value >>= k).run s = value.bind fun v => (k v).run s := by
  cases value <;> rfl

theorem run_access {β : Type} (value : Option β) (s : ProblemState α) :
    (Member.access value : Member α β).run s = value.map fun v => (v, s) := rfl

theorem run_read {β : Type} (member : GSOProblemSeparate α → β) (s : ProblemState α) :
    (Member.read member).run s = some (member s.members, s) := rfl

theorem run_pure {β : Type} (value : β) (s : ProblemState α) :
    (pure value : Member α β).run s = some (value, s) := rfl

theorem run_addCoordActuatorForce [Zero α] [One α] [Add α] [Sub α] [Mul α] (controls genForce : List α)
    (i_act : Nat) (s : ProblemState α) :
    (Member.addCoordActuatorForce controls genForce i_act).run s
      = (addCoordActuatorForce s.members controls genForce i_act).map fun r => (r, s) := by
  unfold Member.addCoordActuatorForce addCoordActuatorForce
  simp only [run_read_bind, run_access_bind, run_pure, Option.bind_eq_bind, Option.map_bind',
    Option.pure_def, Option.map_some']

theorem run_muscleForce [Zero α] [One α] [Add α] [Sub α] [Mul α] (mf : MuscleFunctions α) (i_mesh : Nat)
    (controls : List α) (i_act : Nat) (s : ProblemState α) :
    (Member.muscleForce mf i_mesh controls i_act).run s
      = (muscleForce mf s.members i_mesh controls i_act).map fun r => (r, s) := by
  unfold Member.muscleForce muscleForce
  simp only [run_read_bind, run_access_bind, run_pure, Option.bind_eq_bind, Option.map_bind',
    Option.pure_def, Option.map_some']

theorem run_addMuscleGenForces [Zero α] [One α] [Add α] [Sub α] [Mul α] (mf : MuscleFunctions α) (i_mesh : Nat)
    (controls genForce : List α) (s : ProblemState α) :
    (Member.addMuscleGenForces mf i_mesh controls genForce).run s
      = (addMuscleGenForces mf s.members i_mesh controls genForce).map fun r => (r, s) := by
  unfold Member.addMuscleGenForces addMuscleGenForces
  rw [run_read_bind]
  by_cases hm : s.members._numMuscles ≠ 0
  · rw [if_pos hm, if_pos hm, StateT.run_bind,
      run_mapM _ (fun p => muscleForce mf p i_mesh controls) (run_muscleForce mf i_mesh controls)]
    simp only [Option.bind_eq_bind, Option.bind_map, Function.comp_def, run_read_bind,
      run_access_bind, run_access, Option.map_bind']
  · rw [if_neg hm, if_neg hm]
    rfl

theorem run_path_constraints [Zero α] [One α] [Add α] [Sub α] [Mul α] (mf : MuscleFunctions α) (i_mesh : Nat)
    (time : α) (states controls : List α) (s : ProblemState α) :
    (Member.path_constraints mf i_mesh time states controls).run s
      = (path_constraints mf s.members i_mesh time states controls).map fun r => (r, s) := by
  unfold Member.path_constraints path_constraints
  rw [run_read_bind, run_read_bind, StateT.run_bind,
    run_foldlM _ (fun p => addCoordActuatorForce p controls)
      (run_addCoordActuatorForce controls)]
  simp only [Option.bind_eq_bind, Option.bind_map, Function.comp_def, StateT.run_bind,
    run_addMuscleGenForces, run_read_bind, run_access_bind, run_access, Option.map_bind',
    run_read, Option.some_bind]

theorem run_assign_bind {γ : Type} (update : GSOProblemSeparate α → GSOProblemSeparate α)
    (k : Unit → Member α γ) (s : ProblemState α) :
    (Member.assign update >>= k).run s
      = (k ()).run { s with members := update s.members } := rfl

theorem run_assign (update : GSOProblemSeparate α → GSOProblemSeparate α)
    (s : ProblemState α) :
    (Member.assign update).run s = some ((), { s with members := update s.members }) := rfl

theorem run_interpolate_bind {β γ : Type} (query : MotionDataQuery α)
    (answer : InverseMuscleSolverMotionData α → β) (k : β → Member α γ)
    (s : ProblemState α) :
    (Member.interpolate query answer >>= k).run s
      = (k (answer s.members._motionData)).run
          { s with queries := s.queries ++ [query] } := rfl

/-- The statements of `initialize_on_mesh`, run on the object, leave the members that
`initialize_on_mesh` computes and add the queries it makes to those sent before: here the
state does change. -/
theorem run_initialize_on_mesh [Zero α] [One α] [Add α] [Sub α] [Mul α] (mesh : List α) (s : ProblemState α) :
    (Member.initialize_on_mesh mesh).run s
      = some ((), ⟨(initialize_on_mesh s.members mesh).1,
          s.queries ++ (initialize_on_mesh s.members mesh).2⟩) := by
  unfold Member.initialize_on_mesh initialize_on_mesh meshTimes
  simp only [run_read_bind, run_interpolate_bind, run_assign_bind]
  by_cases hm : s.members._numMuscles ≠ 0
  · rw [if_pos hm, if_pos hm]
    simp only [run_interpolate_bind, run_assign_bind, run_assign, List.append_assoc,
      List.singleton_append, List.cons_append, List.nil_append]
  · rw [if_neg hm, if_neg hm]
    rfl

theorem run_evaluate [Zero α] [One α] [Add α] [Sub α] [Mul α] (mf : MuscleFunctions α) (call : EvaluationCall α)
    (s : ProblemState α) :
    (Member.evaluate mf call).run s
      = (((Member.evaluate mf call).run s).map Prod.fst).map fun output => (output, s) := by
  cases call with
  | path_constraints i_mesh time states controls =>
    simp only [Member.evaluate, StateT.run_bind, run_path_constraints, run_pure,
      Option.bind_eq_bind, Option.bind_map, Function.comp_def, Option.map_bind',
      Option.map_some', Option.map_map]
  | integral_cost time states controls => rfl

/-- C22: the evaluation functions, run statement by statement on the object, have no side
effect.  A call of `path_constraints` returns `desiredMoments.col(i_mesh) - genForce` as
computed from the members, and a call of `integral_cost` the squared norm of the controls, with
the members (the cache and every other one) and the queries sent to the motion data as they
were before the call; a sequence of such calls returns the outputs that each call gives alone
in the initial state, and ends in the initial state; the outputs do not depend on the time and
states arguments; and `path_constraints` depends on the members only through the dimensions,
the actuator tables and the cache. -/
theorem evaluation_side_effect_free [Zero α] [One α] [Add α] [Sub α] [Mul α] (mf : MuscleFunctions α)
    (s : ProblemState α) :
    (∀ (i_mesh : Nat) (time : α) (states controls : List α),
      (Member.path_constraints mf i_mesh time states controls).run s
        = (path_constraints mf s.members i_mesh time states controls).map
            fun constraints => (constraints, s)) ∧
    (∀ (time : α) (states controls : List α),
      (Member.integral_cost time states controls).run s
        = some (integral_cost time states controls, s)) ∧
    (∀ (call : EvaluationCall α) (output : EvaluationOutput α) (s1 : ProblemState α),
      (Member.evaluate mf call).run s = some (output, s1) → s1 = s) ∧
    (∀ calls : List (EvaluationCall α),
      (calls.mapM (Member.evaluate mf)).run s
        = (calls.mapM fun call => ((Member.evaluate mf call).run s).map Prod.fst).map
            fun outputs => (outputs, s)) ∧
    (∀ (i_mesh : Nat) (time time2 : α) (states states2 controls : List α),
      (Member.path_constraints mf i_mesh time states controls).run s
        = (Member.path_constraints mf i_mesh time2 states2 controls).run s) ∧
    (∀ (time time2 : α) (states states2 controls : List α),
      (Member.integral_cost time states controls).run s
        = (Member.integral_cost time2 states2 controls).run s) ∧
    (∀ s2 : ProblemState α,
      s2.members._numCoordsToActuate = s.members._numCoordsToActuate →
      s2.members._numCoordActuators = s.members._numCoordActuators →
      s2.members._numMuscles = s.members._numMuscles →
      s2.members._coordActuatorDOFs = s.members._coordActuatorDOFs →
      s2.members._optimalForce = s.members._optimalForce →
      s2.members._muscles = s.members._muscles →
      s2.members._desiredMoments = s.members._desiredMoments →
      s2.members._muscleTendonLengths = s.members._muscleTendonLengths →
      s2.members._muscleTendonVelocities = s.members._muscleTendonVelocities →
      s2.members._momentArms = s.members._momentArms →
      ∀ (i_mesh : Nat) (time time2 : α) (states states2 controls : List α),
        ((Member.path_constraints mf i_mesh time states controls).run s2).map Prod.fst
          = ((Member.path_constraints mf i_mesh time2 states2 controls).run s).map
              Prod.fst) := by
  refine ⟨fun i_mesh time states controls => run_path_constraints mf i_mesh time states controls s,
    fun _ _ _ => rfl, ?_, ?_,
    fun _ _ _ _ _ _ => rfl, fun _ _ _ _ _ => rfl, ?_⟩
  · intro call output s1 h
    rw [run_evaluate] at h
    cases hr : Option.map Prod.fst ((Member.evaluate mf call).run s) with
    | none =>
      rw [hr] at h
      cases h
    | some o =>
      rw [hr] at h
      simp only [Option.map_some', Option.some.injEq, Prod.mk.injEq] at h
      exact h.2.symm
  · intro calls
    induction calls with
    | nil => rfl
    | cons call calls ih =>
      simp only [List.mapM_cons, StateT.run_bind]
      rw [run_evaluate]
      cases Option.map Prod.fst ((Member.evaluate mf call).run s) with
      | none => rfl
      | some output =>
        simp only [Option.map_some', Option.bind_eq_bind, Option.some_bind, ih]
        cases List.mapM
            (fun call => Option.map Prod.fst ((Member.evaluate mf call).run s)) calls with
        | none => rfl
        | some outputs => rfl
  · intro s2 h1 h2 h3 h4 h5 h6 h7 h8 h9 h10 i_mesh time time2 states states2 controls
    rw [run_path_constraints, run_path_constraints]
    simp only [Option.map_map, Function.comp_def, Option.map_id', path_constraints,
      addMuscleGenForces, h1, h2, h3, h7, h10,
      addCoordActuatorForce_congr s.members s2.members h4 h5,
      muscleForce_congr mf s.members s2.members h2 h8 h9 h6]

end CallClaims

section BookkeepingClaims

variable {α : Type}

theorem le_findCoordPath (coordPath : String) (l : List String) (i : Nat) :
    i ≤ findCoordPath coordPath l i := by
  induction l generalizing i with
  | nil => simp [findCoordPath]
  | cons a l ih =>
    unfold findCoordPath
    split
    · have := ih (i + 1)
      omega
    · exact le_rfl

/-- The search of lines 92-96 stops at the first position holding `coordPath`. -/
theorem findCoordPath_first (coordPath : String) (l : List String) (i : Nat) :
    (∀ j, j < findCoordPath coordPath l i - i → l[j]? ≠ some coordPath) ∧
    (findCoordPath coordPath l i - i < l.length →
      l[findCoordPath coordPath l i - i]? = some coordPath) := by
  induction l generalizing i with
  | nil => simp [findCoordPath]
  | cons a l ih =>
    unfold findCoordPath
    by_cases h : a = coordPath
    · simp [h]
    · have hle := le_findCoordPath coordPath l (i + 1)
      obtain ⟨ih1, ih2⟩ := ih (i + 1)
      simp only [ne_eq, h, not_false_eq_true, if_true]
      have hsub : findCoordPath coordPath l (i + 1) - i
          = (findCoordPath coordPath l (i + 1) - (i + 1)) + 1 := by omega
      rw [hsub]
      constructor
      · intro j hj
        cases j with
        | zero => simpa using h
        | succ j =>
          simp only [List.getElem?_cons_succ]
          exact ih1 j (by omega)
      · intro hlt
        simp only [List.getElem?_cons_succ]
        exact ih2 (by simpa using hlt)

/-- C28: after a construction that threw nothing, the enabled coordinate actuator at position
`k` among the enabled coordinate actuators owns the control, the other-controls label, the
optimal force and the DOF at position `k`; its DOF is the smallest index of the coordinates to
actuate that holds the model-relative path of its coordinate, and is smaller than
`_numCoordsToActuate`; and the loop of `path_constraints` over the coordinate actuators, run
over any number of them on controls that hold one entry per coordinate actuator, reads and
writes within bounds. -/
theorem construct_coordActuator_bookkeeping [CommRing α] (model : Model α)
    (motionData : InverseMuscleSolverMotionData α)
    (hok : (construct model motionData).2 = none) :
    (construct model motionData).1._numCoordActuators
        = model.enabledCoordinateActuators.length ∧
    (∀ (k : Nat) (a : ScalarActuator α), model.enabledCoordinateActuators[k]? = some a →
      (construct model motionData).1.controls[k]?
        = some (a.absolutePathName ++ "_control", ⟨a.min_control, a.max_control⟩) ∧
      (construct model motionData).1._otherControlsLabels[k]? = some a.absolutePathName ∧
      (construct model motionData).1._optimalForce[k]? = some a.optimalForce ∧
      ∃ dof, (construct model motionData).1._coordActuatorDOFs[k]? = some dof ∧
        motionData.getCoordinatesToActuate[dof]? = some a.coordinate.relativePathName ∧
        (∀ j, j < dof →
          motionData.getCoordinatesToActuate[j]? ≠ some a.coordinate.relativePathName) ∧
        dof < (construct model motionData).1._numCoordsToActuate) ∧
    (∀ (controls : List α) (n : Nat),
      (construct model motionData).1._numCoordActuators ≤ controls.length →
      n ≤ (construct model motionData).1._numCoordActuators →
      ∃ genForce,
        (List.range n).foldlM (addCoordActuatorForce (construct model motionData).1 controls)
            (List.replicate (construct model motionData).1._numCoordsToActuate 0)
          = some genForce ∧
        genForce.length = (construct model motionData).1._numCoordsToActuate) := by
  have hidx := construct_actuatorsIndexed model motionData hok
  have hs := construct_state_of_ok model motionData hok
  refine ⟨by rw [hs], ?_, ?_⟩
  · intro k a hk
    have hklt : k < model.enabledCoordinateActuators.length := by
      by_contra hcon
      rw [List.getElem?_eq_none (by omega)] at hk
      cases hk
    have hdofs : (construct model motionData).1._coordActuatorDOFs[k]?
        = some (findCoordPath a.coordinate.relativePathName
            motionData.getCoordinatesToActuate 0) := by
      rw [hs]
      simp only [List.getElem?_map, hk, Option.map_some']
    have hmem : findCoordPath a.coordinate.relativePathName
        motionData.getCoordinatesToActuate 0 ∈
          (construct model motionData).1._coordActuatorDOFs := by
      obtain ⟨hb, he⟩ := List.getElem?_eq_some.1 hdofs
      rw [← he]
      exact List.getElem_mem _
    have hlt := hidx.2.2.2 _ hmem
    have hn : (construct model motionData).1._numCoordsToActuate
        = motionData.getCoordinatesToActuate.length := by rw [hs]
    obtain ⟨hfirst, hat⟩ := findCoordPath_first a.coordinate.relativePathName
      motionData.getCoordinatesToActuate 0
    simp only [Nat.sub_zero] at hfirst hat
    refine ⟨?_, ?_, ?_, _, hdofs, hat (by omega), hfirst, hlt⟩
    · rw [hs]
      simp only
      rw [List.getElem?_append_left (by simpa using hklt)]
      simp only [List.getElem?_map, hk, Option.map_some']
    · rw [hs]
      simp only [List.getElem?_map, hk, Option.map_some']
    · rw [hs]
      simp only [List.getElem?_map, hk, Option.map_some']
  · intro controls n hlen hn
    have h := foldlM_addCoordActuatorForce (construct model motionData).1 controls hidx hlen n hn
    exact ⟨_, h, by simp⟩

/-- Instance of C28 on the example model: the knee reserve, the only enabled coordinate
actuator, has DOF 0, the position of the knee among the coordinates to actuate. -/
theorem construct_coordActuator_bookkeeping_witness :
    (construct Example.leg Example.motion).2 = none ∧
    (construct Example.leg Example.motion).1._optimalForce[0]? = some 5 ∧
    ∃ dof, (construct Example.leg Example.motion).1._coordActuatorDOFs[0]? = some dof ∧
      Example.motion.getCoordinatesToActuate[dof]? = some "jointset/knee/flexion" ∧
      (∀ j, j < dof →
        Example.motion.getCoordinatesToActuate[j]? ≠ some "jointset/knee/flexion") ∧
      dof < (construct Example.leg Example.motion).1._numCoordsToActuate :=
  have h := ((construct_coordActuator_bookkeeping Example.leg Example.motion (by decide)).2.1
    0 Example.reserveKnee rfl)
  ⟨by decide, h.2.2.1, h.2.2.2⟩

end BookkeepingClaims

section NoMuscleClaims

variable {α : Type}

/-- C29: for a problem without muscles, `initialize_on_mesh` sends one query, for the net
generalized forces at the mesh times, and none for the muscle-tendon lengths, the muscle-tendon
velocities or the moment arms; the problem after the call is the problem before it with the
desired moments replaced, so that the cached muscle-tendon lengths, muscle-tendon velocities
and moment arms are those from before the call. -/
theorem initialize_on_mesh_no_muscles [CommRing α] (p : GSOProblemSeparate α)
    (mesh : List α) (hm : p._numMuscles = 0) :
    (initialize_on_mesh p mesh).2
      = [MotionDataQuery.netGeneralizedForces (meshTimes p mesh)] ∧
    (∀ times, MotionDataQuery.muscleTendonLengths times ∉ (initialize_on_mesh p mesh).2 ∧
      MotionDataQuery.muscleTendonVelocities times ∉ (initialize_on_mesh p mesh).2 ∧
      MotionDataQuery.momentArms times ∉ (initialize_on_mesh p mesh).2) ∧
    (initialize_on_mesh p mesh).1
      = { p with _desiredMoments :=
            p._motionData.interpolateNetGeneralizedForces (meshTimes p mesh) } ∧
    (initialize_on_mesh p mesh).1._muscleTendonLengths = p._muscleTendonLengths ∧
    (initialize_on_mesh p mesh).1._muscleTendonVelocities = p._muscleTendonVelocities ∧
    (initialize_on_mesh p mesh).1._momentArms = p._momentArms := by
  have h : initialize_on_mesh p mesh
      = ({ p with _desiredMoments :=
            p._motionData.interpolateNetGeneralizedForces (meshTimes p mesh) },
          [MotionDataQuery.netGeneralizedForces (meshTimes p mesh)]) := by
    unfold initialize_on_mesh
    rw [if_neg (not_not.2 hm)]
  rw [h]
  refine ⟨rfl, fun times => ?_, rfl, rfl, rfl, rfl⟩
  simp

/-- Instance of C29 on the example problem built from a model whose only muscle is disabled:
initialization on the mesh 0, 1/2, 1 asks for the net generalized forces only and leaves the
empty muscle caches of the constructor in place. -/
theorem initialize_on_mesh_no_muscles_witness :
    (construct Example.singleActuator Example.motionNoMuscles).2 = none ∧
    Example.singleActuator.enabledMuscles = [] ∧
    Example.problemNoMuscles._numMuscles = 0 ∧
    (initialize_on_mesh Example.problemNoMuscles [0, 1 / 2, 1]).2
      = [MotionDataQuery.netGeneralizedForces
          (meshTimes Example.problemNoMuscles [0, 1 / 2, 1])] ∧
    (initialize_on_mesh Example.problemNoMuscles [0, 1 / 2, 1]).1._momentArms = [] :=
  have h := initialize_on_mesh_no_muscles Example.problemNoMuscles [0, 1 / 2, 1] (by decide)
  ⟨by decide, rfl, by decide, h.1, h.2.2.2.2.2.trans rfl⟩

end NoMuscleClaims

section EngineClaims

variable {α : Type}

theorem identifyGroundBodyLoop_first (l : List AbstractBody) (i : Nat) (b : AbstractBody)
    (hb : l[i]? = some b) (hname : b.name = "ground")
    (hfirst : ∀ j c, j < i → l[j]? = some c → c.name ≠ "ground") :
    identifyGroundBodyLoop l = some b := by
  induction l generalizing i with
  | nil => simp at hb
  | cons a l ih =>
    unfold identifyGroundBodyLoop
    cases i with
    | zero =>
      simp only [List.getElem?_cons_zero, Option.some.injEq] at hb
      rw [hb, if_pos (show b.name = simbodyGroundName from hname)]
    | succ i =>
      have ha : a.name ≠ simbodyGroundName := hfirst 0 a (by omega) (by simp)
      rw [if_neg ha]
      exact ih i (by simpa using hb) fun j c hj hc => hfirst (j + 1) c (by omega) (by simpa using hc)

theorem identifyGroundBodyLoop_none (l : List AbstractBody)
    (h : ∀ b ∈ l, b.name ≠ "ground") : identifyGroundBodyLoop l = none := by
  induction l with
  | nil => rfl
  | cons a l ih =>
    unfold identifyGroundBodyLoop
    have ha : a.name ≠ simbodyGroundName := h a (by simp)
    rw [if_neg ha]
    exact ih fun b hb => h b (by simp [hb])

/-- C24: `identifyGroundBody` returns the first body of the body set named "ground": the body
at an index whose name is "ground" when no body at a smaller index has that name; when no body
has that name it returns the first body of the set; and it returns `NULL` exactly when the body
set is empty. -/
theorem identifyGroundBody_spec (engine : SimbodyEngine α) :
    (∀ (i : Nat) (b : AbstractBody), engine._bodySet[i]? = some b → b.name = "ground" →
      (∀ j c, j < i → engine._bodySet[j]? = some c → c.name ≠ "ground") →
      identifyGroundBody engine = some b) ∧
    ((∀ b ∈ engine._bodySet, b.name ≠ "ground") →
      identifyGroundBody engine = engine._bodySet[0]?) ∧
    (identifyGroundBody engine = none ↔ engine._bodySet = []) := by
  refine ⟨fun i b hb hname hfirst => ?_, fun hnone => ?_, ?_⟩
  · unfold identifyGroundBody
    rw [identifyGroundBodyLoop_first _ i b hb hname hfirst]
  · unfold identifyGroundBody
    rw [identifyGroundBodyLoop_none _ hnone]
    cases h : engine._bodySet with
    | nil => simp
    | cons a l => simp
  · unfold identifyGroundBody
    cases h : engine._bodySet with
    | nil => simp [identifyGroundBodyLoop]
    | cons a l =>
      cases h2 : identifyGroundBodyLoop (a :: l) with
      | none => simp
      | some b => simp

end EngineClaims

section EngineArrayClaims

variable {α : Type}

/-- C25: with `nq` coordinates and `nu` speeds, on arrays long enough for the two copies,
`extractConfiguration` returns with the engine and `aY` as they were, the first `nq` entries of
`rQ` equal to `aY[0..nq)` and the first `nu` entries of `rU` equal to `aY[nq..nq+nu)`, so that
the two together are the first `nq + nu` entries of `aY`; the entries of `rQ` and `rU` behind
these are the ones from before the call. -/
theorem extractConfiguration_splits (engine : SimbodyEngine α) (aY rQ rU : List α)
    (hq : 0 ≤ engine.getNumCoordinates) (hu : 0 ≤ engine.getNumSpeeds)
    (hY : engine.getNumCoordinates.toNat + engine.getNumSpeeds.toNat ≤ aY.length)
    (hQ : engine.getNumCoordinates.toNat ≤ rQ.length)
    (hU : engine.getNumSpeeds.toNat ≤ rU.length) :
    ∃ rQ1 rU1, extractConfiguration engine aY rQ rU = some (engine, aY, rQ1, rU1) ∧
      rQ1.take engine.getNumCoordinates.toNat = aY.take engine.getNumCoordinates.toNat ∧
      rU1.take engine.getNumSpeeds.toNat
        = (aY.drop engine.getNumCoordinates.toNat).take engine.getNumSpeeds.toNat ∧
      rQ1.take engine.getNumCoordinates.toNat ++ rU1.take engine.getNumSpeeds.toNat
        = aY.take (engine.getNumCoordinates.toNat + engine.getNumSpeeds.toNat) ∧
      rQ1.drop engine.getNumCoordinates.toNat = rQ.drop engine.getNumCoordinates.toNat ∧
      rU1.drop engine.getNumSpeeds.toNat = rU.drop engine.getNumSpeeds.toNat ∧
      rQ1.length = rQ.length ∧ rU1.length = rU.length := by
  have h1 : memcpy rQ aY engine.getNumCoordinates
      = some (aY.take engine.getNumCoordinates.toNat
          ++ rQ.drop engine.getNumCoordinates.toNat) := by
    unfold memcpy
    rw [if_pos ⟨hq, by omega, hQ⟩]
  have h2 : memcpy rU (aY.drop engine.getNumCoordinates.toNat) engine.getNumSpeeds
      = some ((aY.drop engine.getNumCoordinates.toNat).take engine.getNumSpeeds.toNat
          ++ rU.drop engine.getNumSpeeds.toNat) := by
    unfold memcpy
    rw [if_pos ⟨hu, by rw [List.length_drop]; omega, hU⟩]
  have hl1 : (aY.take engine.getNumCoordinates.toNat).length
      = engine.getNumCoordinates.toNat := by
    rw [List.length_take]
    omega
  have hl2 : ((aY.drop engine.getNumCoordinates.toNat).take
      engine.getNumSpeeds.toNat).length = engine.getNumSpeeds.toNat := by
    rw [List.length_take, List.length_drop]
    omega
  refine ⟨aY.take engine.getNumCoordinates.toNat ++ rQ.drop engine.getNumCoordinates.toNat,
    (aY.drop engine.getNumCoordinates.toNat).take engine.getNumSpeeds.toNat
      ++ rU.drop engine.getNumSpeeds.toNat, ?_, ?_, ?_, ?_, ?_, ?_, ?_, ?_⟩
  · unfold extractConfiguration
    simp only [h1, h2, Option.bind_eq_bind, Option.some_bind, Option.pure_def]
  · rw [List.take_left' hl1]
  · rw [List.take_left' hl2]
  · rw [List.take_left' hl1, List.take_left' hl2, List.take_add]
  · rw [List.drop_left' hl1]
  · rw [List.drop_left' hl2]
  · rw [List.length_append, hl1, List.length_drop]
    omega
  · rw [List.length_append, hl2, List.length_drop]
    omega

/-- Instance of C25 on the engine with three coordinates and two speeds: from the array
1, ..., 6 the coordinates 1, 2, 3 and the speeds 4, 5 are extracted. -/
theorem extractConfiguration_splits_witness :
    extractConfiguration Example.engineQuaternion [1, 2, 3, 4, 5, 6] [0, 0, 0, 0] [0, 0]
        = some (Example.engineQuaternion, [1, 2, 3, 4, 5, 6], [1, 2, 3, 0], [4, 5]) ∧
    ∃ rQ1 rU1,
      extractConfiguration Example.engineQuaternion [1, 2, 3, 4, 5, 6] [0, 0, 0, 0] [0, 0]
        = some (Example.engineQuaternion, [1, 2, 3, 4, 5, 6], rQ1, rU1) ∧
      rQ1.take 3 ++ rU1.take 2 = [1, 2, 3, 4, 5] :=
  have h := extractConfiguration_splits Example.engineQuaternion [1, 2, 3, 4, 5, 6]
    [0, 0, 0, 0] [0, 0] (by decide) (by decide) (by decide) (by decide) (by decide)
  ⟨rfl, h.choose, h.choose_spec.choose, h.choose_spec.choose_spec.1,
    h.choose_spec.choose_spec.2.2.2.1⟩

/-- C27 does not hold of the code: called for two bodies on the points 10, ..., 15 and the
forces 20, ..., 25, the flat-array `applyForcesBodyLocal` gives the second body the point
(12, 13, 14) and the force (22, 23, 24), which start at index 2, while the flat-array
`applyForces` gives it the point (13, 14, 15) and the force (23, 24, 25), which start at
index 3. -/
theorem applyForcesBodyLocal_stride_two :
    applyForcesBodyLocal 2 (some [⟨"femur"⟩, ⟨"tibia"⟩]) (some Example.flatPoints)
        (some Example.flatForces)
      = some [LoadCall.applyForceBodyLocal ⟨"femur"⟩ [10, 11, 12] [20, 21, 22],
          LoadCall.applyForceBodyLocal ⟨"tibia"⟩ [12, 13, 14] [22, 23, 24]] ∧
    applyForces 2 (some [⟨"femur"⟩, ⟨"tibia"⟩]) (some Example.flatPoints)
        (some Example.flatForces)
      = some [LoadCall.applyForce ⟨"femur"⟩ [10, 11, 12] [20, 21, 22],
          LoadCall.applyForce ⟨"tibia"⟩ [13, 14, 15] [23, 24, 25]] :=
  ⟨rfl, rfl⟩

end EngineArrayClaims

section StorageClaims

theorem stateVectorLoop_fixed {α : Type} (pass : ConversionState α → Option (ConversionState α))
    (s : ConversionState α) (hi : s.i < s.store.length) (hs : pass s = some s) (fuel : Nat) :
    stateVectorLoop pass fuel s = .error .outOfFuel := by
  induction fuel with
  | zero => rfl
  | succ fuel ih =>
    unfold stateVectorLoop
    rw [if_pos hi, hs]
    exact ih

/-- C26 does not hold of the code: with one coordinate and one speed, on a storage of three
state vectors of one state each the call never returns, whatever the values of new memory are:
every bound on the number of tests of the loop condition is reached; and on a storage of two
such state vectors the call returns after one pass, with the first state vector overwritten by
new memory and the second never visited. -/
theorem convertQuaternionsToAngles_loops_on_three_vectors :
    (∀ (uninitialized : ℚ) (fuel : Nat),
      convertQuaternionsToAngles fuel uninitialized Example.engineEuler
        (some Example.storeThree) = .error .outOfFuel) ∧
    (∀ (uninitialized : ℚ) (fuel : Nat),
      convertQuaternionsToAngles (fuel + 2) uninitialized Example.engineEuler
          (some Example.storeTwo)
        = .ok (some [some ⟨0, some [uninitialized]⟩, some ⟨1, some [11]⟩])) := by
  constructor
  · intro u fuel
    have hs : convertQuaternionsToAnglesPass 1 1 (1 - 1) u
        ⟨2, 1, [u], [some ⟨0, some [u]⟩, some ⟨1, some [11]⟩, some ⟨2, some [u]⟩]⟩
        = some ⟨2, 1, [u], [some ⟨0, some [u]⟩, some ⟨1, some [11]⟩, some ⟨2, some [u]⟩]⟩ := by
      rfl
    have hfix := stateVectorLoop_fixed (convertQuaternionsToAnglesPass 1 1 (1 - 1) u)
      ⟨2, 1, [u], [some ⟨0, some [u]⟩, some ⟨1, some [11]⟩, some ⟨2, some [u]⟩]⟩
      (by norm_num) hs
    match fuel with
    | 0 => rfl
    | 1 => rfl
    | 2 => rfl
    | fuel + 3 => exact congrArg (Except.map some) (hfix (fuel + 1))
  · intro u fuel
    rfl

/-- C30 does not hold of the code: with three coordinates and two speeds, on a storage whose
first state vector has five states and whose second has three, the second state vector is
replaced by one of six states, not four: the buffer has kept the size six of the first pass,
and the two last states are those written for the first state vector. -/
theorem convertAnglesToQuaternions_keeps_buffer_size :
    ∀ (uninitialized : ℚ) (fuel : Nat),
      convertAnglesToQuaternions (fuel + 3) uninitialized Example.engineQuaternion
          (some Example.storeLongShort)
        = .ok (some
            [some ⟨0, some [uninitialized, uninitialized, uninitialized, 3, 4, 5]⟩,
             some ⟨1, some [uninitialized, uninitialized, uninitialized, 8, 4, 5]⟩]) := by
  intro u fuel
  rfl

end StorageClaims

section ReconstructionCounterexample

/-- C13 does not hold for every iterate with `_numCoordActuators + _numMuscles` control rows.
The example problem has one coordinate actuator and one muscle and was initialized on a mesh
of three points, so that its cached muscle-tendon lengths have three columns; the iterate has
two control rows, a column per time sample, and four time samples: for the fourth,
`deconstruct_iterate` reads the muscle-tendon length at column 3, outside the cache, and
returns no solution. -/
theorem deconstruct_iterate_splits_controls_counterexample :
    (construct Example.leg Example.motion).2 = none ∧
    Example.problemOnMesh = (initialize_on_mesh (construct Example.leg Example.motion).1
      [0, 1 / 2, 1]).1 ∧
    Example.iterate4.controls.rows
      = Example.problemOnMesh._numCoordActuators + Example.problemOnMesh._numMuscles ∧
    Example.iterate4.controls.cols = Example.iterate4.time.length ∧
    Example.iterate4.time.length = 4 ∧
    Example.problemOnMesh._muscleTendonLengths.cols = 3 ∧
    deconstruct_iterate Example.linearMuscle Example.problemOnMesh Example.iterate4 = none :=
  ⟨by decide, rfl, by decide, by decide, by decide, by decide, rfl⟩

end ReconstructionCounterexample

section RoundingClaims

set_option maxRecDepth 100000

/-- C3 does not hold in `double`s.  The problem is constructed from a model with one actuated
coordinate, one enabled coordinate actuator on it with optimal force 49 and no muscle, and the
desired force is 1.  At the control 1 / 49 (the `double` 5882252574524729 * 2^-58) the
residual is 2^-53, not zero; at the next `double`, which is not 1 / 49, the residual is
zero. -/
theorem single_actuator_residual_zero_iff_counterexample :
    (construct Example.singleActuatorDouble Example.motionDouble).2 = none ∧
    Example.singleActuatorDouble.enabledCoordinateActuators = [Example.reserveKneeDouble] ∧
    Example.singleActuatorDouble.enabledMuscles = [] ∧
    Example.reserveKneeDouble.optimalForce ≠ 0 ∧
    Example.problemDouble._desiredMoments.coeff 0 1 / Example.reserveKneeDouble.optimalForce
      = ⟨5882252574524729, -58⟩ ∧
    path_constraints Example.linearMuscleDouble Example.problemDouble 1 0 []
        [⟨5882252574524729, -58⟩] = some [⟨1, -53⟩] ∧
    path_constraints Example.linearMuscleDouble Example.problemDouble 1 0 []
        [⟨2941126287262365, -57⟩] = some [0] :=
  ⟨by decide, rfl, rfl, by decide, by decide, by decide, by decide⟩

end RoundingClaims

end OpenSim
